import Mathlib

/-! # YASK kernel: bundle micro-block evaluation (`src/kernel/lib/stencil_calc.cpp`)

A shallow embedding of `StencilBundleBase::calc_micro_block`, `update_var_info`,
`find_write_halos` and `adjust_span`, followed by theorems about them.

Conventions of the embedding.
* `idx_t` (a 64-bit signed integer in the source) is `Int`; signed overflow is
  undefined behaviour in C++, so results are meant for values that do not overflow.
* An index tuple (`Indices`, `IdxTuple`) is a list with one entry per dimension;
  reading outside the tuple (undefined in the source) yields `0` here, writing
  outside it changes nothing.
* Stencil dimensions are the step dimension followed by the domain dimensions.
-/

namespace yask

/-! ## Index tuples -/

/-- The index type `idx_t` of the kernel. -/
abbrev idx_t := Int

/-- One `idx_t` per dimension. -/
abbrev Indices := List idx_t

/-- Element read `v[i]`. -/
def idx_get (v : Indices) (i : Nat) : idx_t := v.getD i 0

/-- Element write `v[i] = x`. -/
def idx_set (v : Indices) (i : Nat) (x : idx_t) : Indices := List.set v i x

/-- Modelled from the spec: `step_posn`, set by the macro `STATE_VARS` whose definition is
not in `stencil_calc.cpp`; the step dimension is the first stencil dimension. -/
def step_posn : Nat := 0

/-- Modelled from the spec: the stencil-dimension index `i` paired with the domain-dimension
index `j` by the macros `DOMAIN_VAR_LOOP(i, j)` and `DOMAIN_VAR_LOOP_FAST(i, j)`, whose
definitions are not in `stencil_calc.cpp`. There is exactly one step dimension, placed first, so
`i = j + 1`; the loops run `j` from `0` to `NUM_DOMAIN_DIMS - 1`. -/
def stencil_posn (j : Nat) : Nat := j + 1

/-- The fields of `ScanIndices` used by the bundle code: one value per stencil dimension. -/
structure ScanIndices where
  begin : Indices
  end_ : Indices
  stride : Indices
  align : Indices
  start : Indices
  stop : Indices
  deriving DecidableEq, Repr

/-- Modelled from the spec: `ScanIndices::get_overall_range(i)`, declared in a header:
the width `end[i] - begin[i]` of the whole range in one dimension. -/
def ScanIndices.get_overall_range (s : ScanIndices) (i : Nat) : idx_t :=
  idx_get s.end_ i - idx_get s.begin i

/-- The fields of `BoundingBox` used by the bundle code: begin and end per domain
dimension and the number of valid points. Modelled from the spec: the comparison
`fbb != bb` of the source is the comparison of these fields. -/
structure BoundingBox where
  bb_begin : Indices
  bb_end : Indices
  bb_num_points : idx_t
  deriving DecidableEq, Repr

/-! ## Trimming a range to a bounding box (`calc_micro_block`, lines 88-103 and 161-176) -/

/-- The loop `DOMAIN_VAR_LOOP_FAST(i, j) { ... if (bend <= bbegin) { ok = false; break; } }`
that trims `dst` (a copy of `src`) to box `bb`. `cnt` is the number of domain dimensions
still to visit and `j` the current one. Returns the trimmed indices and the `ok` flag. -/
def trim_loop (src : ScanIndices) (bb : BoundingBox) :
    Nat → Nat → ScanIndices → Bool → ScanIndices × Bool
  | 0, _, dst, ok => (dst, ok)
  | cnt + 1, j, dst, ok =>
    let i := stencil_posn j
    let bbegin := max (idx_get src.begin i) (idx_get bb.bb_begin j)
    let bend := min (idx_get src.end_ i) (idx_get bb.bb_end j)
    let dst1 : ScanIndices :=
      { dst with begin := idx_set dst.begin i bbegin, end_ := idx_set dst.end_ i bend }
    if bend ≤ bbegin then (dst1, false)
    else trim_loop src bb cnt (j + 1) dst1 ok

/-- Lines 83-103: `bb_ok` starts as `bb.bb_num_points > 0`, `mb_idxs1` as a copy of the
micro-block, and the loop trims it over the `ndd` domain dimensions. -/
def trim_to_bb (ndd : Nat) (micro_block_idxs : ScanIndices) (bb : BoundingBox) :
    ScanIndices × Bool :=
  trim_loop micro_block_idxs bb ndd 0 micro_block_idxs (decide (bb.bb_num_points > 0))

/-! ## Integer helpers -/

/-- Modelled from the spec: `idiv_flr(a, b)`, defined in a header: the quotient of
`a` by `b` rounded toward minus infinity (floor, not truncating, division). -/
def idiv_flr (a b : idx_t) : idx_t := Int.fdiv a b

/-- Modelled from the spec: `imod_flr(a, b)`, defined in a header: the remainder
that goes with the floor division `idiv_flr`. -/
def imod_flr (a b : idx_t) : idx_t := Int.fmod a b

/-- Modelled from the spec: `round_down_flr(a, b)`, defined in a header: `a` rounded
down to a multiple of `b`. -/
def round_down_flr (a b : idx_t) : idx_t := idiv_flr a b * b

/-- Modelled from the spec: `round_up_flr(a, b)`, defined in a header: `a` rounded
up to a multiple of `b`. -/
def round_up_flr (a b : idx_t) : idx_t := idiv_flr (a + b - 1) b * b

/-! ## Variables -/

/-- The enumeration `YkVarBase::dirty_idx`: whose dirty flag is meant. -/
inductive dirty_idx where
  | self
  | others
  deriving DecidableEq, Repr

/-- Modelled from the spec: the bookkeeping part of a variable (`YkVarBase`), declared
in a header: a dirty flag per perspective and step, the device-modified mark of its
coherency record and the last valid step. -/
structure YkVarBase where
  dirty : dirty_idx → idx_t → Bool
  dev_modified : Bool
  valid_step : idx_t

/-- Modelled from the spec: `set_dirty(whose, val, t)` writes the one flag of perspective
`whose` and step `t`. -/
def YkVarBase.set_dirty (gb : YkVarBase) (whose : dirty_idx) (val : Bool) (t : idx_t) :
    YkVarBase :=
  { gb with dirty := fun w s => if w = whose ∧ s = t then val else gb.dirty w s }

/-- Modelled from the spec: `get_coh().mod_dev()` marks the variable as modified on the
device. -/
def YkVarBase.mod_dev (gb : YkVarBase) : YkVarBase :=
  { gb with dev_modified := true }

/-- Modelled from the spec: `update_valid_step(t)` records `t` as the last valid step. -/
def YkVarBase.update_valid_step (gb : YkVarBase) (t : idx_t) : YkVarBase :=
  { gb with valid_step := t }

/-- The variables of the solution, addressed by pointer. -/
abbrev VarStore := Nat → YkVarBase

/-- Thread-0 instance of an output scratch variable, as `find_write_halos` reads it:
the names of its dimensions and its halo sizes per dimension position. -/
structure ScratchVar where
  dim_names : List String
  left_halo : Indices
  right_halo : Indices
  deriving DecidableEq, Repr

/-- Modelled from the spec: `get_dim_posn(dname)`, declared in a header: the position
of dimension `dname` in the variable, or `-1` when the variable does not have it. -/
def ScratchVar.get_dim_posn (gb : ScratchVar) (dname : String) : Int :=
  if gb.dim_names.indexOf dname < gb.dim_names.length then
    (gb.dim_names.indexOf dname : Int)
  else -1

/-- Accessor `get_left_halo_size(posn)`. -/
def ScratchVar.get_left_halo_size (gp : ScratchVar) (posn : Int) : idx_t :=
  idx_get gp.left_halo posn.toNat

/-- Accessor `get_right_halo_size(posn)`. -/
def ScratchVar.get_right_halo_size (gp : ScratchVar) (posn : Int) : idx_t :=
  idx_get gp.right_halo posn.toNat

/-! ## Settings, context and bundles -/

/-- The fields of `KernelSettings` read by `calc_micro_block`. -/
structure KernelSettings where
  bind_inner_threads : Bool
  _bind_posn : Nat
  _nano_block_sizes : Indices
  _micro_block_sizes : Indices
  _micro_block_tile_sizes : Indices

/-- The fields of `MpiSection` read by `calc_micro_block`. -/
structure MpiSection where
  do_mpi_left : Bool
  do_mpi_right : Bool

/-- What the bundle code obtains from the context through `STATE_VARS` and from code that
is generated or lives outside `stencil_calc.cpp`.
* `num_domain_dims`: `NUM_DOMAIN_DIMS`; `domain_dims`: names of `dims->_domain_dims`;
  `fold_pts`: the vector-fold size per domain dimension.
* `num_inner_threads`: the value returned by `set_num_inner_threads()`.
* `settings_strides`: the fields other than begin and end that
  `ScanIndices::adjust_from_settings` computes.
* `micro_block_loops`: the sequence of `nano_blk_range` values the generated loops of
  `yask_micro_block_loops.hpp` produce for the given loop indices.
* `omp_get_thread_num`: the thread OpenMP picks for an iteration when threads are not
  bound to data. -/
structure StencilContext where
  num_domain_dims : Nat
  domain_dims : List String
  fold_pts : Indices
  num_inner_threads : Nat
  settings_strides : Indices → Indices → Indices → ScanIndices → ScanIndices
  micro_block_loops : ScanIndices → List ScanIndices
  omp_get_thread_num : ScanIndices → Nat

/-- Modelled from the spec: `ScanIndices::adjust_from_settings`, declared in a header
and documented at its call as "Tweak strides based on settings": begin and end are
kept, the other fields come from the context. -/
def ScanIndices.adjust_from_settings (ctx : StencilContext) (s : ScanIndices)
    (sizes tile_sizes sub_sizes : Indices) : ScanIndices :=
  { ctx.settings_strides sizes tile_sizes sub_sizes s with begin := s.begin, end_ := s.end_ }

/-- The members of `StencilBundleBase` used by `stencil_calc.cpp`. `is_in_valid_step` and
`get_output_step_index` are generated per bundle; the latter yields the output step, if
any. The per-point estimates `get_scalar_points_read`, `get_scalar_points_written` and
`get_scalar_fp_ops` come from the equation-cost model and are only read by
`init_work_stats`. -/
structure StencilBundleBase where
  name : String
  is_scratch : Bool
  _bundle_bb : BoundingBox
  _bb_list : List BoundingBox
  is_in_valid_step : idx_t → Bool
  get_output_step_index : idx_t → Option idx_t
  output_var_ptrs : List Nat
  output_scratch_vecs : List ScratchVar
  max_lh : Indices
  max_rh : Indices
  get_scalar_points_read : idx_t := 0
  get_scalar_points_written : idx_t := 0
  get_scalar_fp_ops : idx_t := 0
  input_var_ptrs : List Nat := []

/-- Accessor `get_bbs()`. -/
def StencilBundleBase.get_bbs (sg : StencilBundleBase) : List BoundingBox := sg._bb_list

/-! ## Observable effects -/

/-- A call made by the bundle code that the theorems observe: an evaluation of a
nano-block by a bundle (`calc_nano_block`, an opaque callable) or an entry into
`update_var_info`. -/
inductive Event where
  | calc_nano_block (bundle : String) (outer_thread_idx inner_thread_idx : Nat)
      (nano_blk_range : ScanIndices)
  | update_var_info (bundle : String) (whose : dirty_idx) (t : idx_t)
      (mark_extern_dirty mod_dev_data update_valid_step : Bool)
  deriving DecidableEq, Repr

/-- Bookkeeping state of the variables and the calls made so far, oldest first. -/
structure KernelState where
  vars : VarStore
  trace : List Event

/-- Result of a call that may fail an assertion: the state reached, and whether the call
ran to its end or stopped at a failed `assert`. -/
inductive Outcome where
  | done (st : KernelState)
  | assert_failed (st : KernelState)

/-! ## `find_write_halos` (lines 345-389) -/

/-- The loop `DOMAIN_VAR_LOOP(i, j)` of `find_write_halos` for one output scratch
variable `gp`: the maxima of domain dimension `j` are raised to the halo sizes of `gp`
when `gp` has that dimension. The state is the pair `(max_lh, max_rh)`. -/
def write_halo_loop (domain_dims : List String) (gp : ScratchVar) :
    Nat → Nat → Indices × Indices → Indices × Indices
  | 0, _, m => m
  | cnt + 1, j, m =>
    let dname := domain_dims.getD j ""
    let posn := gp.get_dim_posn dname
    let m1 : Indices × Indices :=
      if posn ≥ 0 then
        let lh := gp.get_left_halo_size posn
        let rh := gp.get_right_halo_size posn
        (idx_set m.1 j (max (idx_get m.1 j) lh), idx_set m.2 j (max (idx_get m.2 j) rh))
      else m
    write_halo_loop domain_dims gp cnt (j + 1) m1

/-- The loop over `output_scratch_vecs` of `find_write_halos`; each vector is represented
by its thread-0 instance (`sv->at(0)`, created by `make_scratch_vars(1)` when missing). -/
def write_halo_vars (ctx : StencilContext) : List ScratchVar → Indices × Indices →
    Indices × Indices
  | [], m => m
  | gp :: rest, m =>
    write_halo_vars ctx rest (write_halo_loop ctx.domain_dims gp ctx.num_domain_dims 0 m)

/-- Method `StencilBundleBase::find_write_halos`: sets `max_lh` and `max_rh` of a scratch
bundle. `none` stands for the failed `assert(is_scratch())`. -/
def StencilBundleBase.find_write_halos (ctx : StencilContext) (self : StencilBundleBase) :
    Option StencilBundleBase :=
  if !self.is_scratch then none
  else
    let zeros : Indices := List.replicate ctx.num_domain_dims 0
    let m := write_halo_vars ctx self.output_scratch_vecs (zeros, zeros)
    some { self with max_lh := m.1, max_rh := m.2 }

/-! ## `adjust_span` (lines 402-475) -/

/-- The loop `DOMAIN_VAR_LOOP(i, j)` of `adjust_span`: begin and end of `idxs` are moved
outward by the write halos and rounded to the fold size; the stride follows when it
covered the whole width. The checks under `#ifdef CHECK` are not compiled in. -/
def adjust_span_loop (fold_pts max_lh max_rh : Indices) (idxs : ScanIndices) :
    Nat → Nat → ScanIndices → ScanIndices
  | 0, _, adj_idxs => adj_idxs
  | cnt + 1, j, adj_idxs =>
    let i := stencil_posn j
    let ab := idx_get idxs.begin i - idx_get max_lh j
    let ae := idx_get idxs.end_ i + idx_get max_rh j
    let ab := round_down_flr ab (idx_get fold_pts j)
    let ae := round_up_flr ae (idx_get fold_pts j)
    let adj1 : ScanIndices :=
      { adj_idxs with begin := idx_set adj_idxs.begin i ab, end_ := idx_set adj_idxs.end_ i ae }
    let width := idx_get idxs.end_ i - idx_get idxs.begin i
    let adj2 : ScanIndices :=
      if idx_get idxs.stride i ≥ width then
        { adj1 with stride := idx_set adj1.stride i (ae - ab) }
      else adj1
    adjust_span_loop fold_pts max_lh max_rh idxs cnt (j + 1) adj2

/-- Method `StencilBundleBase::adjust_span`. `none` stands for a failed `assert`
(`is_scratch()`, and `max_lh`, `max_rh` having `NUM_DOMAIN_DIMS` entries). -/
def StencilBundleBase.adjust_span (ctx : StencilContext) (self : StencilBundleBase)
    (_outer_thread_idx : Nat) (idxs : ScanIndices) : Option ScanIndices :=
  if !self.is_scratch then none
  else if self.max_lh.length ≠ ctx.num_domain_dims then none
  else if self.max_rh.length ≠ ctx.num_domain_dims then none
  else
    some (adjust_span_loop ctx.fold_pts self.max_lh self.max_rh idxs ctx.num_domain_dims 0 idxs)

/-! ## `update_var_info` (lines 304-341) -/

/-- Body of the loop over `output_var_ptrs`: the three guarded updates of one variable. -/
def update_one_var (whose : dirty_idx) (t_out : idx_t)
    (mark_extern_dirty mod_dev_data update_valid_step : Bool) (gb : YkVarBase) : YkVarBase :=
  let gb1 := if mark_extern_dirty then gb.set_dirty whose true t_out else gb
  let gb2 := if mod_dev_data then gb1.mod_dev else gb1
  if update_valid_step then gb2.update_valid_step t_out else gb2

/-- The loop `for (auto gp : output_var_ptrs)`. -/
def update_var_loop (whose : dirty_idx) (t_out : idx_t)
    (mark_extern_dirty mod_dev_data update_valid_step : Bool) : List Nat → VarStore → VarStore
  | [], vars => vars
  | gp :: rest, vars =>
    update_var_loop whose t_out mark_extern_dirty mod_dev_data update_valid_step rest
      (Function.update vars gp
        (update_one_var whose t_out mark_extern_dirty mod_dev_data update_valid_step (vars gp)))

/-- Method `StencilBundleBase::update_var_info`. The call is recorded in the trace; the
variables change only when `get_output_step_index` yields an output step. -/
def StencilBundleBase.update_var_info (self : StencilBundleBase) (whose : dirty_idx)
    (t : idx_t) (mark_extern_dirty mod_dev_data update_valid_step : Bool)
    (st : KernelState) : KernelState :=
  let tr := st.trace ++
    [Event.update_var_info self.name whose t mark_extern_dirty mod_dev_data update_valid_step]
  match self.get_output_step_index t with
  | none => { vars := st.vars, trace := tr }
  | some t_out =>
    { vars := update_var_loop whose t_out mark_extern_dirty mod_dev_data update_valid_step
        self.output_var_ptrs st.vars,
      trace := tr }

/-! ## `calc_micro_block` (lines 40-300) -/

/-- Constant `idx_ofs` of line 247. -/
def idx_ofs : idx_t := 0x1000

/-- Lines 248-250: the inner thread that owns a nano-block when threads are bound. -/
def bind_thr (bind_posn : Nat) (bind_slab_pts : idx_t) (nbt : Nat)
    (nano_blk_range : ScanIndices) : idx_t :=
  let bind_elem_idx := idx_get nano_blk_range.start bind_posn
  let bind_slab_idx := idiv_flr (bind_elem_idx + idx_ofs) bind_slab_pts
  imod_flr bind_slab_idx (nbt : Int)

/-- Lines 196-213: strides and alignment of `mb_idxs3` when binding threads to data. -/
def bind_strides_loop (bind_posn : Nat) (bind_slab_pts : idx_t) :
    Nat → Nat → ScanIndices → ScanIndices
  | 0, _, mb_idxs3 => mb_idxs3
  | cnt + 1, j, mb_idxs3 =>
    let i := stencil_posn j
    let next : ScanIndices :=
      if i = bind_posn then
        { mb_idxs3 with stride := idx_set mb_idxs3.stride i bind_slab_pts,
                        align := idx_set mb_idxs3.align i bind_slab_pts }
      else
        { mb_idxs3 with stride := idx_set mb_idxs3.stride i (mb_idxs3.get_overall_range i) }
    bind_strides_loop bind_posn bind_slab_pts cnt (j + 1) next

/-- Lines 228-257: what one inner thread of the parallel region does: it runs the whole
micro-block loop and calls `calc_nano_block` on the nano-blocks it owns. -/
def bound_thread_calls (sg : StencilBundleBase) (outer_thread_idx : Nat) (bind_posn : Nat)
    (bind_slab_pts : idx_t) (nbt : Nat) (inner_thread_idx : Nat) :
    List ScanIndices → List Event
  | [] => []
  | nano_blk_range :: rest =>
    let tail :=
      bound_thread_calls sg outer_thread_idx bind_posn bind_slab_pts nbt inner_thread_idx rest
    if (inner_thread_idx : Int) = bind_thr bind_posn bind_slab_pts nbt nano_blk_range then
      Event.calc_nano_block sg.name outer_thread_idx inner_thread_idx nano_blk_range :: tail
    else tail

/-- Lines 225-259: the parallel region with `nbt` inner threads; the calls of the threads
are listed thread by thread. The assertions on the OpenMP nesting level and on the number
of threads concern the runtime and are taken to hold. -/
def bound_region_calls (sg : StencilBundleBase) (outer_thread_idx : Nat) (bind_posn : Nat)
    (bind_slab_pts : idx_t) (nbt : Nat) (nano_blks : List ScanIndices) : List Event :=
  (List.range nbt).flatMap fun inner_thread_idx =>
    bound_thread_calls sg outer_thread_idx bind_posn bind_slab_pts nbt inner_thread_idx nano_blks

/-- Lines 276-289: without binding every nano-block of the loop is evaluated, by the
thread OpenMP picks. -/
def unbound_calls (ctx : StencilContext) (sg : StencilBundleBase) (outer_thread_idx : Nat)
    (nano_blks : List ScanIndices) : List Event :=
  nano_blks.map fun nano_blk_range =>
    Event.calc_nano_block sg.name outer_thread_idx (ctx.omp_get_thread_num nano_blk_range)
      nano_blk_range

/-- Lines 150-182: the range `mb_idxs3` over which box `fbb` of required bundle `sg` is
evaluated, or `none` when the box is skipped (`continue`). `bb` is the box of the outer
loop and `mb_idxs2` the range prepared for `sg`. -/
def fbb_range (ctx : StencilContext) (is_scratch : Bool) (bb : BoundingBox)
    (mb_idxs2 : ScanIndices) (fbb : BoundingBox) : Option ScanIndices :=
  if !is_scratch && fbb != bb then none
  else
    let r : ScanIndices × Bool :=
      if is_scratch then
        trim_loop mb_idxs2 fbb ctx.num_domain_dims 0 mb_idxs2 (decide (fbb.bb_num_points > 0))
      else (mb_idxs2, decide (fbb.bb_num_points > 0))
    if !r.2 then none else some r.1

/-- Lines 190-291: evaluation of a bundle over a range that is ready: the nano-blocks of
the micro-block loop, with or without binding of threads to data. -/
def eval_range (ctx : StencilContext) (settings : KernelSettings) (outer_thread_idx : Nat)
    (sg : StencilBundleBase) (mb_idxs3 : ScanIndices) : List Event :=
  let nbt := ctx.num_inner_threads
  let bind_threads := decide (nbt > 1) && settings.bind_inner_threads
  let bind_posn := settings._bind_posn
  let bind_slab_pts := idx_get settings._nano_block_sizes bind_posn
  if bind_threads then
    let mb_idxs3b := bind_strides_loop bind_posn bind_slab_pts ctx.num_domain_dims 0 mb_idxs3
    bound_region_calls sg outer_thread_idx bind_posn bind_slab_pts nbt
      (ctx.micro_block_loops mb_idxs3b)
  else
    unbound_calls ctx sg outer_thread_idx (ctx.micro_block_loops mb_idxs3)

/-- Lines 145-292: the loop over the boxes `fbbs` of a required bundle. -/
def fbb_loop (ctx : StencilContext) (settings : KernelSettings) (outer_thread_idx : Nat)
    (sg : StencilBundleBase) (bb : BoundingBox) (mb_idxs2 : ScanIndices) :
    List BoundingBox → List Event
  | [] => []
  | fbb :: rest =>
    let tail := fbb_loop ctx settings outer_thread_idx sg bb mb_idxs2 rest
    match fbb_range ctx sg.is_scratch bb mb_idxs2 fbb with
    | none => tail
    | some mb_idxs3 => eval_range ctx settings outer_thread_idx sg mb_idxs3 ++ tail

/-- Lines 132-140: the range `mb_idxs2` prepared for required bundle `sg` from the
trimmed micro-block `mb_idxs1`; `none` stands for a failed `assert` in `adjust_span`. -/
def reqd_range (ctx : StencilContext) (settings : KernelSettings) (outer_thread_idx : Nat)
    (sg : StencilBundleBase) (mb_idxs1 : ScanIndices) : Option ScanIndices :=
  let adjusted : Option ScanIndices :=
    if sg.is_scratch then sg.adjust_span ctx outer_thread_idx mb_idxs1 else some mb_idxs1
  adjusted.map fun mb_idxs2 =>
    mb_idxs2.adjust_from_settings ctx settings._micro_block_sizes
      settings._micro_block_tile_sizes settings._nano_block_sizes

/-- Lines 121-293: the loop over the required bundles `sg_list`, for outer box `bb` and
step `t`. -/
def reqd_loop (ctx : StencilContext) (settings : KernelSettings) (outer_thread_idx : Nat)
    (t : idx_t) (bb : BoundingBox) (mb_idxs1 : ScanIndices) :
    List StencilBundleBase → KernelState → Outcome
  | [], st => Outcome.done st
  | sg :: rest, st =>
    if !sg.is_in_valid_step t then
      reqd_loop ctx settings outer_thread_idx t bb mb_idxs1 rest st
    else
      match reqd_range ctx settings outer_thread_idx sg mb_idxs1 with
      | none => Outcome.assert_failed st
      | some mb_idxs2 =>
        reqd_loop ctx settings outer_thread_idx t bb mb_idxs1 rest
          { st with trace := st.trace ++
              fbb_loop ctx settings outer_thread_idx sg bb mb_idxs2 sg.get_bbs }

/-- Lines 81-299: the loop over the boxes of the bundle. `sg_list` is the value of
`get_reqd_bundles()`. -/
def bb_loop (ctx : StencilContext) (self : StencilBundleBase)
    (sg_list : List StencilBundleBase) (settings : KernelSettings) (outer_thread_idx : Nat)
    (micro_block_idxs : ScanIndices) (mpisec : MpiSection) (t : idx_t) :
    List BoundingBox → KernelState → Outcome
  | [], st => Outcome.done st
  | bb :: rest, st =>
    let r := trim_to_bb ctx.num_domain_dims micro_block_idxs bb
    if !r.2 then
      bb_loop ctx self sg_list settings outer_thread_idx micro_block_idxs mpisec t rest st
    else
      match reqd_loop ctx settings outer_thread_idx t bb r.1 sg_list st with
      | Outcome.assert_failed st1 => Outcome.assert_failed st1
      | Outcome.done st1 =>
        let mark_dirty := mpisec.do_mpi_left || mpisec.do_mpi_right
        bb_loop ctx self sg_list settings outer_thread_idx micro_block_idxs mpisec t rest
          (self.update_var_info dirty_idx.self t mark_dirty true false st1)

/-- Method `StencilBundleBase::calc_micro_block`. `sg_list` is the list that
`get_reqd_bundles()` returns for the bundle (its required scratch bundles and the bundle
itself), which is built outside `stencil_calc.cpp`. -/
def StencilBundleBase.calc_micro_block (ctx : StencilContext) (self : StencilBundleBase)
    (sg_list : List StencilBundleBase) (outer_thread_idx : Nat) (settings : KernelSettings)
    (micro_block_idxs : ScanIndices) (mpisec : MpiSection) (st : KernelState) : Outcome :=
  if self.is_scratch then Outcome.assert_failed st
  else if |micro_block_idxs.get_overall_range step_posn| ≠ 1 then Outcome.assert_failed st
  else
    let t := idx_get micro_block_idxs.begin step_posn
    if |idx_get micro_block_idxs.end_ step_posn - t| ≠ 1 then Outcome.assert_failed st
    else if self._bundle_bb.bb_num_points = 0 then Outcome.done st
    else
      bb_loop ctx self sg_list settings outer_thread_idx micro_block_idxs mpisec t
        self._bb_list st

/-- The state an outcome carries. -/
def Outcome.state : Outcome → KernelState
  | Outcome.done st => st
  | Outcome.assert_failed st => st

/-- Whether the call ran to its end. -/
def Outcome.finished : Outcome → Bool
  | Outcome.done _ => true
  | Outcome.assert_failed _ => false

/-- The nano-block ranges on which `calc_nano_block` is called in a list of calls, in the
order of the calls. -/
def nano_blks_of : List Event → List ScanIndices
  | [] => []
  | Event.calc_nano_block _ _ _ nano_blk_range :: rest => nano_blk_range :: nano_blks_of rest
  | Event.update_var_info _ _ _ _ _ _ :: rest => nano_blks_of rest

/-- The number of entries into `update_var_info` in a list of calls. -/
def num_var_updates : List Event → Nat
  | [] => 0
  | Event.calc_nano_block _ _ _ _ :: rest => num_var_updates rest
  | Event.update_var_info _ _ _ _ _ _ :: rest => num_var_updates rest + 1

/-- The variables as one call of `update_var_info` leaves them. -/
def StencilBundleBase.updated_vars (self : StencilBundleBase) (whose : dirty_idx) (t : idx_t)
    (mark_extern_dirty mod_dev_data update_valid_step : Bool) (vars : VarStore) : VarStore :=
  (self.update_var_info whose t mark_extern_dirty mod_dev_data update_valid_step
    { vars := vars, trace := [] }).vars

/-- The calls that the loop over the required bundles makes for one required bundle `sg`
(lines 122-292): none when `sg` is not valid at step `t`, else the evaluation of its boxes
over the range prepared for it. -/
def reqd_bundle_calls (ctx : StencilContext) (settings : KernelSettings)
    (outer_thread_idx : Nat) (t : idx_t) (bb : BoundingBox) (mb_idxs1 : ScanIndices)
    (sg : StencilBundleBase) : List Event :=
  if !sg.is_in_valid_step t then []
  else
    match reqd_range ctx settings outer_thread_idx sg mb_idxs1 with
    | none => []
    | some mb_idxs2 => fbb_loop ctx settings outer_thread_idx sg bb mb_idxs2 sg.get_bbs

/-- A range taken as a box, for trimming another range by it: begin and end of the domain
dimensions of `r`, with the given number of points. -/
def range_as_bb (r : ScanIndices) (num_points : idx_t) : BoundingBox :=
  { bb_begin := r.begin.tail, bb_end := r.end_.tail, bb_num_points := num_points }

/-- Trimming `r` by box `a` and then the result by box `b`, as lines 83-103 and 159-177 do
one after the other: `true` when neither trimming comes out empty. -/
def trim_seq_ok (ndd : Nat) (r : ScanIndices) (a b : BoundingBox) : Bool :=
  (trim_to_bb ndd r a).2 && (trim_to_bb ndd (trim_to_bb ndd r a).1 b).2

/-- The write halo of domain dimension `j` in the words of the spec: the maximum of 0 and
of the halo sizes (left or right) of the output scratch variables that have the
dimension; a variable without the dimension contributes nothing. -/
def max_write_halo_spec (domain_dims : List String) (vars : List ScratchVar) (left : Bool)
    (j : Nat) : idx_t :=
  (vars.filterMap fun gp =>
    if gp.get_dim_posn (domain_dims.getD j "") ≥ 0 then
      some (if left then gp.get_left_halo_size (gp.get_dim_posn (domain_dims.getD j ""))
            else gp.get_right_halo_size (gp.get_dim_posn (domain_dims.getD j "")))
    else none).foldl max 0

/-! ## `Stage::init_work_stats` (lines 509-643), work statistics -/

/-- Modelled from the spec: `BoundingBox::intersection_with`, declared in a header: the
box with the max of the begins and the min of the ends in every domain dimension; its
number of points is the product of its lengths, and 0 when it is empty. -/
def BoundingBox.intersection_with (a b : BoundingBox) : BoundingBox :=
  let bbi_begin := List.zipWith max a.bb_begin b.bb_begin
  let bbi_end := List.zipWith min a.bb_end b.bb_end
  let lens := List.zipWith (fun e b => e - b) bbi_end bbi_begin
  { bb_begin := bbi_begin, bb_end := bbi_end,
    bb_num_points := if lens.all (fun l => decide (l > 0)) then lens.prod else 0 }

/-- The type `bstats` of line 530 (`map<string, idx_t>`): a key that was never written
reads as 0. -/
abbrev bstats := String → idx_t

/-- The update `m[key] += x`. -/
def bstats_add (m : bstats) (key : String) (x : idx_t) : bstats :=
  fun k => if k = key then m k + x else m k

/-- The four maps `npts`, `writes`, `reads`, `fpops` of line 531. -/
structure BundleStats where
  npts : bstats
  writes : bstats
  reads : bstats
  fpops : bstats

/-- Lines 543-556: the loop over the boxes `fnbb` of a needed bundle `rsg`, for box `fbb`
of the bundle. -/
def stats_fnbb_loop (fbb : BoundingBox) (rsg : StencilBundleBase) :
    List BoundingBox → BundleStats → BundleStats
  | [], s => s
  | fnbb :: rest, s =>
    let bbi := fbb.intersection_with fnbb
    let nptsi := bbi.bb_num_points
    let bname := rsg.name
    stats_fnbb_loop fbb rsg rest
      { npts := bstats_add s.npts bname nptsi,
        reads := bstats_add s.reads bname (rsg.get_scalar_points_read * nptsi),
        writes := bstats_add s.writes bname (rsg.get_scalar_points_written * nptsi),
        fpops := bstats_add s.fpops bname (rsg.get_scalar_fp_ops * nptsi) }

/-- Lines 538-557: the loop over the needed bundles `sg_list`, for box `fbb`. -/
def stats_rsg_loop (fbb : BoundingBox) : List StencilBundleBase → BundleStats → BundleStats
  | [], s => s
  | rsg :: rest, s => stats_rsg_loop fbb rest (stats_fnbb_loop fbb rsg rsg.get_bbs s)

/-- Lines 535-558: the loop over the boxes `fbb` of the bundle. -/
def stats_fbb_loop (sg_list : List StencilBundleBase) :
    List BoundingBox → BundleStats → BundleStats
  | [], s => s
  | fbb :: rest, s => stats_fbb_loop sg_list rest (stats_rsg_loop fbb sg_list s)

/-- A bundle of a stage together with the list `get_reqd_bundles()` returns for it. -/
structure StageBundle where
  sg : StencilBundleBase
  reqd_bundles : List StencilBundleBase

/-- The members of `Stage` that `init_work_stats` uses: its bundles and the counters per
step, local to the rank (`num_*`) and summed over the ranks (`tot_*`). -/
structure Stage where
  bundles : List StageBundle
  num_reads_per_step : idx_t
  num_writes_per_step : idx_t
  num_fpops_per_step : idx_t
  tot_reads_per_step : idx_t
  tot_writes_per_step : idx_t
  tot_fpops_per_step : idx_t

/-- Lines 561-594 without the messages: the counters of the stage are raised by the
entries of the maps under the names of the needed bundles. -/
def stage_sum_loop (stats : BundleStats) : List StencilBundleBase → Stage → Stage
  | [], st => st
  | rsg :: rest, st =>
    stage_sum_loop stats rest
      { st with
        num_reads_per_step := st.num_reads_per_step + stats.reads rsg.name,
        num_writes_per_step := st.num_writes_per_step + stats.writes rsg.name,
        num_fpops_per_step := st.num_fpops_per_step + stats.fpops rsg.name }

/-- Lines 521-636: the loop over the bundles of the stage; the maps start empty for every
bundle. The messages and the classification of the variables (lines 596-634) only write
to the debug output and are left out here. -/
def stage_bundle_loop : List StageBundle → Stage → Stage
  | [], st => st
  | b :: rest, st =>
    let sg_list := b.reqd_bundles
    let stats := stats_fbb_loop sg_list b.sg.get_bbs
      { npts := fun _ => 0, writes := fun _ => 0, reads := fun _ => 0, fpops := fun _ => 0 }
    stage_bundle_loop rest (stage_sum_loop stats sg_list st)

/-- Method `Stage::init_work_stats`. `sum_over_ranks` is the reduction over the ranks
supplied by the environment. -/
def Stage.init_work_stats (sum_over_ranks : idx_t → idx_t) (self : Stage) : Stage :=
  let st0 : Stage :=
    { self with num_reads_per_step := 0, num_writes_per_step := 0, num_fpops_per_step := 0 }
  let st1 := stage_bundle_loop st0.bundles st0
  { st1 with
    tot_reads_per_step := sum_over_ranks st1.num_reads_per_step,
    tot_writes_per_step := sum_over_ranks st1.num_writes_per_step,
    tot_fpops_per_step := sum_over_ranks st1.num_fpops_per_step }

/-- The work of a stage in the words of the spec: the sum, over every bundle of the stage,
every box `fbb` of the bundle, every required bundle `r` and every box `fnbb` of `r`, of
the cost of `r` per point times the number of points of the intersection of `fbb` and
`fnbb`. -/
def work_sum_spec (cost : StencilBundleBase → idx_t) (bundles : List StageBundle) : idx_t :=
  (bundles.map fun b =>
    (b.sg.get_bbs.map fun fbb =>
      (b.reqd_bundles.map fun r =>
        (r.get_bbs.map fun fnbb =>
          cost r * (fbb.intersection_with fnbb).bb_num_points).sum).sum).sum).sum

/-! ## Classification of the variables in `init_work_stats` (lines 596-634) -/

/-- The six lists of line 597: i[nput], o[utput], d[omain], m[isc]. They are only written
to the debug output by `print_var_list`. -/
structure VarClasses where
  idvars : List Nat
  imvars : List Nat
  odvars : List Nat
  omvars : List Nat
  iodvars : List Nat
  iomvars : List Nat
  deriving DecidableEq, Repr

/-- Lines 598-614: the loop over `input_var_ptrs`. `is_domain_var gp` is the value of
`gp->gb().is_domain_var()`. -/
def classify_inputs (is_domain_var : Nat → Bool) (sg : StencilBundleBase) :
    List Nat → VarClasses → VarClasses
  | [], c => c
  | gp :: rest, c =>
    let isdom := is_domain_var gp
    let ogps := sg.output_var_ptrs
    let isout := decide (gp ∈ ogps)
    let c1 : VarClasses :=
      if isout then
        if isdom then { c with iodvars := c.iodvars ++ [gp] }
        else { c with iomvars := c.iomvars ++ [gp] }
      else
        if isdom then { c with idvars := c.idvars ++ [gp] }
        else { c with imvars := c.imvars ++ [gp] }
    classify_inputs is_domain_var sg rest c1

/-- Lines 615-626: the loop over `output_var_ptrs`. -/
def classify_outputs (is_domain_var : Nat → Bool) (sg : StencilBundleBase) :
    List Nat → VarClasses → VarClasses
  | [], c => c
  | gp :: rest, c =>
    let isdom := is_domain_var gp
    let igps := sg.input_var_ptrs
    let isin := decide (gp ∈ igps)
    let c1 : VarClasses :=
      if !isin then
        if isdom then { c with odvars := c.odvars ++ [gp] }
        else { c with omvars := c.omvars ++ [gp] }
      else c
    classify_outputs is_domain_var sg rest c1

/-- Lines 596-626: the classification of the variables of bundle `sg`. -/
def StencilBundleBase.classify_vars (is_domain_var : Nat → Bool) (sg : StencilBundleBase) :
    VarClasses :=
  classify_outputs is_domain_var sg sg.output_var_ptrs
    (classify_inputs is_domain_var sg sg.input_var_ptrs
      { idvars := [], imvars := [], odvars := [], omvars := [], iodvars := [],
        iomvars := [] })

/-! ## Full and disjoint boxes -/

/-- The number of points of the extent `[bb_begin, bb_end)` of a box: the product of its
lengths, and 0 when a length is not positive. -/
def BoundingBox.extent_points (bb : BoundingBox) : idx_t :=
  let lens := List.zipWith (fun e b => e - b) bb.bb_end bb.bb_begin
  if lens.all (fun l => decide (l > 0)) then lens.prod else 0

/-- A full box of `ndd` domain dimensions, as the boxes that `get_bbs()` returns are
("Loop through all the full BBs", line 533): every point of its extent is valid, so
`bb_num_points` is the number of points of the extent. -/
def BoundingBox.is_full (ndd : Nat) (bb : BoundingBox) : Prop :=
  bb.bb_begin.length = ndd ∧ bb.bb_end.length = ndd ∧ bb.bb_num_points = bb.extent_points

/-- Point `p` lies in the extent of the box: `bb_begin[j] <= p[j] < bb_end[j]` in every
domain dimension `j`. -/
def BoundingBox.contains_point (bb : BoundingBox) (p : Indices) : Prop :=
  ∀ j, j < bb.bb_begin.length →
    idx_get bb.bb_begin j ≤ idx_get p j ∧ idx_get p j < idx_get bb.bb_end j

/-- Two boxes are disjoint: no point lies in both. -/
def BoundingBox.disjoint_from (a b : BoundingBox) : Prop :=
  ∀ p : Indices, ¬ (a.contains_point p ∧ b.contains_point p)

/-! ### Lemmas on index tuples -/

theorem idx_set_length (v : Indices) (i : Nat) (x : idx_t) :
    (idx_set v i x).length = v.length := by
  simp [idx_set]

theorem idx_get_set_eq (v : Indices) (i : Nat) (x : idx_t) (h : i < v.length) :
    idx_get (idx_set v i x) i = x := by
  simp [idx_get, idx_set, List.getD_eq_getElem?_getD, List.getElem?_set, h]

theorem idx_get_set_ne (v : Indices) (i k : Nat) (x : idx_t) (h : k ≠ i) :
    idx_get (idx_set v i x) k = idx_get v k := by
  simp [idx_get, idx_set, List.getD_eq_getElem?_getD, List.getElem?_set, Ne.symm h]

theorem idx_get_set (v : Indices) (i k : Nat) (x : idx_t) :
    idx_get (idx_set v i x) k = if k = i ∧ i < v.length then x else idx_get v k := by
  by_cases h : k = i
  · subst h
    by_cases h2 : k < v.length
    · simp [h2, idx_get_set_eq _ _ _ h2]
    · simp only [h2, and_false, if_false]
      simp only [idx_get, idx_set, List.getD_eq_getElem?_getD]
      have h3 : v.length ≤ k := by omega
      have h4 : (List.set v k x).length ≤ k := by rw [List.length_set]; exact h3
      rw [List.getElem?_eq_none h4, List.getElem?_eq_none h3]
  · simp [h, idx_get_set_ne _ _ _ _ h]

theorem idx_get_replicate_zero (n k : Nat) : idx_get (List.replicate n 0) k = 0 := by
  simp only [idx_get, List.getD_eq_getElem?_getD, List.getElem?_replicate]
  split <;> simp

/-! ### Lemmas on rounding -/

theorem round_down_flr_le (a F : idx_t) (hF : 0 < F) : round_down_flr a F ≤ a := by
  unfold round_down_flr idiv_flr
  rw [Int.fdiv_eq_ediv _ (le_of_lt hF)]
  exact Int.ediv_mul_le a (ne_of_gt hF)

theorem round_down_flr_dvd (a F : idx_t) : F ∣ round_down_flr a F :=
  Dvd.intro_left _ rfl

theorem round_down_flr_greatest (a F m : idx_t) (hF : 0 < F) (hd : F ∣ m) (hm : m ≤ a) :
    m ≤ round_down_flr a F := by
  obtain ⟨c, rfl⟩ := hd
  unfold round_down_flr idiv_flr
  rw [Int.fdiv_eq_ediv _ (le_of_lt hF)]
  have hc : c ≤ a / F := Int.le_ediv_of_mul_le hF (by linarith [mul_comm F c])
  calc F * c = c * F := mul_comm F c
    _ ≤ a / F * F := mul_le_mul_of_nonneg_right hc (le_of_lt hF)

theorem round_up_flr_ge (a F : idx_t) (hF : 0 < F) : a ≤ round_up_flr a F := by
  unfold round_up_flr idiv_flr
  rw [Int.fdiv_eq_ediv _ (le_of_lt hF)]
  have := Int.lt_ediv_add_one_mul_self (a + F - 1) hF
  linarith

theorem round_up_flr_dvd (a F : idx_t) : F ∣ round_up_flr a F :=
  Dvd.intro_left _ rfl

theorem round_up_flr_least (a F m : idx_t) (hF : 0 < F) (hd : F ∣ m) (hm : a ≤ m) :
    round_up_flr a F ≤ m := by
  obtain ⟨c, rfl⟩ := hd
  unfold round_up_flr idiv_flr
  rw [Int.fdiv_eq_ediv _ (le_of_lt hF)]
  have h1 : (a + F - 1) / F * F ≤ a + F - 1 := Int.ediv_mul_le _ (ne_of_gt hF)
  have h2 : (a + F - 1) / F * F < (c + 1) * F := by linarith
  have h3 : (a + F - 1) / F < c + 1 := lt_of_mul_lt_mul_right h2 (le_of_lt hF)
  have h4 : (a + F - 1) / F ≤ c := Int.lt_add_one_iff.mp h3
  calc (a + F - 1) / F * F ≤ c * F := mul_le_mul_of_nonneg_right h4 (le_of_lt hF)
    _ = F * c := mul_comm c F

/-! ### Lemmas on the trimming loop -/

theorem trim_loop_fields (src : ScanIndices) (bb : BoundingBox) (cnt j : Nat)
    (dst : ScanIndices) (ok : Bool) :
    (trim_loop src bb cnt j dst ok).1.stride = dst.stride ∧
    (trim_loop src bb cnt j dst ok).1.align = dst.align ∧
    (trim_loop src bb cnt j dst ok).1.start = dst.start ∧
    (trim_loop src bb cnt j dst ok).1.stop = dst.stop ∧
    (trim_loop src bb cnt j dst ok).1.begin.length = dst.begin.length ∧
    (trim_loop src bb cnt j dst ok).1.end_.length = dst.end_.length := by
  induction cnt generalizing j dst with
  | zero => simp [trim_loop]
  | succ cnt ih =>
    simp only [trim_loop]
    split
    · simp [idx_set_length]
    · have h := ih (j + 1)
        { dst with
          begin := idx_set dst.begin (stencil_posn j)
            (max (idx_get src.begin (stencil_posn j)) (idx_get bb.bb_begin j)),
          end_ := idx_set dst.end_ (stencil_posn j)
            (min (idx_get src.end_ (stencil_posn j)) (idx_get bb.bb_end j)) }
      simpa [idx_set_length] using h

/-- Positions outside the dimensions still to visit keep their begin and end. -/
theorem trim_loop_untouched (src : ScanIndices) (bb : BoundingBox) (cnt j : Nat)
    (dst : ScanIndices) (ok : Bool) (k : Nat)
    (hk : k < stencil_posn j ∨ stencil_posn (j + cnt) ≤ k) :
    idx_get (trim_loop src bb cnt j dst ok).1.begin k = idx_get dst.begin k ∧
    idx_get (trim_loop src bb cnt j dst ok).1.end_ k = idx_get dst.end_ k := by
  induction cnt generalizing j dst with
  | zero => simp [trim_loop]
  | succ cnt ih =>
    have hne : k ≠ stencil_posn j := by
      simp only [stencil_posn] at hk ⊢
      omega
    simp only [trim_loop]
    split
    · simp [idx_get_set_ne _ _ _ _ hne]
    · have hk1 : k < stencil_posn (j + 1) ∨ stencil_posn (j + 1 + cnt) ≤ k := by
        simp only [stencil_posn] at hk ⊢
        omega
      have h := ih (j + 1)
        { dst with
          begin := idx_set dst.begin (stencil_posn j)
            (max (idx_get src.begin (stencil_posn j)) (idx_get bb.bb_begin j)),
          end_ := idx_set dst.end_ (stencil_posn j)
            (min (idx_get src.end_ (stencil_posn j)) (idx_get bb.bb_end j)) } hk1
      simpa [idx_get_set_ne _ _ _ _ hne] using h

/-- The flag returned by the loop: the initial flag, and overlap in every dimension. -/
theorem trim_loop_ok_iff (src : ScanIndices) (bb : BoundingBox) (cnt j : Nat)
    (dst : ScanIndices) (ok : Bool) :
    (trim_loop src bb cnt j dst ok).2 = true ↔
      ok = true ∧ ∀ j1, j ≤ j1 → j1 < j + cnt →
        max (idx_get src.begin (stencil_posn j1)) (idx_get bb.bb_begin j1) <
          min (idx_get src.end_ (stencil_posn j1)) (idx_get bb.bb_end j1) := by
  induction cnt generalizing j dst with
  | zero =>
    simp only [trim_loop]
    constructor
    · intro h
      exact ⟨h, fun j1 h1 h2 => by omega⟩
    · intro h
      exact h.1
  | succ cnt ih =>
    simp only [trim_loop]
    split
    · rename_i hbrk
      constructor
      · intro h
        simp at h
      · intro h
        have := h.2 j (Nat.le_refl j) (by omega)
        exact absurd hbrk (not_le.mpr this)
    · rename_i hbrk
      rw [ih]
      constructor
      · intro h
        refine ⟨h.1, fun j1 h1 h2 => ?_⟩
        by_cases hj : j1 = j
        · subst hj
          exact not_le.mp hbrk
        · exact h.2 j1 (by omega) (by omega)
      · intro h
        exact ⟨h.1, fun j1 h1 h2 => h.2 j1 (by omega) (by omega)⟩

/-- A dimension reached by the loop (all earlier ones overlap) gets begin = max of the
begins and end = min of the ends. -/
theorem trim_loop_visited (src : ScanIndices) (bb : BoundingBox) (cnt j : Nat)
    (dst : ScanIndices) (ok : Bool) (j0 : Nat) (h1 : j ≤ j0) (h2 : j0 < j + cnt)
    (hprev : ∀ j1, j ≤ j1 → j1 < j0 →
      max (idx_get src.begin (stencil_posn j1)) (idx_get bb.bb_begin j1) <
        min (idx_get src.end_ (stencil_posn j1)) (idx_get bb.bb_end j1))
    (hb : stencil_posn j0 < dst.begin.length) (he : stencil_posn j0 < dst.end_.length) :
    idx_get (trim_loop src bb cnt j dst ok).1.begin (stencil_posn j0) =
        max (idx_get src.begin (stencil_posn j0)) (idx_get bb.bb_begin j0) ∧
    idx_get (trim_loop src bb cnt j dst ok).1.end_ (stencil_posn j0) =
        min (idx_get src.end_ (stencil_posn j0)) (idx_get bb.bb_end j0) := by
  induction cnt generalizing j dst with
  | zero => omega
  | succ cnt ih =>
    simp only [trim_loop]
    split
    · rename_i hbrk
      by_cases hj : j0 = j
      · subst hj
        simp [idx_get_set_eq _ _ _ hb, idx_get_set_eq _ _ _ he]
      · exact absurd hbrk (not_le.mpr (hprev j (Nat.le_refl j) (by omega)))
    · by_cases hj : j0 = j
      · subst hj
        have h := trim_loop_untouched src bb cnt (j0 + 1)
          { dst with
            begin := idx_set dst.begin (stencil_posn j0)
              (max (idx_get src.begin (stencil_posn j0)) (idx_get bb.bb_begin j0)),
            end_ := idx_set dst.end_ (stencil_posn j0)
              (min (idx_get src.end_ (stencil_posn j0)) (idx_get bb.bb_end j0)) } ok
          (stencil_posn j0) (Or.inl (by simp [stencil_posn]))
        rw [h.1, h.2]
        simp [idx_get_set_eq _ _ _ hb, idx_get_set_eq _ _ _ he]
      · exact ih (j + 1) _ (by omega) (by omega)
          (fun j1 h3 h4 => hprev j1 (by omega) h4)
          (by simpa [idx_set_length] using hb) (by simpa [idx_set_length] using he)

/-- The loop is left at the first dimension without overlap: the flag is false and the
positions of all later dimensions keep their begin and end. -/
theorem trim_loop_break (src : ScanIndices) (bb : BoundingBox) (cnt j : Nat)
    (dst : ScanIndices) (ok : Bool) (j0 : Nat) (h1 : j ≤ j0) (h2 : j0 < j + cnt)
    (hprev : ∀ j1, j ≤ j1 → j1 < j0 →
      max (idx_get src.begin (stencil_posn j1)) (idx_get bb.bb_begin j1) <
        min (idx_get src.end_ (stencil_posn j1)) (idx_get bb.bb_end j1))
    (hbrk : min (idx_get src.end_ (stencil_posn j0)) (idx_get bb.bb_end j0) ≤
      max (idx_get src.begin (stencil_posn j0)) (idx_get bb.bb_begin j0)) :
    (trim_loop src bb cnt j dst ok).2 = false ∧
    ∀ k, stencil_posn j0 < k →
      idx_get (trim_loop src bb cnt j dst ok).1.begin k = idx_get dst.begin k ∧
      idx_get (trim_loop src bb cnt j dst ok).1.end_ k = idx_get dst.end_ k := by
  induction cnt generalizing j dst with
  | zero => omega
  | succ cnt ih =>
    simp only [trim_loop]
    split
    · rename_i hb
      by_cases hj : j0 = j
      · subst hj
        refine ⟨rfl, fun k hk => ?_⟩
        have hne : k ≠ stencil_posn j0 := by omega
        simp [idx_get_set_ne _ _ _ _ hne]
      · exact absurd hb (not_le.mpr (hprev j (Nat.le_refl j) (by omega)))
    · rename_i hb
      by_cases hj : j0 = j
      · subst hj
        exact absurd hbrk hb
      · have h := ih (j + 1)
          { dst with
            begin := idx_set dst.begin (stencil_posn j)
              (max (idx_get src.begin (stencil_posn j)) (idx_get bb.bb_begin j)),
            end_ := idx_set dst.end_ (stencil_posn j)
              (min (idx_get src.end_ (stencil_posn j)) (idx_get bb.bb_end j)) }
          (by omega) (by omega) (fun j1 h3 h4 => hprev j1 (by omega) h4)
        refine ⟨h.1, fun k hk => ?_⟩
        have hne : k ≠ stencil_posn j := by
          simp only [stencil_posn] at hk ⊢
          omega
        have := h.2 k hk
        simpa [idx_get_set_ne _ _ _ _ hne] using this

/-! ### Lemmas on `adjust_span` -/

theorem adjust_span_loop_fields (fold_pts max_lh max_rh : Indices) (idxs : ScanIndices)
    (cnt j : Nat) (adj : ScanIndices) :
    (adjust_span_loop fold_pts max_lh max_rh idxs cnt j adj).align = adj.align ∧
    (adjust_span_loop fold_pts max_lh max_rh idxs cnt j adj).start = adj.start ∧
    (adjust_span_loop fold_pts max_lh max_rh idxs cnt j adj).stop = adj.stop ∧
    (adjust_span_loop fold_pts max_lh max_rh idxs cnt j adj).begin.length = adj.begin.length ∧
    (adjust_span_loop fold_pts max_lh max_rh idxs cnt j adj).end_.length = adj.end_.length ∧
    (adjust_span_loop fold_pts max_lh max_rh idxs cnt j adj).stride.length =
      adj.stride.length := by
  induction cnt generalizing j adj with
  | zero => simp [adjust_span_loop]
  | succ cnt ih =>
    simp only [adjust_span_loop]
    split
    · have h := ih (j + 1)
        { adj with
          begin := idx_set adj.begin (stencil_posn j)
            (round_down_flr (idx_get idxs.begin (stencil_posn j) - idx_get max_lh j)
              (idx_get fold_pts j)),
          end_ := idx_set adj.end_ (stencil_posn j)
            (round_up_flr (idx_get idxs.end_ (stencil_posn j) + idx_get max_rh j)
              (idx_get fold_pts j)),
          stride := idx_set adj.stride (stencil_posn j)
            (round_up_flr (idx_get idxs.end_ (stencil_posn j) + idx_get max_rh j)
                (idx_get fold_pts j) -
              round_down_flr (idx_get idxs.begin (stencil_posn j) - idx_get max_lh j)
                (idx_get fold_pts j)) }
      simpa [idx_set_length] using h
    · have h := ih (j + 1)
        { adj with
          begin := idx_set adj.begin (stencil_posn j)
            (round_down_flr (idx_get idxs.begin (stencil_posn j) - idx_get max_lh j)
              (idx_get fold_pts j)),
          end_ := idx_set adj.end_ (stencil_posn j)
            (round_up_flr (idx_get idxs.end_ (stencil_posn j) + idx_get max_rh j)
              (idx_get fold_pts j)) }
      simpa [idx_set_length] using h

/-- Positions outside the dimensions still to visit keep begin, end and stride. -/
theorem adjust_span_loop_untouched (fold_pts max_lh max_rh : Indices) (idxs : ScanIndices)
    (cnt j : Nat) (adj : ScanIndices) (k : Nat)
    (hk : k < stencil_posn j ∨ stencil_posn (j + cnt) ≤ k) :
    idx_get (adjust_span_loop fold_pts max_lh max_rh idxs cnt j adj).begin k =
      idx_get adj.begin k ∧
    idx_get (adjust_span_loop fold_pts max_lh max_rh idxs cnt j adj).end_ k =
      idx_get adj.end_ k ∧
    idx_get (adjust_span_loop fold_pts max_lh max_rh idxs cnt j adj).stride k =
      idx_get adj.stride k := by
  induction cnt generalizing j adj with
  | zero => simp [adjust_span_loop]
  | succ cnt ih =>
    have hne : k ≠ stencil_posn j := by
      simp only [stencil_posn] at hk ⊢
      omega
    have hk1 : k < stencil_posn (j + 1) ∨ stencil_posn (j + 1 + cnt) ≤ k := by
      simp only [stencil_posn] at hk ⊢
      omega
    simp only [adjust_span_loop]
    split
    · have h := ih (j + 1)
        { adj with
          begin := idx_set adj.begin (stencil_posn j)
            (round_down_flr (idx_get idxs.begin (stencil_posn j) - idx_get max_lh j)
              (idx_get fold_pts j)),
          end_ := idx_set adj.end_ (stencil_posn j)
            (round_up_flr (idx_get idxs.end_ (stencil_posn j) + idx_get max_rh j)
              (idx_get fold_pts j)),
          stride := idx_set adj.stride (stencil_posn j)
            (round_up_flr (idx_get idxs.end_ (stencil_posn j) + idx_get max_rh j)
                (idx_get fold_pts j) -
              round_down_flr (idx_get idxs.begin (stencil_posn j) - idx_get max_lh j)
                (idx_get fold_pts j)) } hk1
      simpa [idx_get_set_ne _ _ _ _ hne] using h
    · have h := ih (j + 1)
        { adj with
          begin := idx_set adj.begin (stencil_posn j)
            (round_down_flr (idx_get idxs.begin (stencil_posn j) - idx_get max_lh j)
              (idx_get fold_pts j)),
          end_ := idx_set adj.end_ (stencil_posn j)
            (round_up_flr (idx_get idxs.end_ (stencil_posn j) + idx_get max_rh j)
              (idx_get fold_pts j)) } hk1
      simpa [idx_get_set_ne _ _ _ _ hne] using h

/-- Begin and end that `adjust_span` writes in a domain dimension. -/
theorem adjust_span_loop_visited (fold_pts max_lh max_rh : Indices) (idxs : ScanIndices)
    (cnt j : Nat) (adj : ScanIndices) (j0 : Nat) (h1 : j ≤ j0) (h2 : j0 < j + cnt)
    (hb : stencil_posn j0 < adj.begin.length) (he : stencil_posn j0 < adj.end_.length) :
    idx_get (adjust_span_loop fold_pts max_lh max_rh idxs cnt j adj).begin (stencil_posn j0) =
      round_down_flr (idx_get idxs.begin (stencil_posn j0) - idx_get max_lh j0)
        (idx_get fold_pts j0) ∧
    idx_get (adjust_span_loop fold_pts max_lh max_rh idxs cnt j adj).end_ (stencil_posn j0) =
      round_up_flr (idx_get idxs.end_ (stencil_posn j0) + idx_get max_rh j0)
        (idx_get fold_pts j0) := by
  induction cnt generalizing j adj with
  | zero => omega
  | succ cnt ih =>
    simp only [adjust_span_loop]
    by_cases hj : j0 = j
    · subst hj
      have hu := fun a => adjust_span_loop_untouched fold_pts max_lh max_rh idxs cnt (j0 + 1) a
        (stencil_posn j0) (Or.inl (by simp [stencil_posn]))
      split
      · rw [(hu _).1, (hu _).2.1]
        simp [idx_get_set_eq _ _ _ hb, idx_get_set_eq _ _ _ he]
      · rw [(hu _).1, (hu _).2.1]
        simp [idx_get_set_eq _ _ _ hb, idx_get_set_eq _ _ _ he]
    · split
      · exact ih (j + 1) _ (by omega) (by omega)
          (by simpa [idx_set_length] using hb) (by simpa [idx_set_length] using he)
      · exact ih (j + 1) _ (by omega) (by omega)
          (by simpa [idx_set_length] using hb) (by simpa [idx_set_length] using he)

/-! ### Lemmas on `find_write_halos` -/

theorem write_halo_loop_mono (domain_dims : List String) (gp : ScratchVar) (cnt j : Nat)
    (m : Indices × Indices) (k : Nat) :
    idx_get m.1 k ≤ idx_get (write_halo_loop domain_dims gp cnt j m).1 k ∧
    idx_get m.2 k ≤ idx_get (write_halo_loop domain_dims gp cnt j m).2 k ∧
    (write_halo_loop domain_dims gp cnt j m).1.length = m.1.length ∧
    (write_halo_loop domain_dims gp cnt j m).2.length = m.2.length := by
  induction cnt generalizing j m with
  | zero => simp [write_halo_loop]
  | succ cnt ih =>
    simp only [write_halo_loop]
    split
    · have h := ih (j + 1)
        (idx_set m.1 j (max (idx_get m.1 j)
            (gp.get_left_halo_size (gp.get_dim_posn (domain_dims.getD j "")))),
         idx_set m.2 j (max (idx_get m.2 j)
            (gp.get_right_halo_size (gp.get_dim_posn (domain_dims.getD j "")))))
      simp only [idx_set_length] at h
      refine ⟨le_trans ?_ h.1, le_trans ?_ h.2.1, h.2.2.1, h.2.2.2⟩
      · rw [idx_get_set]
        split
        · rename_i hk
          rw [hk.1]
          exact le_max_left _ _
        · exact le_refl _
      · rw [idx_get_set]
        split
        · rename_i hk
          rw [hk.1]
          exact le_max_left _ _
        · exact le_refl _
    · exact ih (j + 1) m

theorem write_halo_vars_mono (ctx : StencilContext) (vs : List ScratchVar)
    (m : Indices × Indices) (k : Nat) :
    idx_get m.1 k ≤ idx_get (write_halo_vars ctx vs m).1 k ∧
    idx_get m.2 k ≤ idx_get (write_halo_vars ctx vs m).2 k ∧
    (write_halo_vars ctx vs m).1.length = m.1.length ∧
    (write_halo_vars ctx vs m).2.length = m.2.length := by
  induction vs generalizing m with
  | nil => simp [write_halo_vars]
  | cons gp rest ih =>
    simp only [write_halo_vars]
    have h1 := write_halo_loop_mono ctx.domain_dims gp ctx.num_domain_dims 0 m k
    have h2 := ih (write_halo_loop ctx.domain_dims gp ctx.num_domain_dims 0 m)
    exact ⟨le_trans h1.1 h2.1, le_trans h1.2.1 h2.2.1, by rw [h2.2.2.1, h1.2.2.1],
      by rw [h2.2.2.2, h1.2.2.2]⟩

/-- After `find_write_halos` both halo tuples have one entry per domain dimension and no
entry is negative. -/
theorem find_write_halos_nonneg (ctx : StencilContext) (sg0 sg : StencilBundleBase)
    (h : sg0.find_write_halos ctx = some sg) :
    sg.is_scratch = true ∧ sg.max_lh.length = ctx.num_domain_dims ∧
    sg.max_rh.length = ctx.num_domain_dims ∧
    ∀ k, 0 ≤ idx_get sg.max_lh k ∧ 0 ≤ idx_get sg.max_rh k := by
  unfold StencilBundleBase.find_write_halos at h
  by_cases hs : sg0.is_scratch = true
  · simp only [hs, Bool.not_true, Bool.false_eq_true, if_false, Option.some.injEq] at h
    subst h
    have hm := write_halo_vars_mono ctx sg0.output_scratch_vecs
      (List.replicate ctx.num_domain_dims 0, List.replicate ctx.num_domain_dims 0)
    refine ⟨rfl, ?_, ?_, fun k => ?_⟩
    · simpa using (hm 0).2.2.1
    · simpa using (hm 0).2.2.2
    · have := hm k
      simp only [idx_get_replicate_zero] at this
      exact ⟨this.1, this.2.1⟩
  · simp [hs] at h

/-! ## Trimming the micro-block to a box of the bundle -/

/-- C1. In `calc_micro_block`, for a micro-block and a box `bb` of the bundle with
`bb_num_points > 0`: (1) the box is processed iff in every domain dimension
`min(micro_block.end, bb.end) > max(micro_block.begin, bb.begin)`; (2) when it is
processed the trimmed range has, in every domain dimension, begin equal to that max and
end equal to that min; (3) the loop is left at the first dimension `j0` with
`end <= begin`: the box is skipped, the dimensions up to `j0` hold max and min, and the
later ones are not visited; (4) a skipped box has no effect at all, the loop goes on with
the next box; (5) a processed box hands the trimmed range to the loop over the required
bundles. -/
theorem calc_micro_block_trims_to_bb (ctx : StencilContext) (self : StencilBundleBase)
    (sg_list : List StencilBundleBase) (settings : KernelSettings) (outer_thread_idx : Nat)
    (micro_block_idxs : ScanIndices) (mpisec : MpiSection) (t : idx_t)
    (bb : BoundingBox) (rest : List BoundingBox) (st : KernelState)
    (hpts : bb.bb_num_points > 0)
    (hb : ctx.num_domain_dims < micro_block_idxs.begin.length)
    (he : ctx.num_domain_dims < micro_block_idxs.end_.length) :
    ((trim_to_bb ctx.num_domain_dims micro_block_idxs bb).2 = true ↔
      ∀ j, j < ctx.num_domain_dims →
        min (idx_get micro_block_idxs.end_ (stencil_posn j)) (idx_get bb.bb_end j) >
          max (idx_get micro_block_idxs.begin (stencil_posn j)) (idx_get bb.bb_begin j)) ∧
    ((trim_to_bb ctx.num_domain_dims micro_block_idxs bb).2 = true →
      ∀ j, j < ctx.num_domain_dims →
        idx_get (trim_to_bb ctx.num_domain_dims micro_block_idxs bb).1.begin (stencil_posn j) =
          max (idx_get micro_block_idxs.begin (stencil_posn j)) (idx_get bb.bb_begin j) ∧
        idx_get (trim_to_bb ctx.num_domain_dims micro_block_idxs bb).1.end_ (stencil_posn j) =
          min (idx_get micro_block_idxs.end_ (stencil_posn j)) (idx_get bb.bb_end j)) ∧
    (∀ j0, j0 < ctx.num_domain_dims →
      (∀ j, j < j0 →
        min (idx_get micro_block_idxs.end_ (stencil_posn j)) (idx_get bb.bb_end j) >
          max (idx_get micro_block_idxs.begin (stencil_posn j)) (idx_get bb.bb_begin j)) →
      min (idx_get micro_block_idxs.end_ (stencil_posn j0)) (idx_get bb.bb_end j0) ≤
          max (idx_get micro_block_idxs.begin (stencil_posn j0)) (idx_get bb.bb_begin j0) →
      (trim_to_bb ctx.num_domain_dims micro_block_idxs bb).2 = false ∧
      (∀ j, j ≤ j0 →
        idx_get (trim_to_bb ctx.num_domain_dims micro_block_idxs bb).1.begin (stencil_posn j) =
          max (idx_get micro_block_idxs.begin (stencil_posn j)) (idx_get bb.bb_begin j) ∧
        idx_get (trim_to_bb ctx.num_domain_dims micro_block_idxs bb).1.end_ (stencil_posn j) =
          min (idx_get micro_block_idxs.end_ (stencil_posn j)) (idx_get bb.bb_end j)) ∧
      (∀ j, j0 < j →
        idx_get (trim_to_bb ctx.num_domain_dims micro_block_idxs bb).1.begin (stencil_posn j) =
          idx_get micro_block_idxs.begin (stencil_posn j) ∧
        idx_get (trim_to_bb ctx.num_domain_dims micro_block_idxs bb).1.end_ (stencil_posn j) =
          idx_get micro_block_idxs.end_ (stencil_posn j))) ∧
    ((trim_to_bb ctx.num_domain_dims micro_block_idxs bb).2 = false →
      bb_loop ctx self sg_list settings outer_thread_idx micro_block_idxs mpisec t
          (bb :: rest) st =
        bb_loop ctx self sg_list settings outer_thread_idx micro_block_idxs mpisec t rest st) ∧
    ((trim_to_bb ctx.num_domain_dims micro_block_idxs bb).2 = true →
      bb_loop ctx self sg_list settings outer_thread_idx micro_block_idxs mpisec t
          (bb :: rest) st =
        match reqd_loop ctx settings outer_thread_idx t bb
            (trim_to_bb ctx.num_domain_dims micro_block_idxs bb).1 sg_list st with
        | Outcome.assert_failed st1 => Outcome.assert_failed st1
        | Outcome.done st1 =>
          bb_loop ctx self sg_list settings outer_thread_idx micro_block_idxs mpisec t rest
            (self.update_var_info dirty_idx.self t
              (mpisec.do_mpi_left || mpisec.do_mpi_right) true false st1)) := by
  have hlen : ∀ j, j < ctx.num_domain_dims →
      stencil_posn j < micro_block_idxs.begin.length ∧
      stencil_posn j < micro_block_idxs.end_.length := by
    intro j hj
    simp only [stencil_posn]
    omega
  refine ⟨?_, ?_, ?_, ?_, ?_⟩
  · unfold trim_to_bb
    rw [trim_loop_ok_iff]
    constructor
    · intro h j hj
      exact h.2 j (Nat.zero_le j) (by omega)
    · intro h
      exact ⟨by simpa using hpts, fun j _ hj => h j (by omega)⟩
  · intro hok j hj
    unfold trim_to_bb at hok ⊢
    rw [trim_loop_ok_iff] at hok
    exact trim_loop_visited _ _ _ _ _ _ j (Nat.zero_le j) (by omega)
      (fun j1 h3 h4 => hok.2 j1 h3 (by omega)) (hlen j hj).1 (hlen j hj).2
  · intro j0 hj0 hprev hbrk
    unfold trim_to_bb
    have hB := trim_loop_break micro_block_idxs bb ctx.num_domain_dims 0 micro_block_idxs
      (decide (bb.bb_num_points > 0)) j0 (Nat.zero_le j0) (by omega)
      (fun j1 _ h4 => hprev j1 h4) hbrk
    refine ⟨hB.1, fun j hj => ?_, fun j hj => ?_⟩
    · exact trim_loop_visited _ _ _ _ _ _ j (Nat.zero_le j) (by omega)
        (fun j1 _ h4 => hprev j1 (by omega)) (hlen j (by omega)).1 (hlen j (by omega)).2
    · exact hB.2 (stencil_posn j) (by simp only [stencil_posn]; omega)
  · intro hskip
    simp [bb_loop, hskip]
  · intro hok
    simp [bb_loop, hok]

/-- C1, witness of the spec: box `[0,10) x [0,10)` and micro-block `[2,8) x [-5,20)` (step
range `[0,1)`) are trimmed to `[2,8) x [0,10)` and the box is processed. -/
theorem calc_micro_block_trims_to_bb_witness :
    trim_to_bb 2
        { begin := [0, 2, -5], end_ := [1, 8, 20], stride := [1, 6, 25], align := [1, 1, 1],
          start := [0, 0, 0], stop := [0, 0, 0] }
        { bb_begin := [0, 0], bb_end := [10, 10], bb_num_points := 100 } =
      ({ begin := [0, 2, 0], end_ := [1, 8, 10], stride := [1, 6, 25], align := [1, 1, 1],
         start := [0, 0, 0], stop := [0, 0, 0] }, true) ∧
    ∀ j, j < 2 →
      min (idx_get [1, 8, 20] (stencil_posn j)) (idx_get [10, 10] j) >
        max (idx_get [0, 2, -5] (stencil_posn j)) (idx_get [0, 0] j) :=
  ⟨by decide,
   (calc_micro_block_trims_to_bb
      { num_domain_dims := 2, domain_dims := ["x", "y"], fold_pts := [1, 1],
        num_inner_threads := 1, settings_strides := fun _ _ _ s => s,
        micro_block_loops := fun s => [s], omp_get_thread_num := fun _ => 0 }
      { name := "b", is_scratch := false,
        _bundle_bb := { bb_begin := [0, 0], bb_end := [10, 10], bb_num_points := 100 },
        _bb_list := [{ bb_begin := [0, 0], bb_end := [10, 10], bb_num_points := 100 }],
        is_in_valid_step := fun _ => true, get_output_step_index := fun t => some (t + 1),
        output_var_ptrs := [0], output_scratch_vecs := [], max_lh := [], max_rh := [] }
      [] { bind_inner_threads := false, _bind_posn := 1, _nano_block_sizes := [1, 1, 1],
           _micro_block_sizes := [1, 1, 1], _micro_block_tile_sizes := [1, 1, 1] }
      0
      { begin := [0, 2, -5], end_ := [1, 8, 20], stride := [1, 6, 25], align := [1, 1, 1],
        start := [0, 0, 0], stop := [0, 0, 0] }
      { do_mpi_left := false, do_mpi_right := false } 0
      { bb_begin := [0, 0], bb_end := [10, 10], bb_num_points := 100 } []
      { vars := fun _ => { dirty := fun _ _ => false, dev_modified := false, valid_step := 0 },
        trace := [] }
      (by decide) (by decide) (by decide)).1.mp (by decide)⟩

/-! ## Expansion of a range by the write halos of a scratch bundle -/

/-- C2. For a scratch bundle whose write halos were computed by `find_write_halos`, and
fold sizes that are positive in every domain dimension, `adjust_span` returns a range
with, in every domain dimension, `begin <= b - max_lh` and `end >= e + max_rh`, hence
`begin <= b` and `end >= e`: the result contains the input range `[b, e)`. The step
dimension is returned as it was. -/
theorem adjust_span_contains_input (ctx : StencilContext) (sg0 sg : StencilBundleBase)
    (outer_thread_idx : Nat) (idxs : ScanIndices)
    (hfw : sg0.find_write_halos ctx = some sg)
    (hfold : ∀ j, j < ctx.num_domain_dims → 0 < idx_get ctx.fold_pts j)
    (hb : ctx.num_domain_dims < idxs.begin.length)
    (he : ctx.num_domain_dims < idxs.end_.length) :
    ∃ adj, sg.adjust_span ctx outer_thread_idx idxs = some adj ∧
      idx_get adj.begin step_posn = idx_get idxs.begin step_posn ∧
      idx_get adj.end_ step_posn = idx_get idxs.end_ step_posn ∧
      ∀ j, j < ctx.num_domain_dims →
        idx_get adj.begin (stencil_posn j) ≤
          idx_get idxs.begin (stencil_posn j) - idx_get sg.max_lh j ∧
        idx_get adj.end_ (stencil_posn j) ≥
          idx_get idxs.end_ (stencil_posn j) + idx_get sg.max_rh j ∧
        idx_get adj.begin (stencil_posn j) ≤ idx_get idxs.begin (stencil_posn j) ∧
        idx_get adj.end_ (stencil_posn j) ≥ idx_get idxs.end_ (stencil_posn j) := by
  obtain ⟨hs, hl, hr, hnn⟩ := find_write_halos_nonneg ctx sg0 sg hfw
  refine ⟨adjust_span_loop ctx.fold_pts sg.max_lh sg.max_rh idxs ctx.num_domain_dims 0 idxs,
    ?_, ?_, ?_, ?_⟩
  · simp [StencilBundleBase.adjust_span, hs, hl, hr]
  · exact (adjust_span_loop_untouched _ _ _ _ _ _ _ step_posn
      (Or.inl (by simp [step_posn, stencil_posn]))).1
  · exact (adjust_span_loop_untouched _ _ _ _ _ _ _ step_posn
      (Or.inl (by simp [step_posn, stencil_posn]))).2.1
  · intro j hj
    have hv := adjust_span_loop_visited ctx.fold_pts sg.max_lh sg.max_rh idxs
      ctx.num_domain_dims 0 idxs j (Nat.zero_le j) (by omega)
      (by simp only [stencil_posn]; omega) (by simp only [stencil_posn]; omega)
    rw [hv.1, hv.2]
    have h1 := round_down_flr_le
      (idx_get idxs.begin (stencil_posn j) - idx_get sg.max_lh j) _ (hfold j hj)
    have h2 := round_up_flr_ge
      (idx_get idxs.end_ (stencil_posn j) + idx_get sg.max_rh j) _ (hfold j hj)
    have h3 := (hnn j).1
    have h4 := (hnn j).2
    refine ⟨h1, h2, ?_, ?_⟩
    · linarith
    · linarith

/-- C2, witness: one domain dimension with fold size 4; the output scratch variable has
halos 1 (left) and 2 (right); the range `[-7, 5)` is expanded to `[-8, 8)`. -/
theorem adjust_span_contains_input_witness :
    StencilBundleBase.adjust_span
        { num_domain_dims := 1, domain_dims := ["x"], fold_pts := [4],
          num_inner_threads := 1, settings_strides := fun _ _ _ s => s,
          micro_block_loops := fun s => [s], omp_get_thread_num := fun _ => 0 }
        { name := "s", is_scratch := true,
          _bundle_bb := { bb_begin := [0], bb_end := [10], bb_num_points := 10 },
          _bb_list := [], is_in_valid_step := fun _ => true,
          get_output_step_index := fun _ => none, output_var_ptrs := [],
          output_scratch_vecs := [{ dim_names := ["x"], left_halo := [1], right_halo := [2] }],
          max_lh := [1], max_rh := [2] }
        0
        { begin := [0, -7], end_ := [1, 5], stride := [1, 12], align := [1, 1],
          start := [0, 0], stop := [0, 0] } =
      some { begin := [0, -8], end_ := [1, 8], stride := [1, 16], align := [1, 1],
             start := [0, 0], stop := [0, 0] } ∧
    ∃ adj : ScanIndices, idx_get adj.begin 1 ≤ -7 ∧ idx_get adj.end_ 1 ≥ 5 :=
  ⟨by decide,
   (adjust_span_contains_input
      { num_domain_dims := 1, domain_dims := ["x"], fold_pts := [4],
        num_inner_threads := 1, settings_strides := fun _ _ _ s => s,
        micro_block_loops := fun s => [s], omp_get_thread_num := fun _ => 0 }
      { name := "s", is_scratch := true,
        _bundle_bb := { bb_begin := [0], bb_end := [10], bb_num_points := 10 },
        _bb_list := [], is_in_valid_step := fun _ => true,
        get_output_step_index := fun _ => none, output_var_ptrs := [],
        output_scratch_vecs := [{ dim_names := ["x"], left_halo := [1], right_halo := [2] }],
        max_lh := [], max_rh := [] }
      { name := "s", is_scratch := true,
        _bundle_bb := { bb_begin := [0], bb_end := [10], bb_num_points := 10 },
        _bb_list := [], is_in_valid_step := fun _ => true,
        get_output_step_index := fun _ => none, output_var_ptrs := [],
        output_scratch_vecs := [{ dim_names := ["x"], left_halo := [1], right_halo := [2] }],
        max_lh := [1], max_rh := [2] }
      0
      { begin := [0, -7], end_ := [1, 5], stride := [1, 12], align := [1, 1],
        start := [0, 0], stop := [0, 0] }
      (by rfl)
      (fun j hj => by
        have h0 : j = 0 := by simpa using hj
        subst h0
        decide)
      (by decide) (by decide)).elim
    fun adj h => ⟨adj, (h.2.2.2 0 (by decide)).2.2.1, (h.2.2.2 0 (by decide)).2.2.2⟩⟩

/-- C3. For every domain dimension with fold size `F > 0` and every input range `[b, e)`
(negative coordinates included), `adjust_span` returns as begin the largest multiple of `F`
that is `<= b - max_lh` and as end the smallest multiple of `F` that is `>= e + max_rh`. -/
theorem adjust_span_rounds_to_fold (ctx : StencilContext) (sg : StencilBundleBase)
    (outer_thread_idx : Nat) (idxs : ScanIndices)
    (hs : sg.is_scratch = true)
    (hl : sg.max_lh.length = ctx.num_domain_dims)
    (hr : sg.max_rh.length = ctx.num_domain_dims)
    (hb : ctx.num_domain_dims < idxs.begin.length)
    (he : ctx.num_domain_dims < idxs.end_.length) :
    ∃ adj, sg.adjust_span ctx outer_thread_idx idxs = some adj ∧
      ∀ j, j < ctx.num_domain_dims → 0 < idx_get ctx.fold_pts j →
        (idx_get ctx.fold_pts j ∣ idx_get adj.begin (stencil_posn j) ∧
         idx_get adj.begin (stencil_posn j) ≤
           idx_get idxs.begin (stencil_posn j) - idx_get sg.max_lh j ∧
         ∀ m : idx_t, idx_get ctx.fold_pts j ∣ m →
           m ≤ idx_get idxs.begin (stencil_posn j) - idx_get sg.max_lh j →
           m ≤ idx_get adj.begin (stencil_posn j)) ∧
        (idx_get ctx.fold_pts j ∣ idx_get adj.end_ (stencil_posn j) ∧
         idx_get idxs.end_ (stencil_posn j) + idx_get sg.max_rh j ≤
           idx_get adj.end_ (stencil_posn j) ∧
         ∀ m : idx_t, idx_get ctx.fold_pts j ∣ m →
           idx_get idxs.end_ (stencil_posn j) + idx_get sg.max_rh j ≤ m →
           idx_get adj.end_ (stencil_posn j) ≤ m) := by
  refine ⟨adjust_span_loop ctx.fold_pts sg.max_lh sg.max_rh idxs ctx.num_domain_dims 0 idxs,
    ?_, ?_⟩
  · simp [StencilBundleBase.adjust_span, hs, hl, hr]
  · intro j hj hF
    have hv := adjust_span_loop_visited ctx.fold_pts sg.max_lh sg.max_rh idxs
      ctx.num_domain_dims 0 idxs j (Nat.zero_le j) (by omega)
      (by simp only [stencil_posn]; omega) (by simp only [stencil_posn]; omega)
    rw [hv.1, hv.2]
    exact ⟨⟨round_down_flr_dvd _ _, round_down_flr_le _ _ hF,
        fun m hd hm => round_down_flr_greatest _ _ m hF hd hm⟩,
      ⟨round_up_flr_dvd _ _, round_up_flr_ge _ _ hF,
        fun m hd hm => round_up_flr_least _ _ m hF hd hm⟩⟩

/-- C3, witness of the spec: left halo 2, right halo 3, fold size 4 and input range
`[4, 12)` give `[0, 16)`. -/
theorem adjust_span_rounds_to_fold_witness :
    StencilBundleBase.adjust_span
        { num_domain_dims := 1, domain_dims := ["x"], fold_pts := [4],
          num_inner_threads := 1, settings_strides := fun _ _ _ s => s,
          micro_block_loops := fun s => [s], omp_get_thread_num := fun _ => 0 }
        { name := "s", is_scratch := true,
          _bundle_bb := { bb_begin := [0], bb_end := [16], bb_num_points := 16 },
          _bb_list := [], is_in_valid_step := fun _ => true,
          get_output_step_index := fun _ => none, output_var_ptrs := [],
          output_scratch_vecs := [], max_lh := [2], max_rh := [3] }
        0
        { begin := [0, 4], end_ := [1, 12], stride := [1, 2], align := [1, 1],
          start := [0, 0], stop := [0, 0] } =
      some { begin := [0, 0], end_ := [1, 16], stride := [1, 2], align := [1, 1],
             start := [0, 0], stop := [0, 0] } ∧
    ∃ adj : ScanIndices, (4 : idx_t) ∣ idx_get adj.begin 1 ∧ (4 : idx_t) ∣ idx_get adj.end_ 1 ∧
      idx_get adj.begin 1 ≤ 4 - 2 ∧ 12 + 3 ≤ idx_get adj.end_ 1 :=
  ⟨by decide,
   (adjust_span_rounds_to_fold
      { num_domain_dims := 1, domain_dims := ["x"], fold_pts := [4],
        num_inner_threads := 1, settings_strides := fun _ _ _ s => s,
        micro_block_loops := fun s => [s], omp_get_thread_num := fun _ => 0 }
      { name := "s", is_scratch := true,
        _bundle_bb := { bb_begin := [0], bb_end := [16], bb_num_points := 16 },
        _bb_list := [], is_in_valid_step := fun _ => true,
        get_output_step_index := fun _ => none, output_var_ptrs := [],
        output_scratch_vecs := [], max_lh := [2], max_rh := [3] }
      0
      { begin := [0, 4], end_ := [1, 12], stride := [1, 2], align := [1, 1],
        start := [0, 0], stop := [0, 0] }
      rfl rfl rfl (by decide) (by decide)).elim
    fun adj h =>
      ⟨adj, (h.2 0 (by decide) (by decide)).1.1, (h.2 0 (by decide) (by decide)).2.1,
        (h.2 0 (by decide) (by decide)).1.2.1, (h.2 0 (by decide) (by decide)).2.2.1⟩⟩

/-! ## Binding of inner threads to slabs -/

theorem bind_thr_range (bind_posn : Nat) (bind_slab_pts : idx_t) (nbt : Nat)
    (r : ScanIndices) (hT : 0 < nbt) :
    0 ≤ bind_thr bind_posn bind_slab_pts nbt r ∧
    bind_thr bind_posn bind_slab_pts nbt r < (nbt : Int) := by
  have hT1 : (0 : Int) < (nbt : Int) := by exact_mod_cast hT
  unfold bind_thr imod_flr
  exact ⟨Int.fmod_nonneg' _ hT1, Int.fmod_lt_of_pos _ hT1⟩

/-- C4. With slab width `W > 0` and `T > 0` threads, the owner
`imod_flr(idiv_flr(s + 0x1000, W), T)` of a slab starting at `s` is the same for start
indices that differ by `k * W * T`, for every integer `s` and `k`, and lies in `[0, T)`. -/
theorem bind_thr_periodic (bind_posn : Nat) (bind_slab_pts : idx_t) (nbt : Nat)
    (r1 r2 : ScanIndices) (k : Int) (hW : 0 < bind_slab_pts) (hT : 0 < nbt)
    (hs : idx_get r2.start bind_posn =
      idx_get r1.start bind_posn + k * bind_slab_pts * (nbt : Int)) :
    bind_thr bind_posn bind_slab_pts nbt r2 = bind_thr bind_posn bind_slab_pts nbt r1 ∧
    0 ≤ bind_thr bind_posn bind_slab_pts nbt r1 ∧
    bind_thr bind_posn bind_slab_pts nbt r1 < (nbt : Int) := by
  refine ⟨?_, bind_thr_range bind_posn bind_slab_pts nbt r1 hT⟩
  have hT1 : (0 : Int) ≤ (nbt : Int) := Int.ofNat_nonneg nbt
  unfold bind_thr imod_flr idiv_flr
  simp only [hs]
  rw [Int.fdiv_eq_ediv _ (le_of_lt hW), Int.fdiv_eq_ediv _ (le_of_lt hW),
    Int.fmod_eq_emod _ hT1, Int.fmod_eq_emod _ hT1]
  have e : idx_get r1.start bind_posn + k * bind_slab_pts * (nbt : Int) + idx_ofs =
      idx_get r1.start bind_posn + idx_ofs + (k * (nbt : Int)) * bind_slab_pts := by ring
  rw [e, Int.add_mul_ediv_right _ _ (ne_of_gt hW), Int.add_mul_emod_self]

/-- C4, witness: slab width 4 and 3 threads; the slabs starting at `-20` and at
`-20 + 2 * 4 * 3 = 4` have the same owner, thread 2. -/
theorem bind_thr_periodic_witness :
    bind_thr 1 4 3 { begin := [], end_ := [], stride := [], align := [], start := [0, 4],
                     stop := [] } = 2 ∧
    bind_thr 1 4 3 { begin := [], end_ := [], stride := [], align := [], start := [0, 4],
                     stop := [] } =
      bind_thr 1 4 3 { begin := [], end_ := [], stride := [], align := [], start := [0, -20],
                       stop := [] } :=
  ⟨by decide,
   (bind_thr_periodic 1 4 3
      { begin := [], end_ := [], stride := [], align := [], start := [0, -20], stop := [] }
      { begin := [], end_ := [], stride := [], align := [], start := [0, 4], stop := [] }
      2 (by decide) (by decide) (by decide)).1⟩

theorem filter_disjoint_perm {α : Type} (p q : α → Bool) (l : List α)
    (h : ∀ a, a ∈ l → ¬ (p a = true ∧ q a = true)) :
    List.Perm (l.filter p ++ l.filter q) (l.filter fun a => p a || q a) := by
  induction l with
  | nil => simp
  | cons a l ih =>
    have ih1 := ih (fun b hb => h b (List.mem_cons_of_mem a hb))
    have ha := h a (List.mem_cons_self a l)
    cases hp : p a <;> cases hq : q a
    · simpa [List.filter_cons, hp, hq] using ih1
    · simp only [List.filter_cons, hp, hq, Bool.false_eq_true, if_false, if_true, Bool.or_true]
      exact List.perm_middle.trans (List.Perm.cons a ih1)
    · simp only [List.filter_cons, hp, hq, Bool.false_eq_true, if_false, if_true, Bool.or_false,
        List.cons_append]
      exact List.Perm.cons a ih1
    · exact absurd ⟨hp, hq⟩ ha

theorem nano_blks_of_append (a b : List Event) :
    nano_blks_of (a ++ b) = nano_blks_of a ++ nano_blks_of b := by
  induction a with
  | nil => rfl
  | cons e a ih =>
    cases e with
    | calc_nano_block n o k r => simp [nano_blks_of, ih]
    | update_var_info n w t m d u => simp [nano_blks_of, ih]

theorem nano_blks_of_bound_thread (sg : StencilBundleBase) (outer_thread_idx bind_posn : Nat)
    (bind_slab_pts : idx_t) (nbt k : Nat) (nano_blks : List ScanIndices) :
    nano_blks_of (bound_thread_calls sg outer_thread_idx bind_posn bind_slab_pts nbt k
        nano_blks) =
      nano_blks.filter fun r => decide ((k : Int) = bind_thr bind_posn bind_slab_pts nbt r) := by
  induction nano_blks with
  | nil => rfl
  | cons r rest ih =>
    simp only [bound_thread_calls]
    split
    · rename_i h
      simp [nano_blks_of, ih, List.filter_cons, h]
    · rename_i h
      simp [ih, List.filter_cons, h]

theorem bound_thread_calls_mem (sg : StencilBundleBase) (outer_thread_idx bind_posn : Nat)
    (bind_slab_pts : idx_t) (nbt k : Nat) (nano_blks : List ScanIndices) (e : Event)
    (he : e ∈ bound_thread_calls sg outer_thread_idx bind_posn bind_slab_pts nbt k nano_blks) :
    ∃ r, r ∈ nano_blks ∧ (k : Int) = bind_thr bind_posn bind_slab_pts nbt r ∧
      e = Event.calc_nano_block sg.name outer_thread_idx k r := by
  induction nano_blks with
  | nil => simp [bound_thread_calls] at he
  | cons r rest ih =>
    simp only [bound_thread_calls] at he
    split at he
    · rename_i h
      rcases List.mem_cons.mp he with h1 | h1
      · exact ⟨r, List.mem_cons_self r rest, h, h1⟩
      · obtain ⟨r1, hr1, h2⟩ := ih h1
        exact ⟨r1, List.mem_cons_of_mem r hr1, h2⟩
    · obtain ⟨r1, hr1, h2⟩ := ih he
      exact ⟨r1, List.mem_cons_of_mem r hr1, h2⟩

/-- The nano-blocks evaluated by the first `n` inner threads are those whose owner is one
of these threads, each as often as the loop produces it. -/
theorem bound_threads_perm (sg : StencilBundleBase) (outer_thread_idx bind_posn : Nat)
    (bind_slab_pts : idx_t) (nbt : Nat) (nano_blks : List ScanIndices) (n : Nat) :
    List.Perm
      (nano_blks_of ((List.range n).flatMap fun k =>
        bound_thread_calls sg outer_thread_idx bind_posn bind_slab_pts nbt k nano_blks))
      (nano_blks.filter fun r =>
        decide (0 ≤ bind_thr bind_posn bind_slab_pts nbt r ∧
          bind_thr bind_posn bind_slab_pts nbt r < (n : Int))) := by
  induction n with
  | zero =>
    have h : (nano_blks.filter fun r =>
        decide (0 ≤ bind_thr bind_posn bind_slab_pts nbt r ∧
          bind_thr bind_posn bind_slab_pts nbt r < ((0 : Nat) : Int))) = [] := by
      rw [List.filter_eq_nil_iff]
      intro r _
      simp only [decide_eq_true_eq, Int.ofNat_zero]
      unfold idx_t
      omega
    rw [h]
    simp [nano_blks_of]
  | succ n ih =>
    rw [List.range_succ, List.flatMap_append, nano_blks_of_append]
    simp only [List.flatMap_cons, List.flatMap_nil, List.append_nil]
    rw [nano_blks_of_bound_thread]
    refine (List.Perm.append_right _ ih).trans ?_
    refine (filter_disjoint_perm _ _ nano_blks ?_).trans ?_
    · intro r _ h
      simp only [decide_eq_true_eq] at h
      unfold idx_t at h
      omega
    · apply List.Perm.of_eq
      apply List.filter_congr
      intro r _
      simp only [Nat.cast_add, Nat.cast_one]
      unfold idx_t
      by_cases h1 : 0 ≤ bind_thr bind_posn bind_slab_pts nbt r ∧
          bind_thr bind_posn bind_slab_pts nbt r < (n : Int)
      · have h2 : 0 ≤ bind_thr bind_posn bind_slab_pts nbt r ∧
            bind_thr bind_posn bind_slab_pts nbt r < (n : Int) + 1 :=
          ⟨h1.1, by unfold idx_t at *; omega⟩
        simp [h1, h2]
      · by_cases h3 : (n : Int) = bind_thr bind_posn bind_slab_pts nbt r
        · have h2 : 0 ≤ bind_thr bind_posn bind_slab_pts nbt r ∧
              bind_thr bind_posn bind_slab_pts nbt r < (n : Int) + 1 := by
            unfold idx_t at *
            omega
          simp [h1, h2, h3]
        · have h2 : ¬ (0 ≤ bind_thr bind_posn bind_slab_pts nbt r ∧
              bind_thr bind_posn bind_slab_pts nbt r < (n : Int) + 1) := by
            unfold idx_t at *
            omega
          simp [h1, h2, h3]

/-- C5. With binding in use (`nbt >= 2` inner threads and `bind_inner_threads` set) every
inner thread runs the same micro-block loop, and: (1) for every nano-block the loop
produces exactly one inner thread index in `0..nbt-1` equals the owner `bind_thr`;
(2) the nano-blocks on which `calc_nano_block` is called, over all threads, are a
permutation of the nano-blocks the loop produces, so each is evaluated exactly once;
(3) every call is a call of `calc_nano_block` of the bundle, made by the owner of its
nano-block. -/
theorem bound_threads_evaluate_each_nano_block_once (ctx : StencilContext)
    (settings : KernelSettings) (outer_thread_idx : Nat) (sg : StencilBundleBase)
    (mb_idxs3 : ScanIndices)
    (hn : 2 ≤ ctx.num_inner_threads) (hbind : settings.bind_inner_threads = true) :
    (∀ r, r ∈ ctx.micro_block_loops
          (bind_strides_loop settings._bind_posn
            (idx_get settings._nano_block_sizes settings._bind_posn)
            ctx.num_domain_dims 0 mb_idxs3) →
      ∃! k : Nat, k < ctx.num_inner_threads ∧
        (k : Int) = bind_thr settings._bind_posn
          (idx_get settings._nano_block_sizes settings._bind_posn)
          ctx.num_inner_threads r) ∧
    List.Perm (nano_blks_of (eval_range ctx settings outer_thread_idx sg mb_idxs3))
      (ctx.micro_block_loops
        (bind_strides_loop settings._bind_posn
          (idx_get settings._nano_block_sizes settings._bind_posn)
          ctx.num_domain_dims 0 mb_idxs3)) ∧
    (∀ e, e ∈ eval_range ctx settings outer_thread_idx sg mb_idxs3 →
      ∃ k r, k < ctx.num_inner_threads ∧
        r ∈ ctx.micro_block_loops
          (bind_strides_loop settings._bind_posn
            (idx_get settings._nano_block_sizes settings._bind_posn)
            ctx.num_domain_dims 0 mb_idxs3) ∧
        (k : Int) = bind_thr settings._bind_posn
          (idx_get settings._nano_block_sizes settings._bind_posn)
          ctx.num_inner_threads r ∧
        e = Event.calc_nano_block sg.name outer_thread_idx k r) := by
  have hT : 0 < ctx.num_inner_threads := by omega
  have hgt : 1 < ctx.num_inner_threads := by omega
  have hev : eval_range ctx settings outer_thread_idx sg mb_idxs3 =
      bound_region_calls sg outer_thread_idx settings._bind_posn
        (idx_get settings._nano_block_sizes settings._bind_posn) ctx.num_inner_threads
        (ctx.micro_block_loops
          (bind_strides_loop settings._bind_posn
            (idx_get settings._nano_block_sizes settings._bind_posn)
            ctx.num_domain_dims 0 mb_idxs3)) := by
    simp [eval_range, hgt, hbind]
  refine ⟨?_, ?_, ?_⟩
  · intro r _
    have hr := bind_thr_range settings._bind_posn
      (idx_get settings._nano_block_sizes settings._bind_posn) ctx.num_inner_threads r hT
    unfold idx_t at hr
    refine ⟨(bind_thr settings._bind_posn
      (idx_get settings._nano_block_sizes settings._bind_posn)
      ctx.num_inner_threads r).toNat, ⟨by omega, by omega⟩, ?_⟩
    intro k hk
    omega
  · rw [hev]
    unfold bound_region_calls
    refine (bound_threads_perm sg outer_thread_idx _ _ _ _ ctx.num_inner_threads).trans ?_
    apply List.Perm.of_eq
    rw [List.filter_eq_self]
    intro r _
    have hr := bind_thr_range settings._bind_posn
      (idx_get settings._nano_block_sizes settings._bind_posn) ctx.num_inner_threads r hT
    simpa using hr
  · intro e he
    rw [hev] at he
    unfold bound_region_calls at he
    obtain ⟨k, hk, hmem⟩ := List.mem_flatMap.mp he
    obtain ⟨r, hr, hown, heq⟩ := bound_thread_calls_mem _ _ _ _ _ _ _ _ hmem
    exact ⟨k, r, List.mem_range.mp hk, hr, hown, heq⟩

/-- C5, witness: two inner threads bound to slabs of width 4 in stencil dimension 1; the
loop produces the nano-blocks starting at 0 and at 4; thread 0 evaluates the first and
thread 1 the second, each exactly once. -/
theorem bound_threads_evaluate_each_nano_block_once_witness :
    eval_range
        { num_domain_dims := 1, domain_dims := ["x"], fold_pts := [1],
          num_inner_threads := 2, settings_strides := fun _ _ _ s => s,
          micro_block_loops := fun s => [{ s with start := [0, 0], stop := [1, 4] },
                                         { s with start := [0, 4], stop := [1, 8] }],
          omp_get_thread_num := fun _ => 0 }
        { bind_inner_threads := true, _bind_posn := 1, _nano_block_sizes := [1, 4],
          _micro_block_sizes := [1, 8], _micro_block_tile_sizes := [1, 8] }
        7
        { name := "b", is_scratch := false,
          _bundle_bb := { bb_begin := [0], bb_end := [8], bb_num_points := 8 },
          _bb_list := [], is_in_valid_step := fun _ => true,
          get_output_step_index := fun _ => none, output_var_ptrs := [],
          output_scratch_vecs := [], max_lh := [], max_rh := [] }
        { begin := [0, 0], end_ := [1, 8], stride := [1, 8], align := [1, 1],
          start := [0, 0], stop := [0, 0] } =
      [Event.calc_nano_block "b" 7 0
         { begin := [0, 0], end_ := [1, 8], stride := [1, 4], align := [1, 4],
           start := [0, 0], stop := [1, 4] },
       Event.calc_nano_block "b" 7 1
         { begin := [0, 0], end_ := [1, 8], stride := [1, 4], align := [1, 4],
           start := [0, 4], stop := [1, 8] }] ∧
    List.Perm
      (nano_blks_of (eval_range
        { num_domain_dims := 1, domain_dims := ["x"], fold_pts := [1],
          num_inner_threads := 2, settings_strides := fun _ _ _ s => s,
          micro_block_loops := fun s => [{ s with start := [0, 0], stop := [1, 4] },
                                         { s with start := [0, 4], stop := [1, 8] }],
          omp_get_thread_num := fun _ => 0 }
        { bind_inner_threads := true, _bind_posn := 1, _nano_block_sizes := [1, 4],
          _micro_block_sizes := [1, 8], _micro_block_tile_sizes := [1, 8] }
        7
        { name := "b", is_scratch := false,
          _bundle_bb := { bb_begin := [0], bb_end := [8], bb_num_points := 8 },
          _bb_list := [], is_in_valid_step := fun _ => true,
          get_output_step_index := fun _ => none, output_var_ptrs := [],
          output_scratch_vecs := [], max_lh := [], max_rh := [] }
        { begin := [0, 0], end_ := [1, 8], stride := [1, 8], align := [1, 1],
          start := [0, 0], stop := [0, 0] }))
      [{ begin := [0, 0], end_ := [1, 8], stride := [1, 4], align := [1, 4],
         start := [0, 0], stop := [1, 4] },
       { begin := [0, 0], end_ := [1, 8], stride := [1, 4], align := [1, 4],
         start := [0, 4], stop := [1, 8] }] :=
  ⟨by decide,
   (bound_threads_evaluate_each_nano_block_once
      { num_domain_dims := 1, domain_dims := ["x"], fold_pts := [1],
        num_inner_threads := 2, settings_strides := fun _ _ _ s => s,
        micro_block_loops := fun s => [{ s with start := [0, 0], stop := [1, 4] },
                                       { s with start := [0, 4], stop := [1, 8] }],
        omp_get_thread_num := fun _ => 0 }
      { bind_inner_threads := true, _bind_posn := 1, _nano_block_sizes := [1, 4],
        _micro_block_sizes := [1, 8], _micro_block_tile_sizes := [1, 8] }
      7
      { name := "b", is_scratch := false,
        _bundle_bb := { bb_begin := [0], bb_end := [8], bb_num_points := 8 },
        _bb_list := [], is_in_valid_step := fun _ => true,
        get_output_step_index := fun _ => none, output_var_ptrs := [],
        output_scratch_vecs := [], max_lh := [], max_rh := [] }
      { begin := [0, 0], end_ := [1, 8], stride := [1, 8], align := [1, 1],
        start := [0, 0], stop := [0, 0] }
      (by decide) rfl).2.1⟩

/-! ## Boxes of the required bundles -/

theorem adjust_span_lengths (ctx : StencilContext) (sg : StencilBundleBase)
    (outer_thread_idx : Nat) (idxs x : ScanIndices)
    (hx : sg.adjust_span ctx outer_thread_idx idxs = some x) :
    x.begin.length = idxs.begin.length ∧ x.end_.length = idxs.end_.length := by
  unfold StencilBundleBase.adjust_span at hx
  split at hx
  · exact absurd hx (by simp)
  · split at hx
    · exact absurd hx (by simp)
    · split at hx
      · exact absurd hx (by simp)
      · have hx1 := Option.some.inj hx
        subst hx1
        have h := adjust_span_loop_fields ctx.fold_pts sg.max_lh sg.max_rh idxs
          ctx.num_domain_dims 0 idxs
        exact ⟨h.2.2.2.1, h.2.2.2.2.1⟩

/-- The range of a scratch box: evaluated iff the box has points and overlaps `mb_idxs2`
in every domain dimension, and then trimmed to the box in every domain dimension. -/
theorem fbb_range_scratch (ctx : StencilContext) (bb fbb : BoundingBox)
    (mb_idxs2 : ScanIndices)
    (hb : ctx.num_domain_dims < mb_idxs2.begin.length)
    (he : ctx.num_domain_dims < mb_idxs2.end_.length) :
    ((∃ r, fbb_range ctx true bb mb_idxs2 fbb = some r) ↔
      fbb.bb_num_points > 0 ∧ ∀ j, j < ctx.num_domain_dims →
        min (idx_get mb_idxs2.end_ (stencil_posn j)) (idx_get fbb.bb_end j) >
          max (idx_get mb_idxs2.begin (stencil_posn j)) (idx_get fbb.bb_begin j)) ∧
    (∀ r, fbb_range ctx true bb mb_idxs2 fbb = some r →
      ∀ j, j < ctx.num_domain_dims →
        idx_get r.begin (stencil_posn j) =
          max (idx_get mb_idxs2.begin (stencil_posn j)) (idx_get fbb.bb_begin j) ∧
        idx_get r.end_ (stencil_posn j) =
          min (idx_get mb_idxs2.end_ (stencil_posn j)) (idx_get fbb.bb_end j)) := by
  have hiff := trim_loop_ok_iff mb_idxs2 fbb ctx.num_domain_dims 0 mb_idxs2
    (decide (fbb.bb_num_points > 0))
  have hform : fbb_range ctx true bb mb_idxs2 fbb =
      if (trim_loop mb_idxs2 fbb ctx.num_domain_dims 0 mb_idxs2
          (decide (fbb.bb_num_points > 0))).2 = true
      then some (trim_loop mb_idxs2 fbb ctx.num_domain_dims 0 mb_idxs2
          (decide (fbb.bb_num_points > 0))).1
      else none := by
    unfold fbb_range
    by_cases h : (trim_loop mb_idxs2 fbb ctx.num_domain_dims 0 mb_idxs2
        (decide (fbb.bb_num_points > 0))).2 = true
    · simp [h]
    · simp [h]
  constructor
  · rw [hform]
    constructor
    · rintro ⟨r, hr⟩
      split at hr
      · rename_i hok
        have h := hiff.mp hok
        exact ⟨by simpa using h.1, fun j hj => h.2 j (Nat.zero_le j) (by omega)⟩
      · exact absurd hr (by simp)
    · rintro ⟨hp, hov⟩
      have hok := hiff.mpr ⟨by simpa using hp, fun j _ hj => hov j (by omega)⟩
      exact ⟨_, if_pos hok⟩
  · intro r hr j hj
    rw [hform] at hr
    split at hr
    · rename_i hok
      have h := hiff.mp hok
      have hr1 := Option.some.inj hr
      subst hr1
      exact trim_loop_visited mb_idxs2 fbb ctx.num_domain_dims 0 mb_idxs2 _ j
        (Nat.zero_le j) (by omega) (fun j1 h3 h4 => h.2 j1 h3 (by omega))
        (by simp only [stencil_posn]; omega) (by simp only [stencil_posn]; omega)
    · exact absurd hr (by simp)

/-- The loop over the boxes of a required bundle goes through the boxes one after the
other. -/
theorem fbb_loop_append (ctx : StencilContext) (settings : KernelSettings)
    (outer_thread_idx : Nat) (sg : StencilBundleBase) (bb : BoundingBox)
    (mb_idxs2 : ScanIndices) (l1 l2 : List BoundingBox) :
    fbb_loop ctx settings outer_thread_idx sg bb mb_idxs2 (l1 ++ l2) =
      fbb_loop ctx settings outer_thread_idx sg bb mb_idxs2 l1 ++
        fbb_loop ctx settings outer_thread_idx sg bb mb_idxs2 l2 := by
  induction l1 with
  | nil => rfl
  | cons fbb l1 ih =>
    rw [List.cons_append]
    simp only [fbb_loop]
    rw [ih]
    cases fbb_range ctx sg.is_scratch bb mb_idxs2 fbb with
    | none => rfl
    | some r => simp only [List.append_assoc]

/-- C6. For a required scratch bundle `sg` that is valid at step `t`, with `x` the result
of `adjust_span` on the micro-block trimmed to the box of the consuming bundle, and a box
`fbb` of `sg` (the boxes of `sg` are `pre`, then `fbb`, then `post`): the loop over the
required bundles appends to the calls those of the loop over the boxes of `sg`, run on the
range prepared from `x`; `fbb` is evaluated iff it has more than zero points and
`min(x.end, fbb.end) > max(x.begin, fbb.begin)` in every domain dimension; the range `r`
made for it has in every domain dimension begin equal to that max and end equal to that
min, so it lies inside the box and inside `x`; when `fbb` is evaluated, the calls of the
loop over the boxes are those for `pre`, then the nano-block evaluation `eval_range` over
that very range `r`, then those for `post`; when it is not, the calls are those for `pre`
and `post` alone. -/
theorem scratch_box_is_trimmed (ctx : StencilContext) (settings : KernelSettings)
    (outer_thread_idx : Nat) (sg : StencilBundleBase) (mb_idxs1 x : ScanIndices)
    (bb fbb : BoundingBox) (t : idx_t) (rest : List StencilBundleBase) (st : KernelState)
    (pre post : List BoundingBox)
    (hs : sg.is_scratch = true) (hvalid : sg.is_in_valid_step t = true)
    (hx : sg.adjust_span ctx outer_thread_idx mb_idxs1 = some x)
    (hb : ctx.num_domain_dims < mb_idxs1.begin.length)
    (he : ctx.num_domain_dims < mb_idxs1.end_.length)
    (hsplit : sg.get_bbs = pre ++ fbb :: post) :
    ∃ mb_idxs2, reqd_range ctx settings outer_thread_idx sg mb_idxs1 = some mb_idxs2 ∧
      mb_idxs2.begin = x.begin ∧ mb_idxs2.end_ = x.end_ ∧
      reqd_loop ctx settings outer_thread_idx t bb mb_idxs1 (sg :: rest) st =
        reqd_loop ctx settings outer_thread_idx t bb mb_idxs1 rest
          { st with trace := st.trace ++
              fbb_loop ctx settings outer_thread_idx sg bb mb_idxs2 sg.get_bbs } ∧
      ((∃ r, fbb_range ctx sg.is_scratch bb mb_idxs2 fbb = some r) ↔
        fbb.bb_num_points > 0 ∧ ∀ j, j < ctx.num_domain_dims →
          min (idx_get x.end_ (stencil_posn j)) (idx_get fbb.bb_end j) >
            max (idx_get x.begin (stencil_posn j)) (idx_get fbb.bb_begin j)) ∧
      (∀ r, fbb_range ctx sg.is_scratch bb mb_idxs2 fbb = some r →
        ∀ j, j < ctx.num_domain_dims →
          idx_get r.begin (stencil_posn j) =
            max (idx_get x.begin (stencil_posn j)) (idx_get fbb.bb_begin j) ∧
          idx_get r.end_ (stencil_posn j) =
            min (idx_get x.end_ (stencil_posn j)) (idx_get fbb.bb_end j) ∧
          idx_get fbb.bb_begin j ≤ idx_get r.begin (stencil_posn j) ∧
          idx_get r.end_ (stencil_posn j) ≤ idx_get fbb.bb_end j ∧
          idx_get x.begin (stencil_posn j) ≤ idx_get r.begin (stencil_posn j) ∧
          idx_get r.end_ (stencil_posn j) ≤ idx_get x.end_ (stencil_posn j)) ∧
      ((fbb.bb_num_points > 0 ∧ ∀ j, j < ctx.num_domain_dims →
          min (idx_get x.end_ (stencil_posn j)) (idx_get fbb.bb_end j) >
            max (idx_get x.begin (stencil_posn j)) (idx_get fbb.bb_begin j)) →
        ∃ r, fbb_range ctx sg.is_scratch bb mb_idxs2 fbb = some r ∧
          (∀ j, j < ctx.num_domain_dims →
            idx_get r.begin (stencil_posn j) =
              max (idx_get x.begin (stencil_posn j)) (idx_get fbb.bb_begin j) ∧
            idx_get r.end_ (stencil_posn j) =
              min (idx_get x.end_ (stencil_posn j)) (idx_get fbb.bb_end j)) ∧
          fbb_loop ctx settings outer_thread_idx sg bb mb_idxs2 sg.get_bbs =
            fbb_loop ctx settings outer_thread_idx sg bb mb_idxs2 pre ++
              eval_range ctx settings outer_thread_idx sg r ++
              fbb_loop ctx settings outer_thread_idx sg bb mb_idxs2 post) ∧
      (¬ (fbb.bb_num_points > 0 ∧ ∀ j, j < ctx.num_domain_dims →
          min (idx_get x.end_ (stencil_posn j)) (idx_get fbb.bb_end j) >
            max (idx_get x.begin (stencil_posn j)) (idx_get fbb.bb_begin j)) →
        fbb_loop ctx settings outer_thread_idx sg bb mb_idxs2 sg.get_bbs =
          fbb_loop ctx settings outer_thread_idx sg bb mb_idxs2 pre ++
            fbb_loop ctx settings outer_thread_idx sg bb mb_idxs2 post) := by
  have hlen := adjust_span_lengths ctx sg outer_thread_idx mb_idxs1 x hx
  have hrr : reqd_range ctx settings outer_thread_idx sg mb_idxs1 =
      some (x.adjust_from_settings ctx settings._micro_block_sizes
        settings._micro_block_tile_sizes settings._nano_block_sizes) := by
    simp [reqd_range, hs, hx]
  have hfr := fbb_range_scratch ctx bb fbb
    (x.adjust_from_settings ctx settings._micro_block_sizes
      settings._micro_block_tile_sizes settings._nano_block_sizes)
    (by simp only [ScanIndices.adjust_from_settings]; omega)
    (by simp only [ScanIndices.adjust_from_settings]; omega)
  have hloop : ∀ m : ScanIndices,
      fbb_loop ctx settings outer_thread_idx sg bb m sg.get_bbs =
        fbb_loop ctx settings outer_thread_idx sg bb m pre ++
          ((match fbb_range ctx sg.is_scratch bb m fbb with
            | none => []
            | some r => eval_range ctx settings outer_thread_idx sg r) ++
          fbb_loop ctx settings outer_thread_idx sg bb m post) := by
    intro m
    rw [hsplit, fbb_loop_append]
    congr 1
    simp only [fbb_loop]
    cases fbb_range ctx sg.is_scratch bb m fbb with
    | none => rfl
    | some r => rfl
  refine ⟨_, hrr, rfl, rfl, ?_, ?_, ?_, ?_, ?_⟩
  · simp [reqd_loop, hvalid, hrr]
  · rw [hs]
    exact hfr.1
  · intro r hr j hj
    rw [hs] at hr
    have h := hfr.2 r hr j hj
    simp only [ScanIndices.adjust_from_settings] at h
    refine ⟨h.1, h.2, ?_, ?_, ?_, ?_⟩
    · rw [h.1]
      exact le_max_right _ _
    · rw [h.2]
      exact min_le_right _ _
    · rw [h.1]
      exact le_max_left _ _
    · rw [h.2]
      exact min_le_left _ _
  · intro hcond
    obtain ⟨r, hr⟩ := hfr.1.mpr hcond
    have hr1 : fbb_range ctx sg.is_scratch bb
        (x.adjust_from_settings ctx settings._micro_block_sizes
          settings._micro_block_tile_sizes settings._nano_block_sizes) fbb = some r := by
      rw [hs]
      exact hr
    refine ⟨r, hr1, ?_, ?_⟩
    · intro j hj
      have h := hfr.2 r hr j hj
      simp only [ScanIndices.adjust_from_settings] at h
      exact h
    · rw [hloop, hr1, List.append_assoc]
  · intro hcond
    have hnone : fbb_range ctx sg.is_scratch bb
        (x.adjust_from_settings ctx settings._micro_block_sizes
          settings._micro_block_tile_sizes settings._nano_block_sizes) fbb = none := by
      rw [hs]
      cases hfb : fbb_range ctx true bb
          (x.adjust_from_settings ctx settings._micro_block_sizes
            settings._micro_block_tile_sizes settings._nano_block_sizes) fbb with
      | none => rfl
      | some r => exact absurd (hfr.1.mp ⟨r, hfb⟩) hcond
    rw [hloop, hnone]
    rfl

/-- C6, witness: a scratch bundle with write halos 2 and 3 and fold size 4; the consumer
range `[4, 12)` is expanded to `[0, 16)` and the one scratch box `[2, 10)` is evaluated
over `[2, 10)`: the only call of the loop over the boxes is the evaluation of the
nano-block `[2, 10)`. -/
theorem scratch_box_is_trimmed_witness :
    fbb_range
        ({ num_domain_dims := 1, domain_dims := ["x"], fold_pts := [4], num_inner_threads := 1, settings_strides := fun _ _ _ s => s, micro_block_loops := fun s => [s], omp_get_thread_num := fun _ => 0 } : StencilContext)
        true ({ bb_begin := [4], bb_end := [12], bb_num_points := 8 } : BoundingBox)
        ({ begin := [0, 0], end_ := [1, 16], stride := [1, 16], align := [1, 1], start := [0, 0], stop := [0, 0] } : ScanIndices)
        ({ bb_begin := [2], bb_end := [10], bb_num_points := 8 } : BoundingBox) =
      some ({ begin := [0, 2], end_ := [1, 10], stride := [1, 16], align := [1, 1], start := [0, 0], stop := [0, 0] } : ScanIndices) ∧
    fbb_loop
        ({ num_domain_dims := 1, domain_dims := ["x"], fold_pts := [4], num_inner_threads := 1, settings_strides := fun _ _ _ s => s, micro_block_loops := fun s => [s], omp_get_thread_num := fun _ => 0 } : StencilContext)
        ({ bind_inner_threads := false, _bind_posn := 1, _nano_block_sizes := [1, 4], _micro_block_sizes := [1, 8], _micro_block_tile_sizes := [1, 8] } : KernelSettings)
        0
        ({ name := "s", is_scratch := true, _bundle_bb := { bb_begin := [2], bb_end := [10], bb_num_points := 8 }, _bb_list := [{ bb_begin := [2], bb_end := [10], bb_num_points := 8 }], is_in_valid_step := fun _ => true, get_output_step_index := fun _ => none, output_var_ptrs := [], output_scratch_vecs := [], max_lh := [2], max_rh := [3] } : StencilBundleBase)
        ({ bb_begin := [4], bb_end := [12], bb_num_points := 8 } : BoundingBox)
        ({ begin := [0, 0], end_ := [1, 16], stride := [1, 16], align := [1, 1], start := [0, 0], stop := [0, 0] } : ScanIndices)
        [({ bb_begin := [2], bb_end := [10], bb_num_points := 8 } : BoundingBox)] =
      [Event.calc_nano_block "s" 0 0
        ({ begin := [0, 2], end_ := [1, 10], stride := [1, 16], align := [1, 1], start := [0, 0], stop := [0, 0] } : ScanIndices)] ∧
    ∃ mb_idxs2,
      reqd_range
        ({ num_domain_dims := 1, domain_dims := ["x"], fold_pts := [4], num_inner_threads := 1, settings_strides := fun _ _ _ s => s, micro_block_loops := fun s => [s], omp_get_thread_num := fun _ => 0 } : StencilContext)
        ({ bind_inner_threads := false, _bind_posn := 1, _nano_block_sizes := [1, 4], _micro_block_sizes := [1, 8], _micro_block_tile_sizes := [1, 8] } : KernelSettings)
        0
        ({ name := "s", is_scratch := true, _bundle_bb := { bb_begin := [2], bb_end := [10], bb_num_points := 8 }, _bb_list := [{ bb_begin := [2], bb_end := [10], bb_num_points := 8 }], is_in_valid_step := fun _ => true, get_output_step_index := fun _ => none, output_var_ptrs := [], output_scratch_vecs := [], max_lh := [2], max_rh := [3] } : StencilBundleBase)
        ({ begin := [0, 4], end_ := [1, 12], stride := [1, 8], align := [1, 1], start := [0, 0], stop := [0, 0] } : ScanIndices) = some mb_idxs2 ∧
      mb_idxs2.begin = [0, 0] ∧ mb_idxs2.end_ = [1, 16] ∧
      ∃ r,
        fbb_range
          ({ num_domain_dims := 1, domain_dims := ["x"], fold_pts := [4], num_inner_threads := 1, settings_strides := fun _ _ _ s => s, micro_block_loops := fun s => [s], omp_get_thread_num := fun _ => 0 } : StencilContext)
          true ({ bb_begin := [4], bb_end := [12], bb_num_points := 8 } : BoundingBox) mb_idxs2
          ({ bb_begin := [2], bb_end := [10], bb_num_points := 8 } : BoundingBox) = some r ∧
        fbb_loop
          ({ num_domain_dims := 1, domain_dims := ["x"], fold_pts := [4], num_inner_threads := 1, settings_strides := fun _ _ _ s => s, micro_block_loops := fun s => [s], omp_get_thread_num := fun _ => 0 } : StencilContext)
          ({ bind_inner_threads := false, _bind_posn := 1, _nano_block_sizes := [1, 4], _micro_block_sizes := [1, 8], _micro_block_tile_sizes := [1, 8] } : KernelSettings)
          0
          ({ name := "s", is_scratch := true, _bundle_bb := { bb_begin := [2], bb_end := [10], bb_num_points := 8 }, _bb_list := [{ bb_begin := [2], bb_end := [10], bb_num_points := 8 }], is_in_valid_step := fun _ => true, get_output_step_index := fun _ => none, output_var_ptrs := [], output_scratch_vecs := [], max_lh := [2], max_rh := [3] } : StencilBundleBase)
          ({ bb_begin := [4], bb_end := [12], bb_num_points := 8 } : BoundingBox) mb_idxs2
          [({ bb_begin := [2], bb_end := [10], bb_num_points := 8 } : BoundingBox)] =
        [] ++ eval_range
          ({ num_domain_dims := 1, domain_dims := ["x"], fold_pts := [4], num_inner_threads := 1, settings_strides := fun _ _ _ s => s, micro_block_loops := fun s => [s], omp_get_thread_num := fun _ => 0 } : StencilContext)
          ({ bind_inner_threads := false, _bind_posn := 1, _nano_block_sizes := [1, 4], _micro_block_sizes := [1, 8], _micro_block_tile_sizes := [1, 8] } : KernelSettings)
          0
          ({ name := "s", is_scratch := true, _bundle_bb := { bb_begin := [2], bb_end := [10], bb_num_points := 8 }, _bb_list := [{ bb_begin := [2], bb_end := [10], bb_num_points := 8 }], is_in_valid_step := fun _ => true, get_output_step_index := fun _ => none, output_var_ptrs := [], output_scratch_vecs := [], max_lh := [2], max_rh := [3] } : StencilBundleBase)
          r ++ [] :=
  ⟨by decide, by decide,
   (scratch_box_is_trimmed
      ({ num_domain_dims := 1, domain_dims := ["x"], fold_pts := [4], num_inner_threads := 1, settings_strides := fun _ _ _ s => s, micro_block_loops := fun s => [s], omp_get_thread_num := fun _ => 0 } : StencilContext)
      ({ bind_inner_threads := false, _bind_posn := 1, _nano_block_sizes := [1, 4], _micro_block_sizes := [1, 8], _micro_block_tile_sizes := [1, 8] } : KernelSettings)
      0
      ({ name := "s", is_scratch := true, _bundle_bb := { bb_begin := [2], bb_end := [10], bb_num_points := 8 }, _bb_list := [{ bb_begin := [2], bb_end := [10], bb_num_points := 8 }], is_in_valid_step := fun _ => true, get_output_step_index := fun _ => none, output_var_ptrs := [], output_scratch_vecs := [], max_lh := [2], max_rh := [3] } : StencilBundleBase)
      ({ begin := [0, 4], end_ := [1, 12], stride := [1, 8], align := [1, 1], start := [0, 0], stop := [0, 0] } : ScanIndices)
      ({ begin := [0, 0], end_ := [1, 16], stride := [1, 16], align := [1, 1], start := [0, 0], stop := [0, 0] } : ScanIndices)
      ({ bb_begin := [4], bb_end := [12], bb_num_points := 8 } : BoundingBox)
      ({ bb_begin := [2], bb_end := [10], bb_num_points := 8 } : BoundingBox)
      0 []
      ({ vars := fun _ => { dirty := fun _ _ => false, dev_modified := false, valid_step := 0 }, trace := [] } : KernelState)
      [] []
      rfl rfl (by decide) (by decide) (by decide) rfl).elim
    fun m h => ⟨m, h.1, h.2.1, h.2.2.1,
      (h.2.2.2.2.2.2.1 ⟨by decide, by
        intro j hj
        have hj0 : j = 0 := by
          have hj1 : j < 1 := hj
          omega
        subst hj0
        decide⟩).elim fun r hr => ⟨r, hr.1, hr.2.2⟩⟩⟩

theorem fbb_range_nonscratch (ctx : StencilContext) (bb fbb : BoundingBox)
    (mb_idxs2 : ScanIndices) :
    fbb_range ctx false bb mb_idxs2 fbb =
      if fbb = bb ∧ fbb.bb_num_points > 0 then some mb_idxs2 else none := by
  unfold fbb_range
  by_cases h : fbb = bb
  · subst h
    by_cases hp : fbb.bb_num_points > 0
    · have hq : ¬ fbb.bb_num_points ≤ 0 := not_le.mpr hp
      simp [hp, hq]
    · have hq : fbb.bb_num_points ≤ 0 := not_lt.mp hp
      simp [hp, hq]
  · simp [h]

/-- For a bundle that is not a scratch bundle, the loop over its boxes evaluates the box
of the outer loop only. -/
theorem fbb_loop_nonscratch (ctx : StencilContext) (settings : KernelSettings)
    (outer_thread_idx : Nat) (sg : StencilBundleBase) (bb : BoundingBox)
    (mb_idxs2 : ScanIndices) (hs : sg.is_scratch = false) (hp : bb.bb_num_points > 0)
    (l : List BoundingBox) (hnd : l.Nodup) :
    fbb_loop ctx settings outer_thread_idx sg bb mb_idxs2 l =
      if bb ∈ l then eval_range ctx settings outer_thread_idx sg mb_idxs2 else [] := by
  induction l with
  | nil => simp [fbb_loop]
  | cons fbb l ih =>
    have hnd1 := List.nodup_cons.mp hnd
    simp only [fbb_loop, hs, fbb_range_nonscratch, ih hnd1.2]
    by_cases h : fbb = bb
    · subst h
      simp [hp, hnd1.1]
    · have h1 : ¬ bb = fbb := fun e => h e.symm
      simp [h, h1]

/-- C7 as amended. For the target bundle (not a scratch bundle) with pairwise distinct
boxes and an outer box `bb` of it that overlaps the micro-block: if the bundle is valid at
step `t`, the loop over the required bundles evaluates it over exactly one range, which
has in every domain dimension the begin and end of the micro-block trimmed to `bb`
(`adjust_span` is not applied, the boxes are not intersected again), and every other box
of the bundle is skipped; if the bundle is not valid at step `t` it is not evaluated. -/
theorem target_bundle_uses_outer_box_only (ctx : StencilContext) (settings : KernelSettings)
    (outer_thread_idx : Nat) (self : StencilBundleBase) (micro_block_idxs : ScanIndices)
    (bb : BoundingBox) (t : idx_t) (rest : List StencilBundleBase) (st : KernelState)
    (hs : self.is_scratch = false) (hnd : self._bb_list.Nodup) (hmem : bb ∈ self._bb_list)
    (hov : (trim_to_bb ctx.num_domain_dims micro_block_idxs bb).2 = true)
    (hb : ctx.num_domain_dims < micro_block_idxs.begin.length)
    (he : ctx.num_domain_dims < micro_block_idxs.end_.length) :
    (self.is_in_valid_step t = true →
      ∃ mb_idxs2,
        reqd_range ctx settings outer_thread_idx self
          (trim_to_bb ctx.num_domain_dims micro_block_idxs bb).1 = some mb_idxs2 ∧
        mb_idxs2.begin = (trim_to_bb ctx.num_domain_dims micro_block_idxs bb).1.begin ∧
        mb_idxs2.end_ = (trim_to_bb ctx.num_domain_dims micro_block_idxs bb).1.end_ ∧
        (∀ j, j < ctx.num_domain_dims →
          idx_get mb_idxs2.begin (stencil_posn j) =
            max (idx_get micro_block_idxs.begin (stencil_posn j)) (idx_get bb.bb_begin j) ∧
          idx_get mb_idxs2.end_ (stencil_posn j) =
            min (idx_get micro_block_idxs.end_ (stencil_posn j)) (idx_get bb.bb_end j)) ∧
        fbb_range ctx self.is_scratch bb mb_idxs2 bb = some mb_idxs2 ∧
        (∀ fbb, fbb ∈ self.get_bbs → fbb ≠ bb →
          fbb_range ctx self.is_scratch bb mb_idxs2 fbb = none) ∧
        fbb_loop ctx settings outer_thread_idx self bb mb_idxs2 self.get_bbs =
          eval_range ctx settings outer_thread_idx self mb_idxs2 ∧
        reqd_loop ctx settings outer_thread_idx t bb
            (trim_to_bb ctx.num_domain_dims micro_block_idxs bb).1 (self :: rest) st =
          reqd_loop ctx settings outer_thread_idx t bb
            (trim_to_bb ctx.num_domain_dims micro_block_idxs bb).1 rest
            { st with trace := st.trace ++
                eval_range ctx settings outer_thread_idx self mb_idxs2 }) ∧
    (self.is_in_valid_step t = false →
      reqd_loop ctx settings outer_thread_idx t bb
          (trim_to_bb ctx.num_domain_dims micro_block_idxs bb).1 (self :: rest) st =
        reqd_loop ctx settings outer_thread_idx t bb
          (trim_to_bb ctx.num_domain_dims micro_block_idxs bb).1 rest st) := by
  have hok := (trim_loop_ok_iff micro_block_idxs bb ctx.num_domain_dims 0 micro_block_idxs
    (decide (bb.bb_num_points > 0))).mp hov
  have hp : bb.bb_num_points > 0 := by simpa using hok.1
  constructor
  · intro hvalid
    have hrr : reqd_range ctx settings outer_thread_idx self
        (trim_to_bb ctx.num_domain_dims micro_block_idxs bb).1 =
        some ((trim_to_bb ctx.num_domain_dims micro_block_idxs bb).1.adjust_from_settings ctx
          settings._micro_block_sizes settings._micro_block_tile_sizes
          settings._nano_block_sizes) := by
      simp [reqd_range, hs]
    have hloop := fbb_loop_nonscratch ctx settings outer_thread_idx self bb
      ((trim_to_bb ctx.num_domain_dims micro_block_idxs bb).1.adjust_from_settings ctx
        settings._micro_block_sizes settings._micro_block_tile_sizes
        settings._nano_block_sizes) hs hp self._bb_list hnd
    rw [if_pos hmem] at hloop
    refine ⟨_, hrr, rfl, rfl, ?_, ?_, ?_, hloop, ?_⟩
    · intro j hj
      exact trim_loop_visited micro_block_idxs bb ctx.num_domain_dims 0 micro_block_idxs _ j
        (Nat.zero_le j) (by omega) (fun j1 h3 h4 => hok.2 j1 h3 (by omega))
        (by simp only [stencil_posn]; omega) (by simp only [stencil_posn]; omega)
    · rw [hs, fbb_range_nonscratch]
      simp [hp]
    · intro fbb _ hne
      rw [hs, fbb_range_nonscratch]
      simp [hne]
    · have hloop1 : fbb_loop ctx settings outer_thread_idx self bb
          ((trim_to_bb ctx.num_domain_dims micro_block_idxs bb).1.adjust_from_settings ctx
            settings._micro_block_sizes settings._micro_block_tile_sizes
            settings._nano_block_sizes) self.get_bbs = _ := hloop
      simp [reqd_loop, hvalid, hrr, hloop1]
  · intro hinv
    simp [reqd_loop, hinv]

/-- C7, witness: a bundle valid at every step with the boxes `[0, 10)` and `[20, 30)`;
for the micro-block `[2, 8)` the bundle is evaluated once, over `[2, 8)`, and then its
variables are updated. -/
theorem target_bundle_uses_outer_box_only_witness :
    (StencilBundleBase.calc_micro_block
        { num_domain_dims := 1, domain_dims := ["x"], fold_pts := [1],
          num_inner_threads := 1, settings_strides := fun _ _ _ s => s,
          micro_block_loops := fun s => [s], omp_get_thread_num := fun _ => 0 }
        { name := "b", is_scratch := false,
          _bundle_bb := { bb_begin := [0], bb_end := [30], bb_num_points := 20 },
          _bb_list := [{ bb_begin := [0], bb_end := [10], bb_num_points := 10 },
                       { bb_begin := [20], bb_end := [30], bb_num_points := 10 }],
          is_in_valid_step := fun _ => true, get_output_step_index := fun t => some (t + 1),
          output_var_ptrs := [0], output_scratch_vecs := [], max_lh := [], max_rh := [] }
        [{ name := "b", is_scratch := false,
           _bundle_bb := { bb_begin := [0], bb_end := [30], bb_num_points := 20 },
           _bb_list := [{ bb_begin := [0], bb_end := [10], bb_num_points := 10 },
                        { bb_begin := [20], bb_end := [30], bb_num_points := 10 }],
           is_in_valid_step := fun _ => true, get_output_step_index := fun t => some (t + 1),
           output_var_ptrs := [0], output_scratch_vecs := [], max_lh := [], max_rh := [] }]
        0
        { bind_inner_threads := false, _bind_posn := 1, _nano_block_sizes := [1, 4],
          _micro_block_sizes := [1, 8], _micro_block_tile_sizes := [1, 8] }
        { begin := [0, 2], end_ := [1, 8], stride := [1, 6], align := [1, 1],
          start := [0, 0], stop := [0, 0] }
        { do_mpi_left := false, do_mpi_right := false }
        { vars := fun _ => { dirty := fun _ _ => false, dev_modified := false, valid_step := 0 },
          trace := [] }).state.trace =
      [Event.calc_nano_block "b" 0 0
         { begin := [0, 2], end_ := [1, 8], stride := [1, 6], align := [1, 1],
           start := [0, 0], stop := [0, 0] },
       Event.update_var_info "b" dirty_idx.self 0 false true false] ∧
    fbb_loop
        { num_domain_dims := 1, domain_dims := ["x"], fold_pts := [1],
          num_inner_threads := 1, settings_strides := fun _ _ _ s => s,
          micro_block_loops := fun s => [s], omp_get_thread_num := fun _ => 0 }
        { bind_inner_threads := false, _bind_posn := 1, _nano_block_sizes := [1, 4],
          _micro_block_sizes := [1, 8], _micro_block_tile_sizes := [1, 8] }
        0
        { name := "b", is_scratch := false,
          _bundle_bb := { bb_begin := [0], bb_end := [30], bb_num_points := 20 },
          _bb_list := [{ bb_begin := [0], bb_end := [10], bb_num_points := 10 },
                       { bb_begin := [20], bb_end := [30], bb_num_points := 10 }],
          is_in_valid_step := fun _ => true, get_output_step_index := fun t => some (t + 1),
          output_var_ptrs := [0], output_scratch_vecs := [], max_lh := [], max_rh := [] }
        { bb_begin := [0], bb_end := [10], bb_num_points := 10 }
        { begin := [0, 2], end_ := [1, 8], stride := [1, 6], align := [1, 1],
          start := [0, 0], stop := [0, 0] }
        [{ bb_begin := [0], bb_end := [10], bb_num_points := 10 },
         { bb_begin := [20], bb_end := [30], bb_num_points := 10 }] =
      [Event.calc_nano_block "b" 0 0
         { begin := [0, 2], end_ := [1, 8], stride := [1, 6], align := [1, 1],
           start := [0, 0], stop := [0, 0] }] ∧
    ∃ mb_idxs2 : ScanIndices, mb_idxs2.begin = [0, 2] ∧ mb_idxs2.end_ = [1, 8] :=
  ⟨by decide, by decide,
   ((target_bundle_uses_outer_box_only
      { num_domain_dims := 1, domain_dims := ["x"], fold_pts := [1],
        num_inner_threads := 1, settings_strides := fun _ _ _ s => s,
        micro_block_loops := fun s => [s], omp_get_thread_num := fun _ => 0 }
      { bind_inner_threads := false, _bind_posn := 1, _nano_block_sizes := [1, 4],
        _micro_block_sizes := [1, 8], _micro_block_tile_sizes := [1, 8] }
      0
      { name := "b", is_scratch := false,
        _bundle_bb := { bb_begin := [0], bb_end := [30], bb_num_points := 20 },
        _bb_list := [{ bb_begin := [0], bb_end := [10], bb_num_points := 10 },
                     { bb_begin := [20], bb_end := [30], bb_num_points := 10 }],
        is_in_valid_step := fun _ => true, get_output_step_index := fun t => some (t + 1),
        output_var_ptrs := [0], output_scratch_vecs := [], max_lh := [], max_rh := [] }
      { begin := [0, 2], end_ := [1, 8], stride := [1, 6], align := [1, 1],
        start := [0, 0], stop := [0, 0] }
      { bb_begin := [0], bb_end := [10], bb_num_points := 10 }
      0 []
      { vars := fun _ => { dirty := fun _ _ => false, dev_modified := false, valid_step := 0 },
        trace := [] }
      rfl (by decide) (by decide) (by decide) (by decide) (by decide)).1 rfl).elim
    fun m h => ⟨m, h.2.1, h.2.2.1⟩⟩

/-- C7, counterexample to the claim as stated: the target bundle has one box `[0, 10)`,
which overlaps the micro-block `[2, 8)`, but the bundle is not valid at step 0; the call
runs to its end and the bundle is evaluated over no range at all, while the micro-block
loop would produce a nano-block for every range. -/
theorem target_bundle_inactive_not_evaluated :
    (trim_to_bb 1
        { begin := [0, 2], end_ := [1, 8], stride := [1, 6], align := [1, 1],
          start := [0, 0], stop := [0, 0] }
        { bb_begin := [0], bb_end := [10], bb_num_points := 10 }).2 = true ∧
    [({ bb_begin := [0], bb_end := [10], bb_num_points := 10 } : BoundingBox)].Nodup ∧
    (StencilBundleBase.calc_micro_block
        { num_domain_dims := 1, domain_dims := ["x"], fold_pts := [1],
          num_inner_threads := 1, settings_strides := fun _ _ _ s => s,
          micro_block_loops := fun s => [s], omp_get_thread_num := fun _ => 0 }
        { name := "b", is_scratch := false,
          _bundle_bb := { bb_begin := [0], bb_end := [10], bb_num_points := 10 },
          _bb_list := [{ bb_begin := [0], bb_end := [10], bb_num_points := 10 }],
          is_in_valid_step := fun _ => false, get_output_step_index := fun t => some (t + 1),
          output_var_ptrs := [0], output_scratch_vecs := [], max_lh := [], max_rh := [] }
        [{ name := "b", is_scratch := false,
           _bundle_bb := { bb_begin := [0], bb_end := [10], bb_num_points := 10 },
           _bb_list := [{ bb_begin := [0], bb_end := [10], bb_num_points := 10 }],
           is_in_valid_step := fun _ => false, get_output_step_index := fun t => some (t + 1),
           output_var_ptrs := [0], output_scratch_vecs := [], max_lh := [], max_rh := [] }]
        0
        { bind_inner_threads := false, _bind_posn := 1, _nano_block_sizes := [1, 4],
          _micro_block_sizes := [1, 8], _micro_block_tile_sizes := [1, 8] }
        { begin := [0, 2], end_ := [1, 8], stride := [1, 6], align := [1, 1],
          start := [0, 0], stop := [0, 0] }
        { do_mpi_left := false, do_mpi_right := false }
        { vars := fun _ => { dirty := fun _ _ => false, dev_modified := false, valid_step := 0 },
          trace := [] }).finished = true ∧
    nano_blks_of (StencilBundleBase.calc_micro_block
        { num_domain_dims := 1, domain_dims := ["x"], fold_pts := [1],
          num_inner_threads := 1, settings_strides := fun _ _ _ s => s,
          micro_block_loops := fun s => [s], omp_get_thread_num := fun _ => 0 }
        { name := "b", is_scratch := false,
          _bundle_bb := { bb_begin := [0], bb_end := [10], bb_num_points := 10 },
          _bb_list := [{ bb_begin := [0], bb_end := [10], bb_num_points := 10 }],
          is_in_valid_step := fun _ => false, get_output_step_index := fun t => some (t + 1),
          output_var_ptrs := [0], output_scratch_vecs := [], max_lh := [], max_rh := [] }
        [{ name := "b", is_scratch := false,
           _bundle_bb := { bb_begin := [0], bb_end := [10], bb_num_points := 10 },
           _bb_list := [{ bb_begin := [0], bb_end := [10], bb_num_points := 10 }],
           is_in_valid_step := fun _ => false, get_output_step_index := fun t => some (t + 1),
           output_var_ptrs := [0], output_scratch_vecs := [], max_lh := [], max_rh := [] }]
        0
        { bind_inner_threads := false, _bind_posn := 1, _nano_block_sizes := [1, 4],
          _micro_block_sizes := [1, 8], _micro_block_tile_sizes := [1, 8] }
        { begin := [0, 2], end_ := [1, 8], stride := [1, 6], align := [1, 1],
          start := [0, 0], stop := [0, 0] }
        { do_mpi_left := false, do_mpi_right := false }
        { vars := fun _ => { dirty := fun _ _ => false, dev_modified := false, valid_step := 0 },
          trace := [] }).state.trace = [] :=
  ⟨by decide, by decide, by decide, by decide⟩

/-! ## Validity and dirty bookkeeping -/

theorem update_one_var_idem (whose : dirty_idx) (t_out : idx_t)
    (mark_extern_dirty mod_dev_data update_valid_step : Bool) (gb : YkVarBase) :
    update_one_var whose t_out mark_extern_dirty mod_dev_data update_valid_step
        (update_one_var whose t_out mark_extern_dirty mod_dev_data update_valid_step gb) =
      update_one_var whose t_out mark_extern_dirty mod_dev_data update_valid_step gb := by
  cases mark_extern_dirty <;> cases mod_dev_data <;> cases update_valid_step <;>
    simp [update_one_var, YkVarBase.set_dirty, YkVarBase.mod_dev,
      YkVarBase.update_valid_step]

/-- The loop over the output variables applies the three guarded updates to every
variable of the list and leaves the other variables alone. -/
theorem update_var_loop_apply (whose : dirty_idx) (t_out : idx_t)
    (mark_extern_dirty mod_dev_data update_valid_step : Bool) (l : List Nat)
    (vars : VarStore) (v : Nat) :
    update_var_loop whose t_out mark_extern_dirty mod_dev_data update_valid_step l vars v =
      if v ∈ l then
        update_one_var whose t_out mark_extern_dirty mod_dev_data update_valid_step (vars v)
      else vars v := by
  induction l generalizing vars with
  | nil => simp [update_var_loop]
  | cons gp rest ih =>
    simp only [update_var_loop]
    rw [ih]
    by_cases hv : v = gp
    · subst hv
      by_cases hr : v ∈ rest
      · simp [hr, update_one_var_idem]
      · simp [hr]
    · by_cases hr : v ∈ rest
      · simp [hr, hv, Function.update_noteq hv]
      · simp [hr, hv, Function.update_noteq hv]

/-- C8. (1) `update_var_info` called with `mark_extern_dirty = false` leaves every dirty
flag of every variable unchanged, whatever `mod_dev_data` and `update_valid_step` are.
(2) When an output step `t_out` exists, each output variable has afterwards: the dirty
flag of `whose` and `t_out` set if `mark_extern_dirty` and unchanged otherwise, the
device-modified mark set if `mod_dev_data` and unchanged otherwise, the last valid step
equal to `t_out` if `update_valid_step` and unchanged otherwise; so a flag that was clear
is set iff its own parameter is true, independently of the other two. Variables that are
not output variables of the bundle are unchanged. -/
theorem update_var_info_axes_independent (self : StencilBundleBase) (whose : dirty_idx)
    (t : idx_t) (mark_extern_dirty mod_dev_data update_valid_step : Bool)
    (st : KernelState) :
    (∀ v w s,
      ((self.update_var_info whose t false mod_dev_data update_valid_step st).vars v).dirty w s =
        (st.vars v).dirty w s) ∧
    (∀ t_out, self.get_output_step_index t = some t_out →
      (∀ v, v ∈ self.output_var_ptrs →
        ((self.update_var_info whose t mark_extern_dirty mod_dev_data update_valid_step
            st).vars v).dirty whose t_out =
          (if mark_extern_dirty then true else (st.vars v).dirty whose t_out) ∧
        ((self.update_var_info whose t mark_extern_dirty mod_dev_data update_valid_step
            st).vars v).dev_modified =
          (if mod_dev_data then true else (st.vars v).dev_modified) ∧
        ((self.update_var_info whose t mark_extern_dirty mod_dev_data update_valid_step
            st).vars v).valid_step =
          (if update_valid_step then t_out else (st.vars v).valid_step) ∧
        ((st.vars v).dirty whose t_out = false →
          (((self.update_var_info whose t mark_extern_dirty mod_dev_data update_valid_step
              st).vars v).dirty whose t_out = true ↔ mark_extern_dirty = true)) ∧
        ((st.vars v).dev_modified = false →
          (((self.update_var_info whose t mark_extern_dirty mod_dev_data update_valid_step
              st).vars v).dev_modified = true ↔ mod_dev_data = true)) ∧
        ((st.vars v).valid_step ≠ t_out →
          (((self.update_var_info whose t mark_extern_dirty mod_dev_data update_valid_step
              st).vars v).valid_step = t_out ↔ update_valid_step = true))) ∧
      (∀ v, v ∉ self.output_var_ptrs →
        (self.update_var_info whose t mark_extern_dirty mod_dev_data update_valid_step
            st).vars v = st.vars v)) := by
  constructor
  · intro v w s
    unfold StencilBundleBase.update_var_info
    cases hto : self.get_output_step_index t with
    | none => rfl
    | some t_out =>
      simp only [update_var_loop_apply]
      by_cases hv : v ∈ self.output_var_ptrs
      · cases mod_dev_data <;> cases update_valid_step <;>
          simp [hv, update_one_var, YkVarBase.mod_dev, YkVarBase.update_valid_step]
      · simp [hv]
  · intro t_out hto
    have hvars : (self.update_var_info whose t mark_extern_dirty mod_dev_data
        update_valid_step st).vars =
        update_var_loop whose t_out mark_extern_dirty mod_dev_data update_valid_step
          self.output_var_ptrs st.vars := by
      simp [StencilBundleBase.update_var_info, hto]
    rw [hvars]
    constructor
    · intro v hv
      rw [update_var_loop_apply, if_pos hv]
      cases mark_extern_dirty <;> cases mod_dev_data <;> cases update_valid_step <;>
        simp [update_one_var, YkVarBase.set_dirty, YkVarBase.mod_dev,
          YkVarBase.update_valid_step]
    · intro v hv
      rw [update_var_loop_apply, if_neg hv]

/-- C8, witness: the output step of step 5 is 6; with `mark_extern_dirty = false`,
`mod_dev_data = true` and `update_valid_step = true` the output variable 0 keeps its
clear dirty flag, gets the device-modified mark and has last valid step 6. -/
theorem update_var_info_axes_independent_witness :
    ((StencilBundleBase.update_var_info
        { name := "b", is_scratch := false,
          _bundle_bb := { bb_begin := [0], bb_end := [10], bb_num_points := 10 },
          _bb_list := [{ bb_begin := [0], bb_end := [10], bb_num_points := 10 }],
          is_in_valid_step := fun _ => true, get_output_step_index := fun t => some (t + 1),
          output_var_ptrs := [0], output_scratch_vecs := [], max_lh := [], max_rh := [] }
        dirty_idx.self 5 false true true
        { vars := fun _ => { dirty := fun _ _ => false, dev_modified := false, valid_step := 0 },
          trace := [] }).vars 0).dirty dirty_idx.self 6 = false ∧
    ((StencilBundleBase.update_var_info
        { name := "b", is_scratch := false,
          _bundle_bb := { bb_begin := [0], bb_end := [10], bb_num_points := 10 },
          _bb_list := [{ bb_begin := [0], bb_end := [10], bb_num_points := 10 }],
          is_in_valid_step := fun _ => true, get_output_step_index := fun t => some (t + 1),
          output_var_ptrs := [0], output_scratch_vecs := [], max_lh := [], max_rh := [] }
        dirty_idx.self 5 false true true
        { vars := fun _ => { dirty := fun _ _ => false, dev_modified := false, valid_step := 0 },
          trace := [] }).vars 0).dev_modified = true ∧
    ((StencilBundleBase.update_var_info
        { name := "b", is_scratch := false,
          _bundle_bb := { bb_begin := [0], bb_end := [10], bb_num_points := 10 },
          _bb_list := [{ bb_begin := [0], bb_end := [10], bb_num_points := 10 }],
          is_in_valid_step := fun _ => true, get_output_step_index := fun t => some (t + 1),
          output_var_ptrs := [0], output_scratch_vecs := [], max_lh := [], max_rh := [] }
        dirty_idx.self 5 false true true
        { vars := fun _ => { dirty := fun _ _ => false, dev_modified := false, valid_step := 0 },
          trace := [] }).vars 0).valid_step = 6 :=
  ⟨((update_var_info_axes_independent
      { name := "b", is_scratch := false,
        _bundle_bb := { bb_begin := [0], bb_end := [10], bb_num_points := 10 },
        _bb_list := [{ bb_begin := [0], bb_end := [10], bb_num_points := 10 }],
        is_in_valid_step := fun _ => true, get_output_step_index := fun t => some (t + 1),
        output_var_ptrs := [0], output_scratch_vecs := [], max_lh := [], max_rh := [] }
      dirty_idx.self 5 false true true
      { vars := fun _ => { dirty := fun _ _ => false, dev_modified := false, valid_step := 0 },
        trace := [] }).2 6 rfl).1 0 (by decide) |>.1,
   by decide, by decide⟩

/-! ## Effects of `calc_micro_block` on the variables -/

theorem update_var_info_vars (self : StencilBundleBase) (whose : dirty_idx) (t : idx_t)
    (mark_extern_dirty mod_dev_data update_valid_step : Bool) (st : KernelState) :
    (self.update_var_info whose t mark_extern_dirty mod_dev_data update_valid_step st).vars =
      self.updated_vars whose t mark_extern_dirty mod_dev_data update_valid_step st.vars ∧
    (self.update_var_info whose t mark_extern_dirty mod_dev_data update_valid_step st).trace =
      st.trace ++ [Event.update_var_info self.name whose t mark_extern_dirty mod_dev_data
        update_valid_step] := by
  unfold StencilBundleBase.updated_vars StencilBundleBase.update_var_info
  cases self.get_output_step_index t <;> simp

theorem updated_vars_apply (self : StencilBundleBase) (whose : dirty_idx) (t : idx_t)
    (mark_extern_dirty mod_dev_data update_valid_step : Bool) (vars : VarStore) (v : Nat) :
    self.updated_vars whose t mark_extern_dirty mod_dev_data update_valid_step vars v =
      match self.get_output_step_index t with
      | none => vars v
      | some t_out =>
        if v ∈ self.output_var_ptrs then
          update_one_var whose t_out mark_extern_dirty mod_dev_data update_valid_step (vars v)
        else vars v := by
  unfold StencilBundleBase.updated_vars StencilBundleBase.update_var_info
  cases self.get_output_step_index t with
  | none => rfl
  | some t_out => simp [update_var_loop_apply]

theorem updated_vars_idem (self : StencilBundleBase) (whose : dirty_idx) (t : idx_t)
    (mark_extern_dirty mod_dev_data update_valid_step : Bool) (vars : VarStore) :
    self.updated_vars whose t mark_extern_dirty mod_dev_data update_valid_step
        (self.updated_vars whose t mark_extern_dirty mod_dev_data update_valid_step vars) =
      self.updated_vars whose t mark_extern_dirty mod_dev_data update_valid_step vars := by
  funext v
  rw [updated_vars_apply, updated_vars_apply]
  cases self.get_output_step_index t with
  | none => rfl
  | some t_out =>
    by_cases hv : v ∈ self.output_var_ptrs
    · simp [hv, update_one_var_idem]
    · simp [hv]

theorem num_var_updates_append (a b : List Event) :
    num_var_updates (a ++ b) = num_var_updates a + num_var_updates b := by
  induction a with
  | nil => simp [num_var_updates]
  | cons e a ih =>
    cases e with
    | calc_nano_block n o k r => simp [num_var_updates, ih]
    | update_var_info n w t m d u =>
      rw [List.cons_append]
      simp only [num_var_updates]
      rw [ih]
      omega

theorem num_var_updates_bound_thread (sg : StencilBundleBase)
    (outer_thread_idx bind_posn : Nat) (bind_slab_pts : idx_t) (nbt k : Nat)
    (nano_blks : List ScanIndices) :
    num_var_updates (bound_thread_calls sg outer_thread_idx bind_posn bind_slab_pts nbt k
      nano_blks) = 0 := by
  induction nano_blks with
  | nil => rfl
  | cons r rest ih =>
    simp only [bound_thread_calls]
    split
    · simpa [num_var_updates] using ih
    · exact ih

theorem num_var_updates_eval_range (ctx : StencilContext) (settings : KernelSettings)
    (outer_thread_idx : Nat) (sg : StencilBundleBase) (mb_idxs3 : ScanIndices) :
    num_var_updates (eval_range ctx settings outer_thread_idx sg mb_idxs3) = 0 := by
  have hmap : ∀ l : List ScanIndices,
      num_var_updates (unbound_calls ctx sg outer_thread_idx l) = 0 := by
    intro l
    induction l with
    | nil => rfl
    | cons r rest ih => simpa [unbound_calls, num_var_updates] using ih
  have hflat : ∀ (ks : List Nat) (bp : Nat) (w : idx_t) (n : Nat) (l : List ScanIndices),
      num_var_updates (ks.flatMap fun k =>
        bound_thread_calls sg outer_thread_idx bp w n k l) = 0 := by
    intro ks bp w n l
    induction ks with
    | nil => rfl
    | cons k ks ih =>
      rw [List.flatMap_cons, num_var_updates_append, num_var_updates_bound_thread, ih]
  unfold eval_range
  simp only
  split
  · exact hflat _ _ _ _ _
  · exact hmap _

theorem num_var_updates_fbb_loop (ctx : StencilContext) (settings : KernelSettings)
    (outer_thread_idx : Nat) (sg : StencilBundleBase) (bb : BoundingBox)
    (mb_idxs2 : ScanIndices) (l : List BoundingBox) :
    num_var_updates (fbb_loop ctx settings outer_thread_idx sg bb mb_idxs2 l) = 0 := by
  induction l with
  | nil => rfl
  | cons fbb rest ih =>
    simp only [fbb_loop]
    split
    · exact ih
    · rw [num_var_updates_append, num_var_updates_eval_range, ih]

/-- The loop over the required bundles does not touch the bookkeeping of the variables
and does not enter `update_var_info`, whether it ends or stops at a failed assertion. -/
theorem reqd_loop_effect (ctx : StencilContext) (settings : KernelSettings)
    (outer_thread_idx : Nat) (t : idx_t) (bb : BoundingBox) (mb_idxs1 : ScanIndices)
    (l : List StencilBundleBase) (st : KernelState) :
    (reqd_loop ctx settings outer_thread_idx t bb mb_idxs1 l st).state.vars = st.vars ∧
    num_var_updates (reqd_loop ctx settings outer_thread_idx t bb mb_idxs1 l st).state.trace =
      num_var_updates st.trace := by
  induction l generalizing st with
  | nil => simp [reqd_loop, Outcome.state]
  | cons sg rest ih =>
    simp only [reqd_loop]
    split
    · exact ih st
    · split
      · simp [Outcome.state]
      · rename_i mb_idxs2 _
        have h := ih
          ⟨st.vars, st.trace ++ fbb_loop ctx settings outer_thread_idx sg bb mb_idxs2 sg.get_bbs⟩
        refine ⟨h.1, ?_⟩
        rw [h.2, num_var_updates_append, num_var_updates_fbb_loop]
        rfl

/-- The loop over the boxes of the bundle: the variables end as they were or as one
`update_var_info` leaves them; when the loop runs to its end, `update_var_info` has been
entered once for every box that overlaps the micro-block. -/
theorem bb_loop_effect (ctx : StencilContext) (self : StencilBundleBase)
    (sg_list : List StencilBundleBase) (settings : KernelSettings) (outer_thread_idx : Nat)
    (micro_block_idxs : ScanIndices) (mpisec : MpiSection) (t : idx_t)
    (l : List BoundingBox) (st : KernelState) :
    ((bb_loop ctx self sg_list settings outer_thread_idx micro_block_idxs mpisec t l
        st).state.vars = st.vars ∨
      (bb_loop ctx self sg_list settings outer_thread_idx micro_block_idxs mpisec t l
        st).state.vars =
        self.updated_vars dirty_idx.self t (mpisec.do_mpi_left || mpisec.do_mpi_right)
          true false st.vars) ∧
    ((bb_loop ctx self sg_list settings outer_thread_idx micro_block_idxs mpisec t l
        st).finished = true →
      (bb_loop ctx self sg_list settings outer_thread_idx micro_block_idxs mpisec t l
          st).state.vars =
        (if (l.filter fun bb => (trim_to_bb ctx.num_domain_dims micro_block_idxs bb).2) = []
         then st.vars
         else self.updated_vars dirty_idx.self t (mpisec.do_mpi_left || mpisec.do_mpi_right)
           true false st.vars) ∧
      num_var_updates (bb_loop ctx self sg_list settings outer_thread_idx micro_block_idxs
          mpisec t l st).state.trace =
        num_var_updates st.trace +
          (l.filter fun bb => (trim_to_bb ctx.num_domain_dims micro_block_idxs bb).2).length) := by
  induction l generalizing st with
  | nil => simp [bb_loop, Outcome.state]
  | cons bb rest ih =>
    by_cases hok : (trim_to_bb ctx.num_domain_dims micro_block_idxs bb).2 = true
    · have hr := reqd_loop_effect ctx settings outer_thread_idx t bb
        (trim_to_bb ctx.num_domain_dims micro_block_idxs bb).1 sg_list st
      simp only [bb_loop, hok, Bool.not_true, Bool.false_eq_true, if_false]
      cases hreq : reqd_loop ctx settings outer_thread_idx t bb
          (trim_to_bb ctx.num_domain_dims micro_block_idxs bb).1 sg_list st with
      | assert_failed st1 =>
        rw [hreq] at hr
        simp only [Outcome.state] at hr
        simp [Outcome.state, Outcome.finished, hr.1]
      | done st1 =>
        rw [hreq] at hr
        simp only [Outcome.state] at hr
        have hu := update_var_info_vars self dirty_idx.self t
          (mpisec.do_mpi_left || mpisec.do_mpi_right) true false st1
        have h := ih (self.update_var_info dirty_idx.self t
          (mpisec.do_mpi_left || mpisec.do_mpi_right) true false st1)
        simp only [hu.1, hu.2, hr.1, updated_vars_idem] at h
        simp only [List.filter_cons, hok, if_true]
        refine ⟨Or.inr (h.1.elim id id), fun hfin => ?_⟩
        have h2 := h.2 hfin
        refine ⟨?_, ?_⟩
        · rw [h2.1]
          simp
        · rw [h2.2, num_var_updates_append, hr.2]
          simp only [num_var_updates, List.length_cons]
          omega
    · have hok1 : (trim_to_bb ctx.num_domain_dims micro_block_idxs bb).2 = false := by
        simpa using hok
      simp only [bb_loop, hok1, Bool.not_false, if_true, List.filter_cons]
      simpa using ih st

/-- The whole call: the variables end as they were or as one `update_var_info` with
`mark_extern_dirty = do_mpi_left || do_mpi_right`, `mod_dev_data = true` and
`update_valid_step = false` leaves them. -/
theorem calc_micro_block_vars (ctx : StencilContext) (self : StencilBundleBase)
    (sg_list : List StencilBundleBase) (outer_thread_idx : Nat) (settings : KernelSettings)
    (micro_block_idxs : ScanIndices) (mpisec : MpiSection) (st : KernelState) :
    (self.calc_micro_block ctx sg_list outer_thread_idx settings micro_block_idxs mpisec
        st).state.vars = st.vars ∨
    (self.calc_micro_block ctx sg_list outer_thread_idx settings micro_block_idxs mpisec
        st).state.vars =
      self.updated_vars dirty_idx.self (idx_get micro_block_idxs.begin step_posn)
        (mpisec.do_mpi_left || mpisec.do_mpi_right) true false st.vars := by
  unfold StencilBundleBase.calc_micro_block
  split
  · exact Or.inl rfl
  · split
    · exact Or.inl rfl
    · simp only
      split
      · exact Or.inl rfl
      · split
        · exact Or.inl rfl
        · exact (bb_loop_effect ctx self sg_list settings outer_thread_idx micro_block_idxs
            mpisec (idx_get micro_block_idxs.begin step_posn) self._bb_list st).1

/-- A call that runs to its end on a bundle whose outer box has points. -/
theorem calc_micro_block_finished (ctx : StencilContext) (self : StencilBundleBase)
    (sg_list : List StencilBundleBase) (outer_thread_idx : Nat) (settings : KernelSettings)
    (micro_block_idxs : ScanIndices) (mpisec : MpiSection) (st : KernelState)
    (hfin : (self.calc_micro_block ctx sg_list outer_thread_idx settings micro_block_idxs
      mpisec st).finished = true)
    (hbb : self._bundle_bb.bb_num_points ≠ 0) :
    self.calc_micro_block ctx sg_list outer_thread_idx settings micro_block_idxs mpisec st =
      bb_loop ctx self sg_list settings outer_thread_idx micro_block_idxs mpisec
        (idx_get micro_block_idxs.begin step_posn) self._bb_list st := by
  unfold StencilBundleBase.calc_micro_block at hfin ⊢
  split
  · rename_i h
    simp [h, Outcome.finished] at hfin
  · rename_i h
    split
    · rename_i h1
      simp [h, h1, Outcome.finished] at hfin
    · rename_i h1
      simp only
      split
      · rename_i h2
        simp [h, h1, h2, Outcome.finished] at hfin
      · simp [hbb]

/-! ## Dirty marks and the number of updates made by `calc_micro_block` -/

/-- C9. (1) A call of `calc_micro_block` with neither `do_mpi_left` nor `do_mpi_right`
set leaves every dirty flag of every variable unchanged. (2) No call of
`calc_micro_block` changes the last valid step of a variable. (3) When `do_mpi_left` or
`do_mpi_right` is set, an output step exists and some box of the bundle overlaps the
micro-block, every output variable of the bundle has its `self` dirty flag set for the
output step. Part (3) is for a bundle as the code receives it, whose outer box
`_bundle_bb` covers the boxes of `_bb_list` ("each solid BB for this non-scratch bundle",
line 76), so that the outer box has points when a box of the list has, and for a call in
which no `assert` fails. -/
theorem calc_micro_block_dirty_marks (ctx : StencilContext) (self : StencilBundleBase)
    (sg_list : List StencilBundleBase) (outer_thread_idx : Nat) (settings : KernelSettings)
    (micro_block_idxs : ScanIndices) (mpisec : MpiSection) (st : KernelState) :
    (mpisec.do_mpi_left = false → mpisec.do_mpi_right = false → ∀ v w s,
      ((self.calc_micro_block ctx sg_list outer_thread_idx settings micro_block_idxs mpisec
          st).state.vars v).dirty w s = (st.vars v).dirty w s) ∧
    (∀ v,
      ((self.calc_micro_block ctx sg_list outer_thread_idx settings micro_block_idxs mpisec
          st).state.vars v).valid_step = (st.vars v).valid_step) ∧
    ((mpisec.do_mpi_left || mpisec.do_mpi_right) = true →
      ∀ t_out,
        self.get_output_step_index (idx_get micro_block_idxs.begin step_posn) = some t_out →
        (∀ bb, bb ∈ self._bb_list → bb.bb_num_points > 0 →
          self._bundle_bb.bb_num_points ≠ 0) →
        (self.calc_micro_block ctx sg_list outer_thread_idx settings micro_block_idxs mpisec
          st).finished = true →
        (∃ bb, bb ∈ self._bb_list ∧
          (trim_to_bb ctx.num_domain_dims micro_block_idxs bb).2 = true) →
        ∀ v, v ∈ self.output_var_ptrs →
          ((self.calc_micro_block ctx sg_list outer_thread_idx settings micro_block_idxs
            mpisec st).state.vars v).dirty dirty_idx.self t_out = true) := by
  have hv := calc_micro_block_vars ctx self sg_list outer_thread_idx settings
    micro_block_idxs mpisec st
  refine ⟨?_, ?_, ?_⟩
  · intro hl hr v w s
    rcases hv with h | h
    · rw [h]
    · rw [h, updated_vars_apply, hl, hr]
      cases self.get_output_step_index (idx_get micro_block_idxs.begin step_posn) with
      | none => rfl
      | some t_out =>
        by_cases hm : v ∈ self.output_var_ptrs
        · simp [hm, update_one_var, YkVarBase.mod_dev]
        · simp [hm]
  · intro v
    rcases hv with h | h
    · rw [h]
    · rw [h, updated_vars_apply]
      cases self.get_output_step_index (idx_get micro_block_idxs.begin step_posn) with
      | none => rfl
      | some t_out =>
        by_cases hm : v ∈ self.output_var_ptrs
        · cases (mpisec.do_mpi_left || mpisec.do_mpi_right) <;>
            simp [hm, update_one_var, YkVarBase.mod_dev, YkVarBase.set_dirty]
        · simp [hm]
  · intro hmark t_out hto hinv hfin hex v hm
    have hbb : self._bundle_bb.bb_num_points ≠ 0 := by
      obtain ⟨bb, hbmem, hbok⟩ := hex
      have hok := (trim_loop_ok_iff micro_block_idxs bb ctx.num_domain_dims 0
        micro_block_idxs (decide (bb.bb_num_points > 0))).mp hbok
      exact hinv bb hbmem (by simpa using hok.1)
    have heq := calc_micro_block_finished ctx self sg_list outer_thread_idx settings
      micro_block_idxs mpisec st hfin hbb
    rw [heq] at hfin ⊢
    have h := ((bb_loop_effect ctx self sg_list settings outer_thread_idx micro_block_idxs
      mpisec (idx_get micro_block_idxs.begin step_posn) self._bb_list st).2 hfin).1
    obtain ⟨bb, hbmem, hbok⟩ := hex
    have hne : (self._bb_list.filter fun bb =>
        (trim_to_bb ctx.num_domain_dims micro_block_idxs bb).2) ≠ [] := by
      intro hnil
      have : bb ∈ (self._bb_list.filter fun bb =>
          (trim_to_bb ctx.num_domain_dims micro_block_idxs bb).2) :=
        List.mem_filter.mpr ⟨hbmem, hbok⟩
      rw [hnil] at this
      exact absurd this (List.not_mem_nil bb)
    rw [h, if_neg hne, updated_vars_apply, hto, hmark]
    simp [hm, update_one_var, YkVarBase.mod_dev, YkVarBase.set_dirty]

/-- C9, witness: the bundle has the box `[0, 10)`, its outer box has 10 points, the
output step of step 0 is 1 and `do_mpi_left` is set; after the call on the micro-block
`[2, 8)` the output variable 0 has its `self` dirty flag of step 1 set. -/
theorem calc_micro_block_dirty_marks_witness :
    (((StencilBundleBase.calc_micro_block
        { num_domain_dims := 1, domain_dims := ["x"], fold_pts := [1],
          num_inner_threads := 1, settings_strides := fun _ _ _ s => s,
          micro_block_loops := fun s => [s], omp_get_thread_num := fun _ => 0 }
        { name := "b", is_scratch := false,
          _bundle_bb := { bb_begin := [0], bb_end := [30], bb_num_points := 10 },
          _bb_list := [{ bb_begin := [0], bb_end := [10], bb_num_points := 10 }],
          is_in_valid_step := fun _ => true, get_output_step_index := fun t => some (t + 1),
          output_var_ptrs := [0], output_scratch_vecs := [], max_lh := [], max_rh := [] }
        [{ name := "b", is_scratch := false,
           _bundle_bb := { bb_begin := [0], bb_end := [30], bb_num_points := 10 },
           _bb_list := [{ bb_begin := [0], bb_end := [10], bb_num_points := 10 }],
           is_in_valid_step := fun _ => true, get_output_step_index := fun t => some (t + 1),
           output_var_ptrs := [0], output_scratch_vecs := [], max_lh := [], max_rh := [] }]
        0
        { bind_inner_threads := false, _bind_posn := 1, _nano_block_sizes := [1, 4],
          _micro_block_sizes := [1, 8], _micro_block_tile_sizes := [1, 8] }
        { begin := [0, 2], end_ := [1, 8], stride := [1, 8], align := [1, 1],
          start := [0, 0], stop := [0, 0] }
        { do_mpi_left := true, do_mpi_right := false }
        { vars := fun _ => { dirty := fun _ _ => false, dev_modified := false, valid_step := 0 },
          trace := [] }).state.vars 0).dirty dirty_idx.self 1 = true) ∧
    (StencilBundleBase.calc_micro_block
        { num_domain_dims := 1, domain_dims := ["x"], fold_pts := [1],
          num_inner_threads := 1, settings_strides := fun _ _ _ s => s,
          micro_block_loops := fun s => [s], omp_get_thread_num := fun _ => 0 }
        { name := "b", is_scratch := false,
          _bundle_bb := { bb_begin := [0], bb_end := [30], bb_num_points := 10 },
          _bb_list := [{ bb_begin := [0], bb_end := [10], bb_num_points := 10 }],
          is_in_valid_step := fun _ => true, get_output_step_index := fun t => some (t + 1),
          output_var_ptrs := [0], output_scratch_vecs := [], max_lh := [], max_rh := [] }
        [{ name := "b", is_scratch := false,
           _bundle_bb := { bb_begin := [0], bb_end := [30], bb_num_points := 10 },
           _bb_list := [{ bb_begin := [0], bb_end := [10], bb_num_points := 10 }],
           is_in_valid_step := fun _ => true, get_output_step_index := fun t => some (t + 1),
           output_var_ptrs := [0], output_scratch_vecs := [], max_lh := [], max_rh := [] }]
        0
        { bind_inner_threads := false, _bind_posn := 1, _nano_block_sizes := [1, 4],
          _micro_block_sizes := [1, 8], _micro_block_tile_sizes := [1, 8] }
        { begin := [0, 2], end_ := [1, 8], stride := [1, 8], align := [1, 1],
          start := [0, 0], stop := [0, 0] }
        { do_mpi_left := true, do_mpi_right := false }
        { vars := fun _ => { dirty := fun _ _ => false, dev_modified := false, valid_step := 0 },
          trace := [] }).finished = true :=
  ⟨(calc_micro_block_dirty_marks
        { num_domain_dims := 1, domain_dims := ["x"], fold_pts := [1],
          num_inner_threads := 1, settings_strides := fun _ _ _ s => s,
          micro_block_loops := fun s => [s], omp_get_thread_num := fun _ => 0 }
        { name := "b", is_scratch := false,
          _bundle_bb := { bb_begin := [0], bb_end := [30], bb_num_points := 10 },
          _bb_list := [{ bb_begin := [0], bb_end := [10], bb_num_points := 10 }],
          is_in_valid_step := fun _ => true, get_output_step_index := fun t => some (t + 1),
          output_var_ptrs := [0], output_scratch_vecs := [], max_lh := [], max_rh := [] }
        [{ name := "b", is_scratch := false,
           _bundle_bb := { bb_begin := [0], bb_end := [30], bb_num_points := 10 },
           _bb_list := [{ bb_begin := [0], bb_end := [10], bb_num_points := 10 }],
           is_in_valid_step := fun _ => true, get_output_step_index := fun t => some (t + 1),
           output_var_ptrs := [0], output_scratch_vecs := [], max_lh := [], max_rh := [] }]
        0
        { bind_inner_threads := false, _bind_posn := 1, _nano_block_sizes := [1, 4],
          _micro_block_sizes := [1, 8], _micro_block_tile_sizes := [1, 8] }
        { begin := [0, 2], end_ := [1, 8], stride := [1, 8], align := [1, 1],
          start := [0, 0], stop := [0, 0] }
        { do_mpi_left := true, do_mpi_right := false }
        { vars := fun _ => { dirty := fun _ _ => false, dev_modified := false, valid_step := 0 },
          trace := [] }).2.2
      rfl 1 rfl (fun _ _ _ => by decide) (by decide)
      ⟨{ bb_begin := [0], bb_end := [10], bb_num_points := 10 }, by decide, by decide⟩
      0 (by decide),
   by decide⟩

/-- C10 as amended. A call of `calc_micro_block` that runs to its end on a bundle whose
outer bounding box has points enters `update_var_info` once for every box of the bundle
that overlaps the micro-block (more than zero points and a non-empty intersection in
every domain dimension), after the required bundles have been processed for that box:
not at all when no box overlaps, `k` times when `k` boxes overlap. The variables are
then as one update leaves them when some box overlaps, and unchanged when none does. -/
theorem update_var_info_once_per_overlapping_bb (ctx : StencilContext)
    (self : StencilBundleBase) (sg_list : List StencilBundleBase) (outer_thread_idx : Nat)
    (settings : KernelSettings) (micro_block_idxs : ScanIndices) (mpisec : MpiSection)
    (st : KernelState)
    (hfin : (self.calc_micro_block ctx sg_list outer_thread_idx settings micro_block_idxs
      mpisec st).finished = true)
    (hbb : self._bundle_bb.bb_num_points ≠ 0) :
    num_var_updates (self.calc_micro_block ctx sg_list outer_thread_idx settings
        micro_block_idxs mpisec st).state.trace =
      num_var_updates st.trace +
        (self._bb_list.filter fun bb =>
          (trim_to_bb ctx.num_domain_dims micro_block_idxs bb).2).length ∧
    (self.calc_micro_block ctx sg_list outer_thread_idx settings micro_block_idxs mpisec
        st).state.vars =
      (if (self._bb_list.filter fun bb =>
          (trim_to_bb ctx.num_domain_dims micro_block_idxs bb).2) = []
       then st.vars
       else self.updated_vars dirty_idx.self (idx_get micro_block_idxs.begin step_posn)
         (mpisec.do_mpi_left || mpisec.do_mpi_right) true false st.vars) := by
  have heq := calc_micro_block_finished ctx self sg_list outer_thread_idx settings
    micro_block_idxs mpisec st hfin hbb
  rw [heq] at hfin ⊢
  have h := (bb_loop_effect ctx self sg_list settings outer_thread_idx micro_block_idxs
    mpisec (idx_get micro_block_idxs.begin step_posn) self._bb_list st).2 hfin
  exact ⟨h.2, h.1⟩

/-- C10, witness: a bundle with the boxes `[0, 10)` and `[20, 30)` and the micro-block
`[2, 28)`, which overlaps both: `update_var_info` is entered twice. -/
theorem update_var_info_once_per_overlapping_bb_witness :
    num_var_updates (StencilBundleBase.calc_micro_block
        { num_domain_dims := 1, domain_dims := ["x"], fold_pts := [1],
          num_inner_threads := 1, settings_strides := fun _ _ _ s => s,
          micro_block_loops := fun s => [s], omp_get_thread_num := fun _ => 0 }
        { name := "b", is_scratch := false,
          _bundle_bb := { bb_begin := [0], bb_end := [30], bb_num_points := 20 },
          _bb_list := [{ bb_begin := [0], bb_end := [10], bb_num_points := 10 },
                       { bb_begin := [20], bb_end := [30], bb_num_points := 10 }],
          is_in_valid_step := fun _ => true, get_output_step_index := fun t => some (t + 1),
          output_var_ptrs := [0], output_scratch_vecs := [], max_lh := [], max_rh := [] }
        [{ name := "b", is_scratch := false,
           _bundle_bb := { bb_begin := [0], bb_end := [30], bb_num_points := 20 },
           _bb_list := [{ bb_begin := [0], bb_end := [10], bb_num_points := 10 },
                        { bb_begin := [20], bb_end := [30], bb_num_points := 10 }],
           is_in_valid_step := fun _ => true, get_output_step_index := fun t => some (t + 1),
           output_var_ptrs := [0], output_scratch_vecs := [], max_lh := [], max_rh := [] }]
        0
        { bind_inner_threads := false, _bind_posn := 1, _nano_block_sizes := [1, 4],
          _micro_block_sizes := [1, 8], _micro_block_tile_sizes := [1, 8] }
        { begin := [0, 2], end_ := [1, 28], stride := [1, 8], align := [1, 1],
          start := [0, 0], stop := [0, 0] }
        { do_mpi_left := false, do_mpi_right := false }
        { vars := fun _ => { dirty := fun _ _ => false, dev_modified := false, valid_step := 0 },
          trace := [] }).state.trace = 0 + 2 :=
  (update_var_info_once_per_overlapping_bb
      { num_domain_dims := 1, domain_dims := ["x"], fold_pts := [1],
          num_inner_threads := 1, settings_strides := fun _ _ _ s => s,
          micro_block_loops := fun s => [s], omp_get_thread_num := fun _ => 0 }
        { name := "b", is_scratch := false,
          _bundle_bb := { bb_begin := [0], bb_end := [30], bb_num_points := 20 },
          _bb_list := [{ bb_begin := [0], bb_end := [10], bb_num_points := 10 },
                       { bb_begin := [20], bb_end := [30], bb_num_points := 10 }],
          is_in_valid_step := fun _ => true, get_output_step_index := fun t => some (t + 1),
          output_var_ptrs := [0], output_scratch_vecs := [], max_lh := [], max_rh := [] }
        [{ name := "b", is_scratch := false,
           _bundle_bb := { bb_begin := [0], bb_end := [30], bb_num_points := 20 },
           _bb_list := [{ bb_begin := [0], bb_end := [10], bb_num_points := 10 },
                        { bb_begin := [20], bb_end := [30], bb_num_points := 10 }],
           is_in_valid_step := fun _ => true, get_output_step_index := fun t => some (t + 1),
           output_var_ptrs := [0], output_scratch_vecs := [], max_lh := [], max_rh := [] }]
        0
        { bind_inner_threads := false, _bind_posn := 1, _nano_block_sizes := [1, 4],
          _micro_block_sizes := [1, 8], _micro_block_tile_sizes := [1, 8] }
        { begin := [0, 2], end_ := [1, 28], stride := [1, 8], align := [1, 1],
          start := [0, 0], stop := [0, 0] }
        { do_mpi_left := false, do_mpi_right := false }
        { vars := fun _ => { dirty := fun _ _ => false, dev_modified := false, valid_step := 0 },
          trace := [] }
      (by decide) (by decide)).1

/-- C10, counterexample to the claim as stated: with the boxes `[0, 10)` and `[20, 30)`
the micro-block `[2, 28)` overlaps two boxes and `update_var_info` is entered twice, once
after each box; the micro-block `[12, 18)` overlaps no box and `update_var_info` is not
entered at all. Both calls run to their end. -/
theorem update_var_info_not_once_per_call :
    (StencilBundleBase.calc_micro_block
        { num_domain_dims := 1, domain_dims := ["x"], fold_pts := [1],
          num_inner_threads := 1, settings_strides := fun _ _ _ s => s,
          micro_block_loops := fun s => [s], omp_get_thread_num := fun _ => 0 }
        { name := "b", is_scratch := false,
          _bundle_bb := { bb_begin := [0], bb_end := [30], bb_num_points := 20 },
          _bb_list := [{ bb_begin := [0], bb_end := [10], bb_num_points := 10 },
                       { bb_begin := [20], bb_end := [30], bb_num_points := 10 }],
          is_in_valid_step := fun _ => true, get_output_step_index := fun t => some (t + 1),
          output_var_ptrs := [0], output_scratch_vecs := [], max_lh := [], max_rh := [] }
        [{ name := "b", is_scratch := false,
           _bundle_bb := { bb_begin := [0], bb_end := [30], bb_num_points := 20 },
           _bb_list := [{ bb_begin := [0], bb_end := [10], bb_num_points := 10 },
                        { bb_begin := [20], bb_end := [30], bb_num_points := 10 }],
           is_in_valid_step := fun _ => true, get_output_step_index := fun t => some (t + 1),
           output_var_ptrs := [0], output_scratch_vecs := [], max_lh := [], max_rh := [] }]
        0
        { bind_inner_threads := false, _bind_posn := 1, _nano_block_sizes := [1, 4],
          _micro_block_sizes := [1, 8], _micro_block_tile_sizes := [1, 8] }
        { begin := [0, 2], end_ := [1, 28], stride := [1, 8], align := [1, 1],
          start := [0, 0], stop := [0, 0] }
        { do_mpi_left := false, do_mpi_right := false }
        { vars := fun _ => { dirty := fun _ _ => false, dev_modified := false, valid_step := 0 },
          trace := [] }).finished = true ∧
    (StencilBundleBase.calc_micro_block
        { num_domain_dims := 1, domain_dims := ["x"], fold_pts := [1],
          num_inner_threads := 1, settings_strides := fun _ _ _ s => s,
          micro_block_loops := fun s => [s], omp_get_thread_num := fun _ => 0 }
        { name := "b", is_scratch := false,
          _bundle_bb := { bb_begin := [0], bb_end := [30], bb_num_points := 20 },
          _bb_list := [{ bb_begin := [0], bb_end := [10], bb_num_points := 10 },
                       { bb_begin := [20], bb_end := [30], bb_num_points := 10 }],
          is_in_valid_step := fun _ => true, get_output_step_index := fun t => some (t + 1),
          output_var_ptrs := [0], output_scratch_vecs := [], max_lh := [], max_rh := [] }
        [{ name := "b", is_scratch := false,
           _bundle_bb := { bb_begin := [0], bb_end := [30], bb_num_points := 20 },
           _bb_list := [{ bb_begin := [0], bb_end := [10], bb_num_points := 10 },
                        { bb_begin := [20], bb_end := [30], bb_num_points := 10 }],
           is_in_valid_step := fun _ => true, get_output_step_index := fun t => some (t + 1),
           output_var_ptrs := [0], output_scratch_vecs := [], max_lh := [], max_rh := [] }]
        0
        { bind_inner_threads := false, _bind_posn := 1, _nano_block_sizes := [1, 4],
          _micro_block_sizes := [1, 8], _micro_block_tile_sizes := [1, 8] }
        { begin := [0, 2], end_ := [1, 28], stride := [1, 8], align := [1, 1],
          start := [0, 0], stop := [0, 0] }
        { do_mpi_left := false, do_mpi_right := false }
        { vars := fun _ => { dirty := fun _ _ => false, dev_modified := false, valid_step := 0 },
          trace := [] }).state.trace =
      [Event.calc_nano_block "b" 0 0
         { begin := [0, 2], end_ := [1, 10], stride := [1, 8], align := [1, 1],
           start := [0, 0], stop := [0, 0] },
       Event.update_var_info "b" dirty_idx.self 0 false true false,
       Event.calc_nano_block "b" 0 0
         { begin := [0, 20], end_ := [1, 28], stride := [1, 8], align := [1, 1],
           start := [0, 0], stop := [0, 0] },
       Event.update_var_info "b" dirty_idx.self 0 false true false] ∧
    (StencilBundleBase.calc_micro_block
        { num_domain_dims := 1, domain_dims := ["x"], fold_pts := [1],
          num_inner_threads := 1, settings_strides := fun _ _ _ s => s,
          micro_block_loops := fun s => [s], omp_get_thread_num := fun _ => 0 }
        { name := "b", is_scratch := false,
          _bundle_bb := { bb_begin := [0], bb_end := [30], bb_num_points := 20 },
          _bb_list := [{ bb_begin := [0], bb_end := [10], bb_num_points := 10 },
                       { bb_begin := [20], bb_end := [30], bb_num_points := 10 }],
          is_in_valid_step := fun _ => true, get_output_step_index := fun t => some (t + 1),
          output_var_ptrs := [0], output_scratch_vecs := [], max_lh := [], max_rh := [] }
        [{ name := "b", is_scratch := false,
           _bundle_bb := { bb_begin := [0], bb_end := [30], bb_num_points := 20 },
           _bb_list := [{ bb_begin := [0], bb_end := [10], bb_num_points := 10 },
                        { bb_begin := [20], bb_end := [30], bb_num_points := 10 }],
           is_in_valid_step := fun _ => true, get_output_step_index := fun t => some (t + 1),
           output_var_ptrs := [0], output_scratch_vecs := [], max_lh := [], max_rh := [] }]
        0
        { bind_inner_threads := false, _bind_posn := 1, _nano_block_sizes := [1, 4],
          _micro_block_sizes := [1, 8], _micro_block_tile_sizes := [1, 8] }
        { begin := [0, 12], end_ := [1, 18], stride := [1, 8], align := [1, 1],
          start := [0, 0], stop := [0, 0] }
        { do_mpi_left := false, do_mpi_right := false }
        { vars := fun _ => { dirty := fun _ _ => false, dev_modified := false, valid_step := 0 },
          trace := [] }).finished = true ∧
    (StencilBundleBase.calc_micro_block
        { num_domain_dims := 1, domain_dims := ["x"], fold_pts := [1],
          num_inner_threads := 1, settings_strides := fun _ _ _ s => s,
          micro_block_loops := fun s => [s], omp_get_thread_num := fun _ => 0 }
        { name := "b", is_scratch := false,
          _bundle_bb := { bb_begin := [0], bb_end := [30], bb_num_points := 20 },
          _bb_list := [{ bb_begin := [0], bb_end := [10], bb_num_points := 10 },
                       { bb_begin := [20], bb_end := [30], bb_num_points := 10 }],
          is_in_valid_step := fun _ => true, get_output_step_index := fun t => some (t + 1),
          output_var_ptrs := [0], output_scratch_vecs := [], max_lh := [], max_rh := [] }
        [{ name := "b", is_scratch := false,
           _bundle_bb := { bb_begin := [0], bb_end := [30], bb_num_points := 20 },
           _bb_list := [{ bb_begin := [0], bb_end := [10], bb_num_points := 10 },
                        { bb_begin := [20], bb_end := [30], bb_num_points := 10 }],
           is_in_valid_step := fun _ => true, get_output_step_index := fun t => some (t + 1),
           output_var_ptrs := [0], output_scratch_vecs := [], max_lh := [], max_rh := [] }]
        0
        { bind_inner_threads := false, _bind_posn := 1, _nano_block_sizes := [1, 4],
          _micro_block_sizes := [1, 8], _micro_block_tile_sizes := [1, 8] }
        { begin := [0, 12], end_ := [1, 18], stride := [1, 8], align := [1, 1],
          start := [0, 0], stop := [0, 0] }
        { do_mpi_left := false, do_mpi_right := false }
        { vars := fun _ => { dirty := fun _ _ => false, dev_modified := false, valid_step := 0 },
          trace := [] }).state.trace = [] :=
  ⟨by decide, by decide, by decide, by decide⟩

/-! ## Dirty flags are only ever set -/

theorem update_one_var_dirty_mono (whose : dirty_idx) (t_out : idx_t)
    (mark_extern_dirty mod_dev_data update_valid_step : Bool) (gb : YkVarBase)
    (w : dirty_idx) (s : idx_t) (h : gb.dirty w s = true) :
    (update_one_var whose t_out mark_extern_dirty mod_dev_data update_valid_step gb).dirty
      w s = true := by
  cases mark_extern_dirty <;> cases mod_dev_data <;> cases update_valid_step <;>
    simp [update_one_var, YkVarBase.set_dirty, YkVarBase.mod_dev,
      YkVarBase.update_valid_step, h]

theorem updated_vars_dirty_mono (self : StencilBundleBase) (whose : dirty_idx) (t : idx_t)
    (mark_extern_dirty mod_dev_data update_valid_step : Bool) (vars : VarStore) (v : Nat)
    (w : dirty_idx) (s : idx_t) (h : (vars v).dirty w s = true) :
    (self.updated_vars whose t mark_extern_dirty mod_dev_data update_valid_step vars v).dirty
      w s = true := by
  rw [updated_vars_apply]
  cases self.get_output_step_index t with
  | none => exact h
  | some t_out =>
    by_cases hv : v ∈ self.output_var_ptrs
    · simp only [hv, if_true]
      exact update_one_var_dirty_mono _ _ _ _ _ _ _ _ h
    · simp only [hv, if_false]
      exact h

/-- C11. No operation of the bundle code clears a dirty flag: a dirty flag (of any
variable, perspective and step) that is set before a call of `update_var_info` or of
`calc_micro_block` is set after the call, for all arguments and whether or not
`calc_micro_block` runs to its end. -/
theorem dirty_flag_never_cleared (ctx : StencilContext) (self : StencilBundleBase)
    (sg_list : List StencilBundleBase) (outer_thread_idx : Nat) (settings : KernelSettings)
    (micro_block_idxs : ScanIndices) (mpisec : MpiSection) (whose : dirty_idx) (t : idx_t)
    (mark_extern_dirty mod_dev_data update_valid_step : Bool) (st : KernelState)
    (v : Nat) (w : dirty_idx) (s : idx_t) (h : (st.vars v).dirty w s = true) :
    ((self.update_var_info whose t mark_extern_dirty mod_dev_data update_valid_step
        st).vars v).dirty w s = true ∧
    ((self.calc_micro_block ctx sg_list outer_thread_idx settings micro_block_idxs mpisec
        st).state.vars v).dirty w s = true := by
  constructor
  · rw [(update_var_info_vars self whose t mark_extern_dirty mod_dev_data update_valid_step
      st).1]
    exact updated_vars_dirty_mono _ _ _ _ _ _ _ _ _ _ h
  · rcases calc_micro_block_vars ctx self sg_list outer_thread_idx settings
      micro_block_idxs mpisec st with hv | hv
    · rw [hv]
      exact h
    · rw [hv]
      exact updated_vars_dirty_mono _ _ _ _ _ _ _ _ _ _ h

/-- C11, witness: every dirty flag of variable 0 is set; after `update_var_info` and
after a call of `calc_micro_block` that does not mark (no MPI side is done) the flag of
perspective `others` and step 3 is still set. -/
theorem dirty_flag_never_cleared_witness :
    ((StencilBundleBase.update_var_info
        { name := "b", is_scratch := false,
          _bundle_bb := { bb_begin := [0], bb_end := [30], bb_num_points := 10 },
          _bb_list := [{ bb_begin := [0], bb_end := [10], bb_num_points := 10 }],
          is_in_valid_step := fun _ => true, get_output_step_index := fun t => some (t + 1),
          output_var_ptrs := [0], output_scratch_vecs := [], max_lh := [], max_rh := [] }
        dirty_idx.self 0 true true true
        { vars := fun _ => { dirty := fun _ _ => true, dev_modified := false, valid_step := 0 },
          trace := [] }).vars 0).dirty dirty_idx.others 3 = true ∧
    ((StencilBundleBase.calc_micro_block
        { num_domain_dims := 1, domain_dims := ["x"], fold_pts := [1],
          num_inner_threads := 1, settings_strides := fun _ _ _ s => s,
          micro_block_loops := fun s => [s], omp_get_thread_num := fun _ => 0 }
        { name := "b", is_scratch := false,
          _bundle_bb := { bb_begin := [0], bb_end := [30], bb_num_points := 10 },
          _bb_list := [{ bb_begin := [0], bb_end := [10], bb_num_points := 10 }],
          is_in_valid_step := fun _ => true, get_output_step_index := fun t => some (t + 1),
          output_var_ptrs := [0], output_scratch_vecs := [], max_lh := [], max_rh := [] }
        [{ name := "b", is_scratch := false,
           _bundle_bb := { bb_begin := [0], bb_end := [30], bb_num_points := 10 },
           _bb_list := [{ bb_begin := [0], bb_end := [10], bb_num_points := 10 }],
           is_in_valid_step := fun _ => true, get_output_step_index := fun t => some (t + 1),
           output_var_ptrs := [0], output_scratch_vecs := [], max_lh := [], max_rh := [] }]
        0
        { bind_inner_threads := false, _bind_posn := 1, _nano_block_sizes := [1, 4],
          _micro_block_sizes := [1, 8], _micro_block_tile_sizes := [1, 8] }
        { begin := [0, 2], end_ := [1, 8], stride := [1, 8], align := [1, 1],
          start := [0, 0], stop := [0, 0] }
        { do_mpi_left := false, do_mpi_right := false }
        { vars := fun _ => { dirty := fun _ _ => true, dev_modified := false, valid_step := 0 },
          trace := [] }).state.vars 0).dirty dirty_idx.others 3 = true :=
  dirty_flag_never_cleared
        { num_domain_dims := 1, domain_dims := ["x"], fold_pts := [1],
          num_inner_threads := 1, settings_strides := fun _ _ _ s => s,
          micro_block_loops := fun s => [s], omp_get_thread_num := fun _ => 0 }
        { name := "b", is_scratch := false,
          _bundle_bb := { bb_begin := [0], bb_end := [30], bb_num_points := 10 },
          _bb_list := [{ bb_begin := [0], bb_end := [10], bb_num_points := 10 }],
          is_in_valid_step := fun _ => true, get_output_step_index := fun t => some (t + 1),
          output_var_ptrs := [0], output_scratch_vecs := [], max_lh := [], max_rh := [] }
        [{ name := "b", is_scratch := false,
           _bundle_bb := { bb_begin := [0], bb_end := [30], bb_num_points := 10 },
           _bb_list := [{ bb_begin := [0], bb_end := [10], bb_num_points := 10 }],
           is_in_valid_step := fun _ => true, get_output_step_index := fun t => some (t + 1),
           output_var_ptrs := [0], output_scratch_vecs := [], max_lh := [], max_rh := [] }]
        0
        { bind_inner_threads := false, _bind_posn := 1, _nano_block_sizes := [1, 4],
          _micro_block_sizes := [1, 8], _micro_block_tile_sizes := [1, 8] }
        { begin := [0, 2], end_ := [1, 8], stride := [1, 8], align := [1, 1],
          start := [0, 0], stop := [0, 0] }
        { do_mpi_left := false, do_mpi_right := false }
        dirty_idx.self 0 true true true
        { vars := fun _ => { dirty := fun _ _ => true, dev_modified := false, valid_step := 0 },
          trace := [] }
        0 dirty_idx.others 3 rfl

/-! ## Calls that do nothing -/

/-- C12. When `get_output_step_index` yields no output step for step `t`,
`update_var_info` returns with every variable as it was (dirty flags, device-modified
mark and last valid step), for every combination of the three boolean parameters; it
returns normally, having only been entered. -/
theorem update_var_info_without_output_step (self : StencilBundleBase) (whose : dirty_idx)
    (t : idx_t) (mark_extern_dirty mod_dev_data update_valid_step : Bool) (st : KernelState)
    (hnone : self.get_output_step_index t = none) :
    (self.update_var_info whose t mark_extern_dirty mod_dev_data update_valid_step st).vars =
      st.vars ∧
    (self.update_var_info whose t mark_extern_dirty mod_dev_data update_valid_step st).trace =
      st.trace ++ [Event.update_var_info self.name whose t mark_extern_dirty mod_dev_data
        update_valid_step] := by
  unfold StencilBundleBase.update_var_info
  rw [hnone]
  exact ⟨rfl, rfl⟩

/-- C12, witness: a bundle without output step; with all three parameters true the
variable 0 keeps its clear dirty flag, its clear device-modified mark and its last valid
step 0. -/
theorem update_var_info_without_output_step_witness :
    ((StencilBundleBase.update_var_info
        { name := "b", is_scratch := false,
          _bundle_bb := { bb_begin := [0], bb_end := [30], bb_num_points := 10 },
          _bb_list := [{ bb_begin := [0], bb_end := [10], bb_num_points := 10 }],
          is_in_valid_step := fun _ => true, get_output_step_index := fun _ => none,
          output_var_ptrs := [0], output_scratch_vecs := [], max_lh := [], max_rh := [] }
        dirty_idx.self 5 true true true
        { vars := fun _ => { dirty := fun _ _ => false, dev_modified := false, valid_step := 0 },
          trace := [] }).vars 0).dev_modified = false ∧
    (StencilBundleBase.update_var_info
        { name := "b", is_scratch := false,
          _bundle_bb := { bb_begin := [0], bb_end := [30], bb_num_points := 10 },
          _bb_list := [{ bb_begin := [0], bb_end := [10], bb_num_points := 10 }],
          is_in_valid_step := fun _ => true, get_output_step_index := fun _ => none,
          output_var_ptrs := [0], output_scratch_vecs := [], max_lh := [], max_rh := [] }
        dirty_idx.self 5 true true true
        { vars := fun _ => { dirty := fun _ _ => false, dev_modified := false, valid_step := 0 },
          trace := [] }).vars =
      (fun _ => { dirty := fun _ _ => false, dev_modified := false, valid_step := 0 }) :=
  ⟨by decide,
   (update_var_info_without_output_step
        { name := "b", is_scratch := false,
          _bundle_bb := { bb_begin := [0], bb_end := [30], bb_num_points := 10 },
          _bb_list := [{ bb_begin := [0], bb_end := [10], bb_num_points := 10 }],
          is_in_valid_step := fun _ => true, get_output_step_index := fun _ => none,
          output_var_ptrs := [0], output_scratch_vecs := [], max_lh := [], max_rh := [] }
        dirty_idx.self 5 true true true
        { vars := fun _ => { dirty := fun _ _ => false, dev_modified := false, valid_step := 0 },
          trace := [] } rfl).1⟩

/-- C13. `calc_micro_block` stops at a failed assertion, with no nano-block evaluated and
no variable changed (the state is the one it was called with), whenever the step range of
the micro-block does not have magnitude 1; when the magnitude is 1 (`end - begin` is `+1`
or `-1`) neither step assertion fails: a bundle that is not a scratch bundle goes on to
the test of its outer bounding box and to the loop over its boxes. -/
theorem calc_micro_block_step_assertion (ctx : StencilContext) (self : StencilBundleBase)
    (sg_list : List StencilBundleBase) (outer_thread_idx : Nat) (settings : KernelSettings)
    (micro_block_idxs : ScanIndices) (mpisec : MpiSection) (st : KernelState) :
    (|idx_get micro_block_idxs.end_ step_posn - idx_get micro_block_idxs.begin step_posn| ≠ 1 →
      self.calc_micro_block ctx sg_list outer_thread_idx settings micro_block_idxs mpisec st =
        Outcome.assert_failed st) ∧
    ((idx_get micro_block_idxs.end_ step_posn - idx_get micro_block_idxs.begin step_posn = 1 ∨
        idx_get micro_block_idxs.end_ step_posn - idx_get micro_block_idxs.begin step_posn = -1) →
      self.is_scratch = false →
      self.calc_micro_block ctx sg_list outer_thread_idx settings micro_block_idxs mpisec st =
        if self._bundle_bb.bb_num_points = 0 then Outcome.done st
        else bb_loop ctx self sg_list settings outer_thread_idx micro_block_idxs mpisec
          (idx_get micro_block_idxs.begin step_posn) self._bb_list st) := by
  constructor
  · intro h
    unfold StencilBundleBase.calc_micro_block
    split
    · rfl
    · split
      · rfl
      · simp only
        split
        · rfl
        · rename_i h2
          exact absurd (not_not.mp h2) h
  · intro h hs
    have habs : |idx_get micro_block_idxs.end_ step_posn -
        idx_get micro_block_idxs.begin step_posn| = 1 := by
      rcases h with h | h
      · rw [h]
        rfl
      · rw [h]
        rfl
    unfold StencilBundleBase.calc_micro_block
    simp [hs, habs, ScanIndices.get_overall_range]

/-- C13, witness: a micro-block whose step range is `[0, 2)` makes the call stop at the
assertion with the state untouched; with the backward step range from 5 to 4 the call
runs to its end and evaluates the box. -/
theorem calc_micro_block_step_assertion_witness :
    (StencilBundleBase.calc_micro_block
        { num_domain_dims := 1, domain_dims := ["x"], fold_pts := [1],
          num_inner_threads := 1, settings_strides := fun _ _ _ s => s,
          micro_block_loops := fun s => [s], omp_get_thread_num := fun _ => 0 }
        { name := "b", is_scratch := false,
          _bundle_bb := { bb_begin := [0], bb_end := [30], bb_num_points := 10 },
          _bb_list := [{ bb_begin := [0], bb_end := [10], bb_num_points := 10 }],
          is_in_valid_step := fun _ => true, get_output_step_index := fun t => some (t + 1),
          output_var_ptrs := [0], output_scratch_vecs := [], max_lh := [], max_rh := [] }
        [{ name := "b", is_scratch := false,
           _bundle_bb := { bb_begin := [0], bb_end := [30], bb_num_points := 10 },
           _bb_list := [{ bb_begin := [0], bb_end := [10], bb_num_points := 10 }],
           is_in_valid_step := fun _ => true, get_output_step_index := fun t => some (t + 1),
           output_var_ptrs := [0], output_scratch_vecs := [], max_lh := [], max_rh := [] }]
        0
        { bind_inner_threads := false, _bind_posn := 1, _nano_block_sizes := [1, 4],
          _micro_block_sizes := [1, 8], _micro_block_tile_sizes := [1, 8] }
        { begin := [0, 2], end_ := [2, 8], stride := [1, 8], align := [1, 1],
          start := [0, 0], stop := [0, 0] }
        { do_mpi_left := false, do_mpi_right := false }
        { vars := fun _ => { dirty := fun _ _ => false, dev_modified := false, valid_step := 0 },
          trace := [] }).finished = false ∧
    (StencilBundleBase.calc_micro_block
        { num_domain_dims := 1, domain_dims := ["x"], fold_pts := [1],
          num_inner_threads := 1, settings_strides := fun _ _ _ s => s,
          micro_block_loops := fun s => [s], omp_get_thread_num := fun _ => 0 }
        { name := "b", is_scratch := false,
          _bundle_bb := { bb_begin := [0], bb_end := [30], bb_num_points := 10 },
          _bb_list := [{ bb_begin := [0], bb_end := [10], bb_num_points := 10 }],
          is_in_valid_step := fun _ => true, get_output_step_index := fun t => some (t + 1),
          output_var_ptrs := [0], output_scratch_vecs := [], max_lh := [], max_rh := [] }
        [{ name := "b", is_scratch := false,
           _bundle_bb := { bb_begin := [0], bb_end := [30], bb_num_points := 10 },
           _bb_list := [{ bb_begin := [0], bb_end := [10], bb_num_points := 10 }],
           is_in_valid_step := fun _ => true, get_output_step_index := fun t => some (t + 1),
           output_var_ptrs := [0], output_scratch_vecs := [], max_lh := [], max_rh := [] }]
        0
        { bind_inner_threads := false, _bind_posn := 1, _nano_block_sizes := [1, 4],
          _micro_block_sizes := [1, 8], _micro_block_tile_sizes := [1, 8] }
        { begin := [0, 2], end_ := [2, 8], stride := [1, 8], align := [1, 1],
          start := [0, 0], stop := [0, 0] }
        { do_mpi_left := false, do_mpi_right := false }
        { vars := fun _ => { dirty := fun _ _ => false, dev_modified := false, valid_step := 0 },
          trace := [] }).state.trace = [] ∧
    (StencilBundleBase.calc_micro_block
        { num_domain_dims := 1, domain_dims := ["x"], fold_pts := [1],
          num_inner_threads := 1, settings_strides := fun _ _ _ s => s,
          micro_block_loops := fun s => [s], omp_get_thread_num := fun _ => 0 }
        { name := "b", is_scratch := false,
          _bundle_bb := { bb_begin := [0], bb_end := [30], bb_num_points := 10 },
          _bb_list := [{ bb_begin := [0], bb_end := [10], bb_num_points := 10 }],
          is_in_valid_step := fun _ => true, get_output_step_index := fun t => some (t + 1),
          output_var_ptrs := [0], output_scratch_vecs := [], max_lh := [], max_rh := [] }
        [{ name := "b", is_scratch := false,
           _bundle_bb := { bb_begin := [0], bb_end := [30], bb_num_points := 10 },
           _bb_list := [{ bb_begin := [0], bb_end := [10], bb_num_points := 10 }],
           is_in_valid_step := fun _ => true, get_output_step_index := fun t => some (t + 1),
           output_var_ptrs := [0], output_scratch_vecs := [], max_lh := [], max_rh := [] }]
        0
        { bind_inner_threads := false, _bind_posn := 1, _nano_block_sizes := [1, 4],
          _micro_block_sizes := [1, 8], _micro_block_tile_sizes := [1, 8] }
        { begin := [5, 2], end_ := [4, 8], stride := [1, 8], align := [1, 1],
          start := [0, 0], stop := [0, 0] }
        { do_mpi_left := false, do_mpi_right := false }
        { vars := fun _ => { dirty := fun _ _ => false, dev_modified := false, valid_step := 0 },
          trace := [] }).finished = true ∧
    nano_blks_of (StencilBundleBase.calc_micro_block
        { num_domain_dims := 1, domain_dims := ["x"], fold_pts := [1],
          num_inner_threads := 1, settings_strides := fun _ _ _ s => s,
          micro_block_loops := fun s => [s], omp_get_thread_num := fun _ => 0 }
        { name := "b", is_scratch := false,
          _bundle_bb := { bb_begin := [0], bb_end := [30], bb_num_points := 10 },
          _bb_list := [{ bb_begin := [0], bb_end := [10], bb_num_points := 10 }],
          is_in_valid_step := fun _ => true, get_output_step_index := fun t => some (t + 1),
          output_var_ptrs := [0], output_scratch_vecs := [], max_lh := [], max_rh := [] }
        [{ name := "b", is_scratch := false,
           _bundle_bb := { bb_begin := [0], bb_end := [30], bb_num_points := 10 },
           _bb_list := [{ bb_begin := [0], bb_end := [10], bb_num_points := 10 }],
           is_in_valid_step := fun _ => true, get_output_step_index := fun t => some (t + 1),
           output_var_ptrs := [0], output_scratch_vecs := [], max_lh := [], max_rh := [] }]
        0
        { bind_inner_threads := false, _bind_posn := 1, _nano_block_sizes := [1, 4],
          _micro_block_sizes := [1, 8], _micro_block_tile_sizes := [1, 8] }
        { begin := [5, 2], end_ := [4, 8], stride := [1, 8], align := [1, 1],
          start := [0, 0], stop := [0, 0] }
        { do_mpi_left := false, do_mpi_right := false }
        { vars := fun _ => { dirty := fun _ _ => false, dev_modified := false, valid_step := 0 },
          trace := [] }).state.trace =
      [{ begin := [5, 2], end_ := [4, 8], stride := [1, 8], align := [1, 1],
         start := [0, 0], stop := [0, 0] }] :=
  ⟨by
    rw [(calc_micro_block_step_assertion
        { num_domain_dims := 1, domain_dims := ["x"], fold_pts := [1],
          num_inner_threads := 1, settings_strides := fun _ _ _ s => s,
          micro_block_loops := fun s => [s], omp_get_thread_num := fun _ => 0 }
        { name := "b", is_scratch := false,
          _bundle_bb := { bb_begin := [0], bb_end := [30], bb_num_points := 10 },
          _bb_list := [{ bb_begin := [0], bb_end := [10], bb_num_points := 10 }],
          is_in_valid_step := fun _ => true, get_output_step_index := fun t => some (t + 1),
          output_var_ptrs := [0], output_scratch_vecs := [], max_lh := [], max_rh := [] }
        [{ name := "b", is_scratch := false,
           _bundle_bb := { bb_begin := [0], bb_end := [30], bb_num_points := 10 },
           _bb_list := [{ bb_begin := [0], bb_end := [10], bb_num_points := 10 }],
           is_in_valid_step := fun _ => true, get_output_step_index := fun t => some (t + 1),
           output_var_ptrs := [0], output_scratch_vecs := [], max_lh := [], max_rh := [] }]
        0
        { bind_inner_threads := false, _bind_posn := 1, _nano_block_sizes := [1, 4],
          _micro_block_sizes := [1, 8], _micro_block_tile_sizes := [1, 8] }
        { begin := [0, 2], end_ := [2, 8], stride := [1, 8], align := [1, 1],
          start := [0, 0], stop := [0, 0] }
        { do_mpi_left := false, do_mpi_right := false }
        { vars := fun _ => { dirty := fun _ _ => false, dev_modified := false, valid_step := 0 },
          trace := [] }).1 (by decide)]
    rfl,
   by decide, by decide, by decide⟩

/-- C14. A bounding box with zero points produces no work. (1) When the outer bounding box
of the bundle has `bb_num_points = 0`, `calc_micro_block` leaves the state as it was: no
nano-block is evaluated and no variable is changed. (2) A box of the list of the bundle
with `bb_num_points = 0` is skipped, whatever its begin and end are: the loop goes on with
the next box, without evaluation and without `update_var_info`. (3) A box with
`bb_num_points = 0` in the list of a required bundle, scratch or not, is given no range and
is skipped by the loop over these boxes. -/
theorem zero_point_bb_produces_no_work (ctx : StencilContext) (self : StencilBundleBase)
    (sg_list : List StencilBundleBase) (outer_thread_idx : Nat) (settings : KernelSettings)
    (micro_block_idxs : ScanIndices) (mpisec : MpiSection) (st : KernelState) :
    (self._bundle_bb.bb_num_points = 0 →
      (self.calc_micro_block ctx sg_list outer_thread_idx settings micro_block_idxs mpisec
        st).state = st) ∧
    (∀ (t : idx_t) (bb : BoundingBox) (rest : List BoundingBox), bb.bb_num_points = 0 →
      bb_loop ctx self sg_list settings outer_thread_idx micro_block_idxs mpisec t
          (bb :: rest) st =
        bb_loop ctx self sg_list settings outer_thread_idx micro_block_idxs mpisec t rest st) ∧
    (∀ (sg : StencilBundleBase) (bb fbb : BoundingBox) (mb_idxs2 : ScanIndices)
        (rest : List BoundingBox), fbb.bb_num_points = 0 →
      fbb_range ctx sg.is_scratch bb mb_idxs2 fbb = none ∧
      fbb_loop ctx settings outer_thread_idx sg bb mb_idxs2 (fbb :: rest) =
        fbb_loop ctx settings outer_thread_idx sg bb mb_idxs2 rest) := by
  have hflag : ∀ (src : ScanIndices) (b : BoundingBox), b.bb_num_points = 0 →
      (trim_loop src b ctx.num_domain_dims 0 src (decide (b.bb_num_points > 0))).2 = false := by
    intro src b hb
    cases hr : (trim_loop src b ctx.num_domain_dims 0 src (decide (b.bb_num_points > 0))).2 with
    | false => rfl
    | true =>
      have h := ((trim_loop_ok_iff src b ctx.num_domain_dims 0 src
        (decide (b.bb_num_points > 0))).mp hr).1
      rw [hb] at h
      exact absurd h (by decide)
  refine ⟨?_, ?_, ?_⟩
  · intro hz
    unfold StencilBundleBase.calc_micro_block
    split
    · rfl
    · split
      · rfl
      · simp only
        split
        · rfl
        · simp [hz, Outcome.state]
  · intro t bb rest hz
    have h := hflag micro_block_idxs bb hz
    simp [bb_loop, trim_to_bb, h]
  · intro sg bb fbb mb_idxs2 rest hz
    have hnone : fbb_range ctx sg.is_scratch bb mb_idxs2 fbb = none := by
      cases hs : sg.is_scratch with
      | false =>
        rw [fbb_range_nonscratch]
        simp [hz]
      | true =>
        have h := hflag mb_idxs2 fbb hz
        simp [fbb_range, h]
    exact ⟨hnone, by simp [fbb_loop, hnone]⟩

/-- C14, witness: the outer bounding box has no points and the call changes nothing; and a
bundle whose only box `[0, 10)` has zero points evaluates nothing and updates nothing for
the micro-block `[2, 8)`. -/
theorem zero_point_bb_produces_no_work_witness :
    (StencilBundleBase.calc_micro_block
        { num_domain_dims := 1, domain_dims := ["x"], fold_pts := [1],
          num_inner_threads := 1, settings_strides := fun _ _ _ s => s,
          micro_block_loops := fun s => [s], omp_get_thread_num := fun _ => 0 }
        { name := "b", is_scratch := false,
          _bundle_bb := { bb_begin := [0], bb_end := [30], bb_num_points := 0 },
          _bb_list := [{ bb_begin := [0], bb_end := [10], bb_num_points := 10 }],
          is_in_valid_step := fun _ => true, get_output_step_index := fun t => some (t + 1),
          output_var_ptrs := [0], output_scratch_vecs := [], max_lh := [], max_rh := [] }
        [{ name := "b", is_scratch := false,
           _bundle_bb := { bb_begin := [0], bb_end := [30], bb_num_points := 0 },
           _bb_list := [{ bb_begin := [0], bb_end := [10], bb_num_points := 10 }],
           is_in_valid_step := fun _ => true, get_output_step_index := fun t => some (t + 1),
           output_var_ptrs := [0], output_scratch_vecs := [], max_lh := [], max_rh := [] }]
        0
        { bind_inner_threads := false, _bind_posn := 1, _nano_block_sizes := [1, 4],
          _micro_block_sizes := [1, 8], _micro_block_tile_sizes := [1, 8] }
        { begin := [0, 2], end_ := [1, 8], stride := [1, 8], align := [1, 1],
          start := [0, 0], stop := [0, 0] }
        { do_mpi_left := false, do_mpi_right := false }
        { vars := fun _ => { dirty := fun _ _ => false, dev_modified := false, valid_step := 0 },
          trace := [] }).state.trace = [] ∧
    (StencilBundleBase.calc_micro_block
        { num_domain_dims := 1, domain_dims := ["x"], fold_pts := [1],
          num_inner_threads := 1, settings_strides := fun _ _ _ s => s,
          micro_block_loops := fun s => [s], omp_get_thread_num := fun _ => 0 }
        { name := "b", is_scratch := false,
          _bundle_bb := { bb_begin := [0], bb_end := [30], bb_num_points := 10 },
          _bb_list := [{ bb_begin := [0], bb_end := [10], bb_num_points := 0 }],
          is_in_valid_step := fun _ => true, get_output_step_index := fun t => some (t + 1),
          output_var_ptrs := [0], output_scratch_vecs := [], max_lh := [], max_rh := [] }
        [{ name := "b", is_scratch := false,
           _bundle_bb := { bb_begin := [0], bb_end := [30], bb_num_points := 10 },
           _bb_list := [{ bb_begin := [0], bb_end := [10], bb_num_points := 0 }],
           is_in_valid_step := fun _ => true, get_output_step_index := fun t => some (t + 1),
           output_var_ptrs := [0], output_scratch_vecs := [], max_lh := [], max_rh := [] }]
        0
        { bind_inner_threads := false, _bind_posn := 1, _nano_block_sizes := [1, 4],
          _micro_block_sizes := [1, 8], _micro_block_tile_sizes := [1, 8] }
        { begin := [0, 2], end_ := [1, 8], stride := [1, 8], align := [1, 1],
          start := [0, 0], stop := [0, 0] }
        { do_mpi_left := false, do_mpi_right := false }
        { vars := fun _ => { dirty := fun _ _ => false, dev_modified := false, valid_step := 0 },
          trace := [] }).state.trace = [] :=
  ⟨congrArg KernelState.trace
    ((zero_point_bb_produces_no_work
        { num_domain_dims := 1, domain_dims := ["x"], fold_pts := [1],
          num_inner_threads := 1, settings_strides := fun _ _ _ s => s,
          micro_block_loops := fun s => [s], omp_get_thread_num := fun _ => 0 }
        { name := "b", is_scratch := false,
          _bundle_bb := { bb_begin := [0], bb_end := [30], bb_num_points := 0 },
          _bb_list := [{ bb_begin := [0], bb_end := [10], bb_num_points := 10 }],
          is_in_valid_step := fun _ => true, get_output_step_index := fun t => some (t + 1),
          output_var_ptrs := [0], output_scratch_vecs := [], max_lh := [], max_rh := [] }
        [{ name := "b", is_scratch := false,
           _bundle_bb := { bb_begin := [0], bb_end := [30], bb_num_points := 0 },
           _bb_list := [{ bb_begin := [0], bb_end := [10], bb_num_points := 10 }],
           is_in_valid_step := fun _ => true, get_output_step_index := fun t => some (t + 1),
           output_var_ptrs := [0], output_scratch_vecs := [], max_lh := [], max_rh := [] }]
        0
        { bind_inner_threads := false, _bind_posn := 1, _nano_block_sizes := [1, 4],
          _micro_block_sizes := [1, 8], _micro_block_tile_sizes := [1, 8] }
        { begin := [0, 2], end_ := [1, 8], stride := [1, 8], align := [1, 1],
          start := [0, 0], stop := [0, 0] }
        { do_mpi_left := false, do_mpi_right := false }
        { vars := fun _ => { dirty := fun _ _ => false, dev_modified := false, valid_step := 0 },
          trace := [] }).1 rfl),
   by decide⟩

/-! ## Order of the required bundles and inactive bundles -/

theorem reqd_loop_append (ctx : StencilContext) (settings : KernelSettings)
    (outer_thread_idx : Nat) (t : idx_t) (bb : BoundingBox) (mb_idxs1 : ScanIndices)
    (l1 l2 : List StencilBundleBase) (st : KernelState) :
    reqd_loop ctx settings outer_thread_idx t bb mb_idxs1 (l1 ++ l2) st =
      match reqd_loop ctx settings outer_thread_idx t bb mb_idxs1 l1 st with
      | Outcome.done st1 => reqd_loop ctx settings outer_thread_idx t bb mb_idxs1 l2 st1
      | Outcome.assert_failed st1 => Outcome.assert_failed st1 := by
  induction l1 generalizing st with
  | nil => simp [reqd_loop]
  | cons sg rest ih =>
    simp only [List.cons_append, reqd_loop]
    split
    · exact ih st
    · split
      · rfl
      · exact ih _

theorem reqd_loop_trace (ctx : StencilContext) (settings : KernelSettings)
    (outer_thread_idx : Nat) (t : idx_t) (bb : BoundingBox) (mb_idxs1 : ScanIndices)
    (l : List StencilBundleBase) (st : KernelState)
    (hfin : (reqd_loop ctx settings outer_thread_idx t bb mb_idxs1 l st).finished = true) :
    (reqd_loop ctx settings outer_thread_idx t bb mb_idxs1 l st).state.trace =
      st.trace ++
        l.flatMap (reqd_bundle_calls ctx settings outer_thread_idx t bb mb_idxs1) := by
  induction l generalizing st with
  | nil => simp [reqd_loop, Outcome.state]
  | cons sg rest ih =>
    simp only [reqd_loop] at hfin ⊢
    rw [List.flatMap_cons]
    by_cases hv : sg.is_in_valid_step t = true
    · simp only [hv, Bool.not_true, Bool.false_eq_true, if_false] at hfin ⊢
      cases hr : reqd_range ctx settings outer_thread_idx sg mb_idxs1 with
      | none =>
        rw [hr] at hfin
        simp [Outcome.finished] at hfin
      | some mb_idxs2 =>
        rw [hr] at hfin
        simp only [hr]
        rw [ih _ hfin]
        simp [reqd_bundle_calls, hv, hr, List.append_assoc]
    · have hv1 : sg.is_in_valid_step t = false := by simpa using hv
      simp only [hv1, Bool.not_false, if_true] at hfin ⊢
      rw [ih _ hfin]
      simp [reqd_bundle_calls, hv1]

theorem reqd_loop_skip (ctx : StencilContext) (settings : KernelSettings)
    (outer_thread_idx : Nat) (t : idx_t) (bb : BoundingBox) (mb_idxs1 : ScanIndices)
    (pre post : List StencilBundleBase) (sg : StencilBundleBase) (st : KernelState)
    (hinv : sg.is_in_valid_step t = false) :
    reqd_loop ctx settings outer_thread_idx t bb mb_idxs1 (pre ++ sg :: post) st =
      reqd_loop ctx settings outer_thread_idx t bb mb_idxs1 (pre ++ post) st := by
  rw [reqd_loop_append, reqd_loop_append]
  cases reqd_loop ctx settings outer_thread_idx t bb mb_idxs1 pre st with
  | assert_failed st1 => rfl
  | done st1 => simp [reqd_loop, hinv]

theorem bb_loop_congr (ctx : StencilContext) (self : StencilBundleBase)
    (l1 l2 : List StencilBundleBase) (settings : KernelSettings) (outer_thread_idx : Nat)
    (micro_block_idxs : ScanIndices) (mpisec : MpiSection) (t : idx_t)
    (h : ∀ bb mb_idxs1 st,
      reqd_loop ctx settings outer_thread_idx t bb mb_idxs1 l1 st =
        reqd_loop ctx settings outer_thread_idx t bb mb_idxs1 l2 st)
    (bbs : List BoundingBox) (st : KernelState) :
    bb_loop ctx self l1 settings outer_thread_idx micro_block_idxs mpisec t bbs st =
      bb_loop ctx self l2 settings outer_thread_idx micro_block_idxs mpisec t bbs st := by
  induction bbs generalizing st with
  | nil => simp [bb_loop]
  | cons bb rest ih =>
    simp only [bb_loop, h]
    split
    · exact ih st
    · split
      · rfl
      · exact ih _

/-- C15. In `calc_micro_block` the required bundles are processed one after the other in
the order of the list: (1) processing `l1 ++ l2` is processing `l1` and then, unless an
assertion failed, `l2` from the state reached; (2) when the loop runs to its end the calls
made are those of the required bundles in list order. A required bundle that is not valid
at step `t` is skipped: (3) it makes no call; (4) the loop over the required bundles and
(5) the whole call behave exactly as if the bundle were absent from the list, so no error
is raised for it and the other bundles are evaluated as without it. -/
theorem inactive_reqd_bundle_is_skipped (ctx : StencilContext) (self : StencilBundleBase)
    (outer_thread_idx : Nat) (settings : KernelSettings) (micro_block_idxs : ScanIndices)
    (mpisec : MpiSection) (t : idx_t) (bb : BoundingBox) (mb_idxs1 : ScanIndices)
    (pre post : List StencilBundleBase) (sg : StencilBundleBase) (st : KernelState) :
    (reqd_loop ctx settings outer_thread_idx t bb mb_idxs1 (pre ++ post) st =
      match reqd_loop ctx settings outer_thread_idx t bb mb_idxs1 pre st with
      | Outcome.done st1 => reqd_loop ctx settings outer_thread_idx t bb mb_idxs1 post st1
      | Outcome.assert_failed st1 => Outcome.assert_failed st1) ∧
    ((reqd_loop ctx settings outer_thread_idx t bb mb_idxs1 (pre ++ post) st).finished = true →
      (reqd_loop ctx settings outer_thread_idx t bb mb_idxs1 (pre ++ post) st).state.trace =
        st.trace ++
          pre.flatMap (reqd_bundle_calls ctx settings outer_thread_idx t bb mb_idxs1) ++
          post.flatMap (reqd_bundle_calls ctx settings outer_thread_idx t bb mb_idxs1)) ∧
    (sg.is_in_valid_step t = false →
      reqd_bundle_calls ctx settings outer_thread_idx t bb mb_idxs1 sg = []) ∧
    (sg.is_in_valid_step t = false →
      reqd_loop ctx settings outer_thread_idx t bb mb_idxs1 (pre ++ sg :: post) st =
        reqd_loop ctx settings outer_thread_idx t bb mb_idxs1 (pre ++ post) st) ∧
    (sg.is_in_valid_step (idx_get micro_block_idxs.begin step_posn) = false →
      self.calc_micro_block ctx (pre ++ sg :: post) outer_thread_idx settings
          micro_block_idxs mpisec st =
        self.calc_micro_block ctx (pre ++ post) outer_thread_idx settings
          micro_block_idxs mpisec st) := by
  refine ⟨reqd_loop_append _ _ _ _ _ _ _ _ _, ?_, ?_, ?_, ?_⟩
  · intro hfin
    rw [reqd_loop_trace _ _ _ _ _ _ _ _ hfin, List.flatMap_append, List.append_assoc]
  · intro hinv
    simp [reqd_bundle_calls, hinv]
  · intro hinv
    exact reqd_loop_skip _ _ _ _ _ _ _ _ _ _ hinv
  · intro hinv
    unfold StencilBundleBase.calc_micro_block
    simp only
    rw [bb_loop_congr ctx self (pre ++ sg :: post) (pre ++ post) settings outer_thread_idx
      micro_block_idxs mpisec (idx_get micro_block_idxs.begin step_posn)
      (fun bb1 m1 st1 => reqd_loop_skip _ _ _ _ _ _ _ _ _ _ hinv)]

/-- C15, witness: the required list holds a scratch bundle `s` that is not valid at any
step, followed by the target bundle `b`; the call makes exactly the calls it makes with
the list that holds `b` alone. -/
theorem inactive_reqd_bundle_is_skipped_witness :
    (StencilBundleBase.calc_micro_block
        { num_domain_dims := 1, domain_dims := ["x"], fold_pts := [1],
          num_inner_threads := 1, settings_strides := fun _ _ _ s => s,
          micro_block_loops := fun s => [s], omp_get_thread_num := fun _ => 0 }
        { name := "b", is_scratch := false,
          _bundle_bb := { bb_begin := [0], bb_end := [30], bb_num_points := 10 },
          _bb_list := [{ bb_begin := [0], bb_end := [10], bb_num_points := 10 }],
          is_in_valid_step := fun _ => true, get_output_step_index := fun t => some (t + 1),
          output_var_ptrs := [0], output_scratch_vecs := [], max_lh := [], max_rh := [] }
        [{ name := "s", is_scratch := true,
           _bundle_bb := { bb_begin := [0], bb_end := [30], bb_num_points := 10 },
           _bb_list := [{ bb_begin := [0], bb_end := [10], bb_num_points := 10 }],
           is_in_valid_step := fun _ => false, get_output_step_index := fun _ => none,
           output_var_ptrs := [0], output_scratch_vecs := [], max_lh := [1], max_rh := [1] },
         { name := "b", is_scratch := false,
           _bundle_bb := { bb_begin := [0], bb_end := [30], bb_num_points := 10 },
           _bb_list := [{ bb_begin := [0], bb_end := [10], bb_num_points := 10 }],
           is_in_valid_step := fun _ => true, get_output_step_index := fun t => some (t + 1),
           output_var_ptrs := [0], output_scratch_vecs := [], max_lh := [], max_rh := [] }]
        0
        { bind_inner_threads := false, _bind_posn := 1, _nano_block_sizes := [1, 4],
          _micro_block_sizes := [1, 8], _micro_block_tile_sizes := [1, 8] }
        { begin := [0, 2], end_ := [1, 8], stride := [1, 8], align := [1, 1],
          start := [0, 0], stop := [0, 0] }
        { do_mpi_left := false, do_mpi_right := false }
        { vars := fun _ => { dirty := fun _ _ => false, dev_modified := false, valid_step := 0 },
          trace := [] }).state.trace =
      [Event.calc_nano_block "b" 0 0
         { begin := [0, 2], end_ := [1, 8], stride := [1, 8], align := [1, 1],
           start := [0, 0], stop := [0, 0] },
       Event.update_var_info "b" dirty_idx.self 0 false true false] ∧
    (StencilBundleBase.calc_micro_block
        { num_domain_dims := 1, domain_dims := ["x"], fold_pts := [1],
          num_inner_threads := 1, settings_strides := fun _ _ _ s => s,
          micro_block_loops := fun s => [s], omp_get_thread_num := fun _ => 0 }
        { name := "b", is_scratch := false,
          _bundle_bb := { bb_begin := [0], bb_end := [30], bb_num_points := 10 },
          _bb_list := [{ bb_begin := [0], bb_end := [10], bb_num_points := 10 }],
          is_in_valid_step := fun _ => true, get_output_step_index := fun t => some (t + 1),
          output_var_ptrs := [0], output_scratch_vecs := [], max_lh := [], max_rh := [] }
        [{ name := "s", is_scratch := true,
           _bundle_bb := { bb_begin := [0], bb_end := [30], bb_num_points := 10 },
           _bb_list := [{ bb_begin := [0], bb_end := [10], bb_num_points := 10 }],
           is_in_valid_step := fun _ => false, get_output_step_index := fun _ => none,
           output_var_ptrs := [0], output_scratch_vecs := [], max_lh := [1], max_rh := [1] },
         { name := "b", is_scratch := false,
           _bundle_bb := { bb_begin := [0], bb_end := [30], bb_num_points := 10 },
           _bb_list := [{ bb_begin := [0], bb_end := [10], bb_num_points := 10 }],
           is_in_valid_step := fun _ => true, get_output_step_index := fun t => some (t + 1),
           output_var_ptrs := [0], output_scratch_vecs := [], max_lh := [], max_rh := [] }]
        0
        { bind_inner_threads := false, _bind_posn := 1, _nano_block_sizes := [1, 4],
          _micro_block_sizes := [1, 8], _micro_block_tile_sizes := [1, 8] }
        { begin := [0, 2], end_ := [1, 8], stride := [1, 8], align := [1, 1],
          start := [0, 0], stop := [0, 0] }
        { do_mpi_left := false, do_mpi_right := false }
        { vars := fun _ => { dirty := fun _ _ => false, dev_modified := false, valid_step := 0 },
          trace := [] }) =
    (StencilBundleBase.calc_micro_block
        { num_domain_dims := 1, domain_dims := ["x"], fold_pts := [1],
          num_inner_threads := 1, settings_strides := fun _ _ _ s => s,
          micro_block_loops := fun s => [s], omp_get_thread_num := fun _ => 0 }
        { name := "b", is_scratch := false,
          _bundle_bb := { bb_begin := [0], bb_end := [30], bb_num_points := 10 },
          _bb_list := [{ bb_begin := [0], bb_end := [10], bb_num_points := 10 }],
          is_in_valid_step := fun _ => true, get_output_step_index := fun t => some (t + 1),
          output_var_ptrs := [0], output_scratch_vecs := [], max_lh := [], max_rh := [] }
        [{ name := "b", is_scratch := false,
           _bundle_bb := { bb_begin := [0], bb_end := [30], bb_num_points := 10 },
           _bb_list := [{ bb_begin := [0], bb_end := [10], bb_num_points := 10 }],
           is_in_valid_step := fun _ => true, get_output_step_index := fun t => some (t + 1),
           output_var_ptrs := [0], output_scratch_vecs := [], max_lh := [], max_rh := [] }]
        0
        { bind_inner_threads := false, _bind_posn := 1, _nano_block_sizes := [1, 4],
          _micro_block_sizes := [1, 8], _micro_block_tile_sizes := [1, 8] }
        { begin := [0, 2], end_ := [1, 8], stride := [1, 8], align := [1, 1],
          start := [0, 0], stop := [0, 0] }
        { do_mpi_left := false, do_mpi_right := false }
        { vars := fun _ => { dirty := fun _ _ => false, dev_modified := false, valid_step := 0 },
          trace := [] }) :=
  ⟨by decide,
   (inactive_reqd_bundle_is_skipped
        { num_domain_dims := 1, domain_dims := ["x"], fold_pts := [1],
          num_inner_threads := 1, settings_strides := fun _ _ _ s => s,
          micro_block_loops := fun s => [s], omp_get_thread_num := fun _ => 0 }
        { name := "b", is_scratch := false,
          _bundle_bb := { bb_begin := [0], bb_end := [30], bb_num_points := 10 },
          _bb_list := [{ bb_begin := [0], bb_end := [10], bb_num_points := 10 }],
          is_in_valid_step := fun _ => true, get_output_step_index := fun t => some (t + 1),
          output_var_ptrs := [0], output_scratch_vecs := [], max_lh := [], max_rh := [] }
        0
        { bind_inner_threads := false, _bind_posn := 1, _nano_block_sizes := [1, 4],
          _micro_block_sizes := [1, 8], _micro_block_tile_sizes := [1, 8] }
        { begin := [0, 2], end_ := [1, 8], stride := [1, 8], align := [1, 1],
          start := [0, 0], stop := [0, 0] }
        { do_mpi_left := false, do_mpi_right := false } 0
        { bb_begin := [0], bb_end := [10], bb_num_points := 10 }
        { begin := [0, 2], end_ := [1, 8], stride := [1, 8], align := [1, 1],
          start := [0, 0], stop := [0, 0] }
        []
        [{ name := "b", is_scratch := false,
           _bundle_bb := { bb_begin := [0], bb_end := [30], bb_num_points := 10 },
           _bb_list := [{ bb_begin := [0], bb_end := [10], bb_num_points := 10 }],
           is_in_valid_step := fun _ => true, get_output_step_index := fun t => some (t + 1),
           output_var_ptrs := [0], output_scratch_vecs := [], max_lh := [], max_rh := [] }]
        { name := "s", is_scratch := true,
          _bundle_bb := { bb_begin := [0], bb_end := [30], bb_num_points := 10 },
          _bb_list := [{ bb_begin := [0], bb_end := [10], bb_num_points := 10 }],
          is_in_valid_step := fun _ => false, get_output_step_index := fun _ => none,
          output_var_ptrs := [0], output_scratch_vecs := [], max_lh := [1], max_rh := [1] }
        { vars := fun _ => { dirty := fun _ _ => false, dev_modified := false, valid_step := 0 },
          trace := [] }).2.2.2.2 rfl⟩

/-! ## Strides of the range when threads are bound -/

theorem bind_strides_loop_fields (bind_posn : Nat) (bind_slab_pts : idx_t) (cnt j : Nat)
    (s : ScanIndices) :
    (bind_strides_loop bind_posn bind_slab_pts cnt j s).begin = s.begin ∧
    (bind_strides_loop bind_posn bind_slab_pts cnt j s).end_ = s.end_ ∧
    (bind_strides_loop bind_posn bind_slab_pts cnt j s).start = s.start ∧
    (bind_strides_loop bind_posn bind_slab_pts cnt j s).stop = s.stop ∧
    (bind_strides_loop bind_posn bind_slab_pts cnt j s).stride.length = s.stride.length ∧
    (bind_strides_loop bind_posn bind_slab_pts cnt j s).align.length = s.align.length := by
  induction cnt generalizing j s with
  | zero => simp [bind_strides_loop]
  | succ cnt ih =>
    simp only [bind_strides_loop]
    split
    · have h := ih (j + 1)
        { s with stride := idx_set s.stride (stencil_posn j) bind_slab_pts,
                 align := idx_set s.align (stencil_posn j) bind_slab_pts }
      simpa [idx_set_length] using h
    · have h := ih (j + 1)
        ⟨s.begin, s.end_, idx_set s.stride (stencil_posn j) (s.get_overall_range (stencil_posn j)),
          s.align, s.start, s.stop⟩
      simpa [idx_set_length] using h

theorem bind_strides_loop_untouched (bind_posn : Nat) (bind_slab_pts : idx_t) (cnt j : Nat)
    (s : ScanIndices) (k : Nat) (hk : k < stencil_posn j ∨ stencil_posn (j + cnt) ≤ k) :
    idx_get (bind_strides_loop bind_posn bind_slab_pts cnt j s).stride k = idx_get s.stride k ∧
    idx_get (bind_strides_loop bind_posn bind_slab_pts cnt j s).align k = idx_get s.align k := by
  induction cnt generalizing j s with
  | zero => simp [bind_strides_loop]
  | succ cnt ih =>
    have hne : k ≠ stencil_posn j := by
      simp only [stencil_posn] at hk ⊢
      omega
    have hk1 : k < stencil_posn (j + 1) ∨ stencil_posn (j + 1 + cnt) ≤ k := by
      simp only [stencil_posn] at hk ⊢
      omega
    simp only [bind_strides_loop]
    split
    · have h := ih (j + 1)
        { s with stride := idx_set s.stride (stencil_posn j) bind_slab_pts,
                 align := idx_set s.align (stencil_posn j) bind_slab_pts } hk1
      simpa [idx_get_set_ne _ _ _ _ hne] using h
    · have h := ih (j + 1)
        ⟨s.begin, s.end_, idx_set s.stride (stencil_posn j) (s.get_overall_range (stencil_posn j)),
          s.align, s.start, s.stop⟩ hk1
      simpa [idx_get_set_ne _ _ _ _ hne] using h

/-- Stride and alignment that the binding loop leaves in a domain dimension. -/
theorem bind_strides_loop_visited (bind_posn : Nat) (bind_slab_pts : idx_t) (cnt j : Nat)
    (s : ScanIndices) (j0 : Nat) (h1 : j ≤ j0) (h2 : j0 < j + cnt)
    (hs : stencil_posn j0 < s.stride.length) (ha : stencil_posn j0 < s.align.length) :
    idx_get (bind_strides_loop bind_posn bind_slab_pts cnt j s).stride (stencil_posn j0) =
      (if stencil_posn j0 = bind_posn then bind_slab_pts
       else idx_get s.end_ (stencil_posn j0) - idx_get s.begin (stencil_posn j0)) ∧
    idx_get (bind_strides_loop bind_posn bind_slab_pts cnt j s).align (stencil_posn j0) =
      (if stencil_posn j0 = bind_posn then bind_slab_pts
       else idx_get s.align (stencil_posn j0)) := by
  induction cnt generalizing j s with
  | zero => omega
  | succ cnt ih =>
    simp only [bind_strides_loop]
    by_cases hj : j0 = j
    · subst hj
      have hu := fun a => bind_strides_loop_untouched bind_posn bind_slab_pts cnt (j0 + 1) a
        (stencil_posn j0) (Or.inl (by simp [stencil_posn]))
      split
      · rename_i hb
        rw [(hu _).1, (hu _).2]
        simp [hb, idx_get_set_eq _ _ _ hs, idx_get_set_eq _ _ _ ha]
        rw [← hb, idx_get_set_eq _ _ _ hs, idx_get_set_eq _ _ _ ha]
        exact ⟨rfl, rfl⟩
      · rename_i hb
        rw [(hu _).1, (hu _).2]
        simp [hb, idx_get_set_eq _ _ _ hs, ScanIndices.get_overall_range]
    · split
      · have h := ih (j + 1)
          { s with stride := idx_set s.stride (stencil_posn j) bind_slab_pts,
                   align := idx_set s.align (stencil_posn j) bind_slab_pts }
          (by omega) (by omega) (by simpa [idx_set_length] using hs)
          (by simpa [idx_set_length] using ha)
        have hne : stencil_posn j0 ≠ stencil_posn j := by
          simp only [stencil_posn]
          omega
        simpa [idx_get_set_ne _ _ _ _ hne] using h
      · have h := ih (j + 1)
          ⟨s.begin, s.end_, idx_set s.stride (stencil_posn j) (s.get_overall_range (stencil_posn j)),
          s.align, s.start, s.stop⟩
          (by omega) (by omega) (by simpa [idx_set_length] using hs) ha
        simpa using h

/-- C16. Threads are bound to data iff there is more than one inner thread and
`bind_inner_threads` is set: then the nano-blocks come from the parallel region run on the
range with adjusted strides, else from the plain loop on the range as it is. When the
bound dimension is the domain dimension `jb`, the range handed to the micro-block loop
has stride and alignment of the bound dimension equal to the slab width (the nano-block
size of the bound dimension), the stride of every other domain dimension equal to
`end - begin` of that dimension, and begin and end of every dimension unchanged. -/
theorem bind_threads_range (ctx : StencilContext) (settings : KernelSettings)
    (outer_thread_idx : Nat) (sg : StencilBundleBase) (mb_idxs3 : ScanIndices) :
    (eval_range ctx settings outer_thread_idx sg mb_idxs3 =
      if 1 < ctx.num_inner_threads ∧ settings.bind_inner_threads = true then
        bound_region_calls sg outer_thread_idx settings._bind_posn
          (idx_get settings._nano_block_sizes settings._bind_posn) ctx.num_inner_threads
          (ctx.micro_block_loops
            (bind_strides_loop settings._bind_posn
              (idx_get settings._nano_block_sizes settings._bind_posn)
              ctx.num_domain_dims 0 mb_idxs3))
      else unbound_calls ctx sg outer_thread_idx (ctx.micro_block_loops mb_idxs3)) ∧
    (bind_strides_loop settings._bind_posn
        (idx_get settings._nano_block_sizes settings._bind_posn)
        ctx.num_domain_dims 0 mb_idxs3).begin = mb_idxs3.begin ∧
    (bind_strides_loop settings._bind_posn
        (idx_get settings._nano_block_sizes settings._bind_posn)
        ctx.num_domain_dims 0 mb_idxs3).end_ = mb_idxs3.end_ ∧
    (∀ jb, jb < ctx.num_domain_dims → settings._bind_posn = stencil_posn jb →
      ctx.num_domain_dims < mb_idxs3.stride.length →
      ctx.num_domain_dims < mb_idxs3.align.length →
      idx_get (bind_strides_loop settings._bind_posn
          (idx_get settings._nano_block_sizes settings._bind_posn)
          ctx.num_domain_dims 0 mb_idxs3).stride settings._bind_posn =
        idx_get settings._nano_block_sizes settings._bind_posn ∧
      idx_get (bind_strides_loop settings._bind_posn
          (idx_get settings._nano_block_sizes settings._bind_posn)
          ctx.num_domain_dims 0 mb_idxs3).align settings._bind_posn =
        idx_get settings._nano_block_sizes settings._bind_posn ∧
      ∀ j, j < ctx.num_domain_dims → j ≠ jb →
        idx_get (bind_strides_loop settings._bind_posn
            (idx_get settings._nano_block_sizes settings._bind_posn)
            ctx.num_domain_dims 0 mb_idxs3).stride (stencil_posn j) =
          idx_get mb_idxs3.end_ (stencil_posn j) - idx_get mb_idxs3.begin (stencil_posn j)) := by
  have hf := bind_strides_loop_fields settings._bind_posn
    (idx_get settings._nano_block_sizes settings._bind_posn) ctx.num_domain_dims 0 mb_idxs3
  refine ⟨?_, hf.1, hf.2.1, ?_⟩
  · unfold eval_range
    by_cases h1 : 1 < ctx.num_inner_threads
    · by_cases h2 : settings.bind_inner_threads = true
      · simp [h1, h2]
      · simp [h1, h2]
    · simp [h1]
  · intro jb hjb hbp hs ha
    have hv := fun j (hj : j < ctx.num_domain_dims) =>
      bind_strides_loop_visited settings._bind_posn
        (idx_get settings._nano_block_sizes settings._bind_posn) ctx.num_domain_dims 0
        mb_idxs3 j (Nat.zero_le j) (by omega) (by simp only [stencil_posn]; omega)
        (by simp only [stencil_posn]; omega)
    have hb := hv jb hjb
    rw [← hbp] at hb
    simp only [if_true] at hb
    refine ⟨hb.1, hb.2, fun j hj hne => ?_⟩
    have hj1 := (hv j hj).1
    have hne1 : stencil_posn j ≠ settings._bind_posn := by
      rw [hbp]
      simp only [stencil_posn]
      omega
    rw [if_neg hne1] at hj1
    exact hj1

/-- C16, witness: four inner threads bound in the second domain dimension (stencil
position 2) with slab width 4; the range `[2, 8) x [10, 30)` gets stride 6 (its width) in
the first domain dimension, stride and alignment 4 in the bound one, and keeps begin and
end. -/
theorem bind_threads_range_witness :
    bind_strides_loop 2 4 2 0
        { begin := [0, 2, 10], end_ := [1, 8, 30], stride := [1, 3, 5], align := [1, 1, 1],
          start := [0, 0, 0], stop := [0, 0, 0] } =
      { begin := [0, 2, 10], end_ := [1, 8, 30], stride := [1, 6, 4], align := [1, 1, 4],
        start := [0, 0, 0], stop := [0, 0, 0] } ∧
    idx_get (bind_strides_loop 2 4 2 0
        { begin := [0, 2, 10], end_ := [1, 8, 30], stride := [1, 3, 5], align := [1, 1, 1],
          start := [0, 0, 0], stop := [0, 0, 0] }).stride 2 = 4 :=
  ⟨by decide,
   ((bind_threads_range
        { num_domain_dims := 2, domain_dims := ["x", "y"], fold_pts := [1, 1],
          num_inner_threads := 4, settings_strides := fun _ _ _ s => s,
          micro_block_loops := fun s => [s], omp_get_thread_num := fun _ => 0 }
        { bind_inner_threads := true, _bind_posn := 2, _nano_block_sizes := [1, 8, 4],
          _micro_block_sizes := [1, 8, 8], _micro_block_tile_sizes := [1, 8, 8] }
        0
        { name := "b", is_scratch := false,
          _bundle_bb := { bb_begin := [0], bb_end := [30], bb_num_points := 10 },
          _bb_list := [{ bb_begin := [0], bb_end := [10], bb_num_points := 10 }],
          is_in_valid_step := fun _ => true, get_output_step_index := fun t => some (t + 1),
          output_var_ptrs := [0], output_scratch_vecs := [], max_lh := [], max_rh := [] }
        { begin := [0, 2, 10], end_ := [1, 8, 30], stride := [1, 3, 5], align := [1, 1, 1],
          start := [0, 0, 0], stop := [0, 0, 0] }).2.2.2 1 (by decide) rfl (by decide) (by decide)).1⟩

/-! ## Algebra of trimming -/

theorem idx_set_get_self (v : Indices) (i : Nat) : idx_set v i (idx_get v i) = v := by
  unfold idx_set idx_get
  induction v generalizing i with
  | nil => simp
  | cons a v ih =>
    cases i with
    | zero => simp
    | succ i => simpa using ih i

theorem idx_get_tail (v : Indices) (j : Nat) : idx_get v.tail j = idx_get v (stencil_posn j) := by
  unfold idx_get stencil_posn
  cases v with
  | nil => simp
  | cons a v => simp

/-- A trimming that computes, in every dimension it visits, the begin and end that the
destination already holds leaves the destination as it is. -/
theorem trim_loop_noop (src : ScanIndices) (bb : BoundingBox) (cnt j : Nat)
    (dst : ScanIndices) (ok : Bool)
    (h : ∀ j1, j ≤ j1 → j1 < j + cnt →
      (∀ j2, j ≤ j2 → j2 < j1 →
        max (idx_get src.begin (stencil_posn j2)) (idx_get bb.bb_begin j2) <
          min (idx_get src.end_ (stencil_posn j2)) (idx_get bb.bb_end j2)) →
      max (idx_get src.begin (stencil_posn j1)) (idx_get bb.bb_begin j1) =
          idx_get dst.begin (stencil_posn j1) ∧
      min (idx_get src.end_ (stencil_posn j1)) (idx_get bb.bb_end j1) =
          idx_get dst.end_ (stencil_posn j1)) :
    (trim_loop src bb cnt j dst ok).1 = dst := by
  induction cnt generalizing j dst with
  | zero => rfl
  | succ cnt ih =>
    have hj := h j (Nat.le_refl j) (by omega) (fun j2 h1 h2 => by omega)
    simp only [trim_loop]
    rw [hj.1, hj.2, idx_set_get_self, idx_set_get_self]
    split
    · rfl
    · rename_i hbrk
      apply ih
      intro j1 h1 h2 hprev
      apply h j1 (by omega) (by omega)
      intro j2 h3 h4
      by_cases hj2 : j2 = j
      · subst hj2
        rw [hj.1, hj.2]
        exact not_le.mp hbrk
      · exact hprev j2 (by omega) h4

/-- Overlap with `a` and `b` one after the other is overlap of the three ranges. -/
theorem trim_seq_ok_iff (ndd : Nat) (r : ScanIndices) (a b : BoundingBox)
    (hb : ndd < r.begin.length) (he : ndd < r.end_.length) :
    trim_seq_ok ndd r a b = true ↔
      a.bb_num_points > 0 ∧ b.bb_num_points > 0 ∧ ∀ j, j < ndd →
        max (max (idx_get r.begin (stencil_posn j)) (idx_get a.bb_begin j))
            (idx_get b.bb_begin j) <
          min (min (idx_get r.end_ (stencil_posn j)) (idx_get a.bb_end j))
            (idx_get b.bb_end j) := by
  have hlen := trim_loop_fields r a ndd 0 r (decide (a.bb_num_points > 0))
  have hvis : (∀ j, j < ndd →
      max (idx_get r.begin (stencil_posn j)) (idx_get a.bb_begin j) <
        min (idx_get r.end_ (stencil_posn j)) (idx_get a.bb_end j)) →
      ∀ j, j < ndd →
        idx_get (trim_to_bb ndd r a).1.begin (stencil_posn j) =
          max (idx_get r.begin (stencil_posn j)) (idx_get a.bb_begin j) ∧
        idx_get (trim_to_bb ndd r a).1.end_ (stencil_posn j) =
          min (idx_get r.end_ (stencil_posn j)) (idx_get a.bb_end j) := by
    intro hall j hj
    exact trim_loop_visited r a ndd 0 r _ j (Nat.zero_le j) (by omega)
      (fun j1 _ h4 => hall j1 (by omega))
      (by simp only [stencil_posn]; omega) (by simp only [stencil_posn]; omega)
  unfold trim_seq_ok
  rw [Bool.and_eq_true]
  unfold trim_to_bb at *
  rw [trim_loop_ok_iff, trim_loop_ok_iff]
  constructor
  · rintro ⟨⟨hpa, hova⟩, hpb, hovb⟩
    have hall : ∀ j, j < ndd →
        max (idx_get r.begin (stencil_posn j)) (idx_get a.bb_begin j) <
          min (idx_get r.end_ (stencil_posn j)) (idx_get a.bb_end j) :=
      fun j hj => hova j (Nat.zero_le j) (by omega)
    refine ⟨by simpa using hpa, by simpa using hpb, fun j hj => ?_⟩
    have h1 := hovb j (Nat.zero_le j) (by omega)
    rw [(hvis hall j hj).1, (hvis hall j hj).2] at h1
    exact h1
  · rintro ⟨hpa, hpb, hov⟩
    have hall : ∀ j, j < ndd →
        max (idx_get r.begin (stencil_posn j)) (idx_get a.bb_begin j) <
          min (idx_get r.end_ (stencil_posn j)) (idx_get a.bb_end j) := by
      intro j hj
      have h1 := hov j hj
      exact lt_of_le_of_lt (le_max_left _ _) (lt_of_lt_of_le h1 (min_le_left _ _))
    refine ⟨⟨by simpa using hpa, fun j _ hj => hall j (by omega)⟩,
      by simpa using hpb, fun j _ hj => ?_⟩
    rw [(hvis hall j (by omega)).1, (hvis hall j (by omega)).2]
    exact hov j (by omega)

/-- Trimming once more by the original range: if `d1` holds, in every dimension the first
trimming reached, the max of the begins and the min of the ends of `A` and `B`, then
trimming `d1` by `A` changes nothing and overlaps exactly when `A` and `B` overlap. -/
theorem trim_again_aux (ndd : Nat) (A d1 : ScanIndices) (B : BoundingBox) (pA : idx_t)
    (ok : Bool)
    (hvis : ∀ j1, j1 < ndd →
      (∀ j2, j2 < j1 →
        max (idx_get A.begin (stencil_posn j2)) (idx_get B.bb_begin j2) <
          min (idx_get A.end_ (stencil_posn j2)) (idx_get B.bb_end j2)) →
      idx_get d1.begin (stencil_posn j1) =
          max (idx_get A.begin (stencil_posn j1)) (idx_get B.bb_begin j1) ∧
      idx_get d1.end_ (stencil_posn j1) =
          min (idx_get A.end_ (stencil_posn j1)) (idx_get B.bb_end j1)) :
    (trim_loop d1 (range_as_bb A pA) ndd 0 d1 ok).1 = d1 ∧
    ((∀ j, j < ndd →
        max (idx_get d1.begin (stencil_posn j)) (idx_get (range_as_bb A pA).bb_begin j) <
          min (idx_get d1.end_ (stencil_posn j)) (idx_get (range_as_bb A pA).bb_end j)) ↔
      (∀ j, j < ndd →
        max (idx_get A.begin (stencil_posn j)) (idx_get B.bb_begin j) <
          min (idx_get A.end_ (stencil_posn j)) (idx_get B.bb_end j))) := by
  have hbox : ∀ j, idx_get (range_as_bb A pA).bb_begin j = idx_get A.begin (stencil_posn j) ∧
      idx_get (range_as_bb A pA).bb_end j = idx_get A.end_ (stencil_posn j) := by
    intro j
    simp [range_as_bb, idx_get_tail]
  have hK : ∀ j1, j1 ≤ ndd →
      (∀ j2, j2 < j1 →
        max (idx_get d1.begin (stencil_posn j2)) (idx_get (range_as_bb A pA).bb_begin j2) <
          min (idx_get d1.end_ (stencil_posn j2)) (idx_get (range_as_bb A pA).bb_end j2)) →
      ∀ j2, j2 < j1 →
        max (idx_get A.begin (stencil_posn j2)) (idx_get B.bb_begin j2) <
          min (idx_get A.end_ (stencil_posn j2)) (idx_get B.bb_end j2) := by
    intro j1
    induction j1 with
    | zero =>
      intro _ _ j2 hj2
      omega
    | succ j1 ih =>
      intro hle h2 j2 hj2
      have hprev := ih (by omega) (fun j3 h3 => h2 j3 (by omega))
      by_cases e : j2 = j1
      · subst e
        have hv := hvis j2 (by omega) hprev
        have h := h2 j2 (by omega)
        rw [hv.1, hv.2] at h
        exact lt_of_le_of_lt (le_max_left _ _) (lt_of_lt_of_le h (min_le_left _ _))
      · exact hprev j2 (by omega)
  refine ⟨?_, ?_, ?_⟩
  · apply trim_loop_noop
    intro j1 _ h1 hprev
    have hv := hvis j1 (by omega)
      (hK j1 (by omega) (fun j2 h2 => hprev j2 (Nat.zero_le j2) h2))
    rw [(hbox j1).1, (hbox j1).2, hv.1, hv.2]
    exact ⟨max_eq_left (le_max_left _ _), min_eq_left (min_le_left _ _)⟩
  · intro h
    exact hK ndd (Nat.le_refl ndd) h
  · intro h j hj
    have hv := hvis j hj (fun j2 h2 => h j2 (by omega))
    rw [(hbox j).1, (hbox j).2, hv.1, hv.2,
      max_eq_left (le_max_left _ _), min_eq_left (min_le_left _ _)]
    exact h j hj

/-- C18. Trimming is idempotent: for a range `A` and a box `B` with points, trimming `A` by
`B` (begin = max of the begins, end = min of the ends, empty when `end <= begin`) and then
trimming the result by `A` again gives the same result as trimming once: the same begin
and end in every dimension and the same verdict, empty or not. This holds for any number
of domain dimensions, in particular along one dimension. -/
theorem trim_again_by_range_same (ndd : Nat) (A : ScanIndices) (B : BoundingBox) (pA : idx_t)
    (hB : B.bb_num_points > 0) (hA : pA > 0)
    (hb : ndd < A.begin.length) (he : ndd < A.end_.length) :
    trim_to_bb ndd (trim_to_bb ndd A B).1 (range_as_bb A pA) = trim_to_bb ndd A B := by
  have haux := trim_again_aux ndd A (trim_to_bb ndd A B).1 B pA
    (decide ((range_as_bb A pA).bb_num_points > 0))
    (fun j1 hj1 hprev =>
      trim_loop_visited A B ndd 0 A _ j1 (Nat.zero_le j1) (by omega)
        (fun j2 _ h4 => hprev j2 h4)
        (by simp only [stencil_posn]; omega) (by simp only [stencil_posn]; omega))
  have h1 : (trim_to_bb ndd (trim_to_bb ndd A B).1 (range_as_bb A pA)).1 =
      (trim_to_bb ndd A B).1 := haux.1
  have hA1 : (range_as_bb A pA).bb_num_points > 0 := hA
  have h2 : (trim_to_bb ndd (trim_to_bb ndd A B).1 (range_as_bb A pA)).2 =
      (trim_to_bb ndd A B).2 := by
    have e1 := trim_loop_ok_iff (trim_to_bb ndd A B).1 (range_as_bb A pA) ndd 0
      (trim_to_bb ndd A B).1 (decide ((range_as_bb A pA).bb_num_points > 0))
    have e2 := trim_loop_ok_iff A B ndd 0 A (decide (B.bb_num_points > 0))
    have e3 : (trim_to_bb ndd (trim_to_bb ndd A B).1 (range_as_bb A pA)).2 = true ↔
        (trim_to_bb ndd A B).2 = true := by
      unfold trim_to_bb at haux e1 ⊢
      rw [e1, e2]
      constructor
      · intro h
        exact ⟨by simpa using hB,
          fun j _ hj => haux.2.mp (fun j1 hj1 => h.2 j1 (Nat.zero_le j1) (by omega)) j
            (by omega)⟩
      · intro h
        exact ⟨by simpa using hA1,
          fun j _ hj => haux.2.mpr (fun j1 hj1 => h.2 j1 (Nat.zero_le j1) (by omega)) j
            (by omega)⟩
    exact Bool.eq_iff_iff.mpr e3
  exact Prod.ext h1 h2

/-- C18, witness along one dimension: `A = [0, 10)` trimmed by `B = [4, 20)` is `[4, 10)`;
trimming `[4, 10)` by `A` again gives `[4, 10)`. -/
theorem trim_again_by_range_same_witness :
    trim_to_bb 1
        { begin := [0, 0], end_ := [1, 10], stride := [1, 8], align := [1, 1],
          start := [0, 0], stop := [0, 0] }
        { bb_begin := [4], bb_end := [20], bb_num_points := 16 } =
      ({ begin := [0, 4], end_ := [1, 10], stride := [1, 8], align := [1, 1],
         start := [0, 0], stop := [0, 0] }, true) ∧
    trim_to_bb 1
        (trim_to_bb 1
          { begin := [0, 0], end_ := [1, 10], stride := [1, 8], align := [1, 1],
            start := [0, 0], stop := [0, 0] }
          { bb_begin := [4], bb_end := [20], bb_num_points := 16 }).1
        (range_as_bb
          { begin := [0, 0], end_ := [1, 10], stride := [1, 8], align := [1, 1],
            start := [0, 0], stop := [0, 0] } 10) =
      trim_to_bb 1
        { begin := [0, 0], end_ := [1, 10], stride := [1, 8], align := [1, 1],
          start := [0, 0], stop := [0, 0] }
        { bb_begin := [4], bb_end := [20], bb_num_points := 16 } :=
  ⟨by decide,
   trim_again_by_range_same 1
      { begin := [0, 0], end_ := [1, 10], stride := [1, 8], align := [1, 1],
        start := [0, 0], stop := [0, 0] }
      { bb_begin := [4], bb_end := [20], bb_num_points := 16 } 10
      (by decide) (by decide) (by decide) (by decide)⟩

/-- C19. For boxes `A` and `B` that do not overlap (in some domain dimension
`min(A.end, B.end) <= max(A.begin, B.begin)`) and every range `r`, trimming `r` by `A` and
then by `B` comes out empty, and so does trimming by `B` and then by `A`; and for any two
boxes trimming by `A` then `B` is empty exactly when trimming by `B` then `A` is. -/
theorem trim_order_same_emptiness (ndd : Nat) (r : ScanIndices) (A B : BoundingBox)
    (hb : ndd < r.begin.length) (he : ndd < r.end_.length) :
    ((∃ j, j < ndd ∧
        min (idx_get A.bb_end j) (idx_get B.bb_end j) ≤
          max (idx_get A.bb_begin j) (idx_get B.bb_begin j)) →
      trim_seq_ok ndd r A B = false ∧ trim_seq_ok ndd r B A = false) ∧
    trim_seq_ok ndd r A B = trim_seq_ok ndd r B A := by
  have hsym : trim_seq_ok ndd r A B = true ↔ trim_seq_ok ndd r B A = true := by
    rw [trim_seq_ok_iff ndd r A B hb he, trim_seq_ok_iff ndd r B A hb he]
    constructor
    · rintro ⟨h1, h2, h3⟩
      refine ⟨h2, h1, fun j hj => ?_⟩
      rw [max_assoc, max_comm (idx_get B.bb_begin j), ← max_assoc,
        min_assoc, min_comm (idx_get B.bb_end j), ← min_assoc]
      exact h3 j hj
    · rintro ⟨h1, h2, h3⟩
      refine ⟨h2, h1, fun j hj => ?_⟩
      rw [max_assoc, max_comm (idx_get A.bb_begin j), ← max_assoc,
        min_assoc, min_comm (idx_get A.bb_end j), ← min_assoc]
      exact h3 j hj
  have heq : trim_seq_ok ndd r A B = trim_seq_ok ndd r B A := Bool.eq_iff_iff.mpr hsym
  refine ⟨?_, heq⟩
  rintro ⟨j, hj, hno⟩
  have hAB : trim_seq_ok ndd r A B = false := by
    cases hv : trim_seq_ok ndd r A B with
    | false => rfl
    | true =>
      have h := ((trim_seq_ok_iff ndd r A B hb he).mp hv).2.2 j hj
      have h1 : max (idx_get A.bb_begin j) (idx_get B.bb_begin j) ≤
          max (max (idx_get r.begin (stencil_posn j)) (idx_get A.bb_begin j))
            (idx_get B.bb_begin j) :=
        max_le_max (le_max_right _ _) (le_refl _)
      have h2 : min (min (idx_get r.end_ (stencil_posn j)) (idx_get A.bb_end j))
            (idx_get B.bb_end j) ≤
          min (idx_get A.bb_end j) (idx_get B.bb_end j) :=
        min_le_min (min_le_right _ _) (le_refl _)
      exact absurd (lt_of_le_of_lt h1 (lt_of_lt_of_le h h2)) (not_lt.mpr hno)
  exact ⟨hAB, by rw [← heq]; exact hAB⟩

/-- C19, witness: the boxes `[0, 5)` and `[5, 10)` touch without overlapping; the range
`[0, 10)` trimmed by one and then by the other is empty in both orders. -/
theorem trim_order_same_emptiness_witness :
    trim_seq_ok 1
        { begin := [0, 0], end_ := [1, 10], stride := [1, 8], align := [1, 1],
          start := [0, 0], stop := [0, 0] }
        { bb_begin := [0], bb_end := [5], bb_num_points := 5 }
        { bb_begin := [5], bb_end := [10], bb_num_points := 5 } = false ∧
    trim_seq_ok 1
        { begin := [0, 0], end_ := [1, 10], stride := [1, 8], align := [1, 1],
          start := [0, 0], stop := [0, 0] }
        { bb_begin := [5], bb_end := [10], bb_num_points := 5 }
        { bb_begin := [0], bb_end := [5], bb_num_points := 5 } = false :=
  (trim_order_same_emptiness 1
      { begin := [0, 0], end_ := [1, 10], stride := [1, 8], align := [1, 1],
        start := [0, 0], stop := [0, 0] }
      { bb_begin := [0], bb_end := [5], bb_num_points := 5 }
      { bb_begin := [5], bb_end := [10], bb_num_points := 5 }
      (by decide) (by decide)).1 ⟨0, by decide, by decide⟩

/-! ## The write halos found by `find_write_halos` -/

theorem write_halo_loop_untouched (domain_dims : List String) (gp : ScratchVar) (cnt j : Nat)
    (m : Indices × Indices) (k : Nat) (hk : k < j ∨ j + cnt ≤ k) :
    idx_get (write_halo_loop domain_dims gp cnt j m).1 k = idx_get m.1 k ∧
    idx_get (write_halo_loop domain_dims gp cnt j m).2 k = idx_get m.2 k := by
  induction cnt generalizing j m with
  | zero => simp [write_halo_loop]
  | succ cnt ih =>
    have hne : k ≠ j := by omega
    simp only [write_halo_loop]
    split
    · have h := ih (j + 1)
        (idx_set m.1 j (max (idx_get m.1 j)
            (gp.get_left_halo_size (gp.get_dim_posn (domain_dims.getD j "")))),
         idx_set m.2 j (max (idx_get m.2 j)
            (gp.get_right_halo_size (gp.get_dim_posn (domain_dims.getD j ""))))) (by omega)
      simpa [idx_get_set_ne _ _ _ _ hne] using h
    · exact ih (j + 1) m (by omega)

/-- What the loop over the domain dimensions does to the maxima of dimension `k` for one
variable. -/
theorem write_halo_loop_at (domain_dims : List String) (gp : ScratchVar) (cnt j : Nat)
    (m : Indices × Indices) (k : Nat) (h1 : j ≤ k) (h2 : k < j + cnt)
    (hl : k < m.1.length) (hr : k < m.2.length) :
    idx_get (write_halo_loop domain_dims gp cnt j m).1 k =
      (if gp.get_dim_posn (domain_dims.getD k "") ≥ 0 then
        max (idx_get m.1 k) (gp.get_left_halo_size (gp.get_dim_posn (domain_dims.getD k "")))
       else idx_get m.1 k) ∧
    idx_get (write_halo_loop domain_dims gp cnt j m).2 k =
      (if gp.get_dim_posn (domain_dims.getD k "") ≥ 0 then
        max (idx_get m.2 k) (gp.get_right_halo_size (gp.get_dim_posn (domain_dims.getD k "")))
       else idx_get m.2 k) := by
  induction cnt generalizing j m with
  | zero => omega
  | succ cnt ih =>
    simp only [write_halo_loop]
    by_cases hj : k = j
    · subst hj
      have hu := fun a => write_halo_loop_untouched domain_dims gp cnt (k + 1) a k
        (Or.inl (by omega))
      rw [(hu _).1, (hu _).2]
      split
      · simp [idx_get_set_eq _ _ _ hl, idx_get_set_eq _ _ _ hr]
      · exact ⟨rfl, rfl⟩
    · split
      · have h := ih (j + 1)
          (idx_set m.1 j (max (idx_get m.1 j)
              (gp.get_left_halo_size (gp.get_dim_posn (domain_dims.getD j "")))),
           idx_set m.2 j (max (idx_get m.2 j)
              (gp.get_right_halo_size (gp.get_dim_posn (domain_dims.getD j "")))))
          (by omega) (by omega) (by simpa [idx_set_length] using hl)
          (by simpa [idx_set_length] using hr)
        simpa [idx_get_set_ne _ _ _ _ hj] using h
      · exact ih (j + 1) m (by omega) (by omega) hl hr

/-- The loop over the output scratch variables folds `max` over the halo sizes of the
variables that have the dimension, starting from the values given. -/
theorem write_halo_vars_at (ctx : StencilContext) (vs : List ScratchVar)
    (m : Indices × Indices) (k : Nat) (hk : k < ctx.num_domain_dims)
    (hl : k < m.1.length) (hr : k < m.2.length) :
    idx_get (write_halo_vars ctx vs m).1 k =
      (vs.filterMap fun gp =>
        if gp.get_dim_posn (ctx.domain_dims.getD k "") ≥ 0 then
          some (if true then gp.get_left_halo_size (gp.get_dim_posn (ctx.domain_dims.getD k ""))
                else gp.get_right_halo_size (gp.get_dim_posn (ctx.domain_dims.getD k "")))
        else none).foldl max (idx_get m.1 k) ∧
    idx_get (write_halo_vars ctx vs m).2 k =
      (vs.filterMap fun gp =>
        if gp.get_dim_posn (ctx.domain_dims.getD k "") ≥ 0 then
          some (if false then gp.get_left_halo_size (gp.get_dim_posn (ctx.domain_dims.getD k ""))
                else gp.get_right_halo_size (gp.get_dim_posn (ctx.domain_dims.getD k "")))
        else none).foldl max (idx_get m.2 k) := by
  induction vs generalizing m with
  | nil => simp [write_halo_vars]
  | cons gp rest ih =>
    have hlen := write_halo_loop_mono ctx.domain_dims gp ctx.num_domain_dims 0 m k
    have hat := write_halo_loop_at ctx.domain_dims gp ctx.num_domain_dims 0 m k
      (Nat.zero_le k) (by omega) hl hr
    have h := ih (write_halo_loop ctx.domain_dims gp ctx.num_domain_dims 0 m)
      (by rw [hlen.2.2.1]; exact hl) (by rw [hlen.2.2.2]; exact hr)
    simp only [write_halo_vars]
    rw [h.1, h.2, hat.1, hat.2]
    by_cases hp : gp.get_dim_posn (ctx.domain_dims.getD k "") ≥ 0
    · simp only [List.filterMap_cons, hp, if_true, List.foldl_cons]
      refine ⟨?_, ?_⟩ <;> trivial
    · simp only [List.filterMap_cons, hp, if_false]
      refine ⟨?_, ?_⟩ <;> trivial

/-- C20. After `find_write_halos` on a scratch bundle, for every domain dimension `j`,
`max_lh[j]` is the maximum of 0 and the left halo sizes, in dimension `j`, of the thread-0
instances of the output scratch variables that have dimension `j`, and `max_rh[j]` the
same for the right halo sizes; a variable without dimension `j` contributes nothing; when
no output variable has dimension `j` both are 0; both are never negative. -/
theorem find_write_halos_is_max (ctx : StencilContext) (sg0 sg : StencilBundleBase)
    (hfw : sg0.find_write_halos ctx = some sg) :
    ∀ j, j < ctx.num_domain_dims →
      idx_get sg.max_lh j =
        max_write_halo_spec ctx.domain_dims sg0.output_scratch_vecs true j ∧
      idx_get sg.max_rh j =
        max_write_halo_spec ctx.domain_dims sg0.output_scratch_vecs false j ∧
      0 ≤ idx_get sg.max_lh j ∧ 0 ≤ idx_get sg.max_rh j ∧
      ((∀ gp, gp ∈ sg0.output_scratch_vecs →
          gp.get_dim_posn (ctx.domain_dims.getD j "") < 0) →
        idx_get sg.max_lh j = 0 ∧ idx_get sg.max_rh j = 0) := by
  intro j hj
  have hnn := (find_write_halos_nonneg ctx sg0 sg hfw).2.2.2 j
  have hval : idx_get sg.max_lh j =
        max_write_halo_spec ctx.domain_dims sg0.output_scratch_vecs true j ∧
      idx_get sg.max_rh j =
        max_write_halo_spec ctx.domain_dims sg0.output_scratch_vecs false j := by
    unfold StencilBundleBase.find_write_halos at hfw
    by_cases hs : sg0.is_scratch = true
    · simp only [hs, Bool.not_true, Bool.false_eq_true, if_false, Option.some.injEq] at hfw
      subst hfw
      have h := write_halo_vars_at ctx sg0.output_scratch_vecs
        (List.replicate ctx.num_domain_dims 0, List.replicate ctx.num_domain_dims 0) j hj
        (by simpa using hj) (by simpa using hj)
      simp only [idx_get_replicate_zero] at h
      exact ⟨h.1, h.2⟩
    · simp [hs] at hfw
  refine ⟨hval.1, hval.2, hnn.1, hnn.2, fun hno => ?_⟩
  have hnil : ∀ left : Bool,
      max_write_halo_spec ctx.domain_dims sg0.output_scratch_vecs left j = 0 := by
    intro left
    unfold max_write_halo_spec
    have hf : (sg0.output_scratch_vecs.filterMap fun gp =>
        if gp.get_dim_posn (ctx.domain_dims.getD j "") ≥ 0 then
          some (if left = true then
              gp.get_left_halo_size (gp.get_dim_posn (ctx.domain_dims.getD j ""))
            else gp.get_right_halo_size (gp.get_dim_posn (ctx.domain_dims.getD j "")))
        else none) = [] := by
      rw [List.filterMap_eq_nil_iff]
      intro gp hgp
      have := hno gp hgp
      rw [if_neg (not_le.mpr this)]
    rw [hf]
    rfl
  rw [hval.1, hval.2, hnil true, hnil false]
  exact ⟨rfl, rfl⟩

/-- C20, witness: domain dimensions `x`, `y`; the output scratch variables are `u` over
`(x, y)` with left halos `(1, 2)` and right halos `(3, 0)`, and `w` over `(y)` with left
halo 5 and right halo 1. Then `max_lh = [1, 5]` and `max_rh = [3, 1]`: `w` contributes
nothing in `x`. -/
theorem find_write_halos_is_max_witness :
    (StencilBundleBase.find_write_halos
        { num_domain_dims := 2, domain_dims := ["x", "y"], fold_pts := [1, 1],
          num_inner_threads := 1, settings_strides := fun _ _ _ s => s,
          micro_block_loops := fun s => [s], omp_get_thread_num := fun _ => 0 }
        { name := "s", is_scratch := true,
          _bundle_bb := { bb_begin := [0, 0], bb_end := [4, 4], bb_num_points := 16 },
          _bb_list := [], is_in_valid_step := fun _ => true,
          get_output_step_index := fun _ => none, output_var_ptrs := [],
          output_scratch_vecs :=
            [{ dim_names := ["x", "y"], left_halo := [1, 2], right_halo := [3, 0] },
             { dim_names := ["y"], left_halo := [5], right_halo := [1] }],
          max_lh := [], max_rh := [] }).map (fun sg => (sg.max_lh, sg.max_rh)) = some ([1, 5], [3, 1]) ∧
    max_write_halo_spec ["x", "y"]
      [{ dim_names := ["x", "y"], left_halo := [1, 2], right_halo := [3, 0] },
       { dim_names := ["y"], left_halo := [5], right_halo := [1] }] true 0 = 1 ∧
    idx_get [1, 5] 1 =
      max_write_halo_spec ["x", "y"]
        [{ dim_names := ["x", "y"], left_halo := [1, 2], right_halo := [3, 0] },
         { dim_names := ["y"], left_halo := [5], right_halo := [1] }] true 1 :=
  ⟨by decide, by decide,
   (find_write_halos_is_max
        { num_domain_dims := 2, domain_dims := ["x", "y"], fold_pts := [1, 1],
          num_inner_threads := 1, settings_strides := fun _ _ _ s => s,
          micro_block_loops := fun s => [s], omp_get_thread_num := fun _ => 0 }
        { name := "s", is_scratch := true,
          _bundle_bb := { bb_begin := [0, 0], bb_end := [4, 4], bb_num_points := 16 },
          _bb_list := [], is_in_valid_step := fun _ => true,
          get_output_step_index := fun _ => none, output_var_ptrs := [],
          output_scratch_vecs :=
            [{ dim_names := ["x", "y"], left_halo := [1, 2], right_halo := [3, 0] },
             { dim_names := ["y"], left_halo := [5], right_halo := [1] }],
          max_lh := [], max_rh := [] }
        { name := "s", is_scratch := true,
          _bundle_bb := { bb_begin := [0, 0], bb_end := [4, 4], bb_num_points := 16 },
          _bb_list := [], is_in_valid_step := fun _ => true,
          get_output_step_index := fun _ => none, output_var_ptrs := [],
          output_scratch_vecs :=
            [{ dim_names := ["x", "y"], left_halo := [1, 2], right_halo := [3, 0] },
             { dim_names := ["y"], left_halo := [5], right_halo := [1] }],
          max_lh := [1, 5], max_rh := [3, 1] }
        rfl 1 (by decide)).1⟩

/-! ## Work statistics of a stage -/

theorem sum_map_swap {α β : Type} (A : List α) (B : List β) (f : α → β → idx_t) :
    (A.map fun a => (B.map fun b => f a b).sum).sum =
      (B.map fun b => (A.map fun a => f a b).sum).sum := by
  induction A with
  | nil => simp
  | cons a A ih =>
    simp only [List.map_cons, List.sum_cons, ih]
    rw [← List.sum_map_add]

theorem sum_map_zero_of_not_mem {α : Type} (name : α → String) (g : α → idx_t) (k : String)
    (l : List α) (h : k ∉ l.map name) :
    (l.map fun r => if k = name r then g r else 0).sum = 0 := by
  induction l with
  | nil => rfl
  | cons a l ih =>
    simp only [List.map_cons, List.mem_cons, not_or] at h
    simp only [List.map_cons, List.sum_cons, if_neg h.1, ih h.2, add_zero]

/-- With pairwise distinct names, reading back under every name what was added under the
names gives every amount exactly once. -/
theorem sum_by_name_nodup {α : Type} (name : α → String) (g : α → idx_t) (l : List α)
    (h : (l.map name).Nodup) :
    (l.map fun x => (l.map fun r => if name x = name r then g r else 0).sum).sum =
      (l.map g).sum := by
  induction l with
  | nil => rfl
  | cons a l ih =>
    simp only [List.map_cons, List.nodup_cons] at h
    simp only [List.map_cons, List.sum_cons, if_true]
    rw [sum_map_zero_of_not_mem name g (name a) l h.1, add_zero]
    congr 1
    rw [List.sum_map_add]
    rw [ih h.2]
    have hz : (l.map fun x => if name x = name a then g a else 0).sum = 0 := by
      have hall : ∀ x ∈ l, (if name x = name a then g a else 0) = 0 := by
        intro x hx
        have : name x ≠ name a := by
          intro e
          exact h.1 (e ▸ List.mem_map_of_mem name hx)
        rw [if_neg this]
      rw [List.map_congr_left hall]
      simp
    rw [hz, zero_add]

/-- The maps after the loop over the boxes of a needed bundle. -/
theorem stats_fnbb_loop_maps (fbb : BoundingBox) (rsg : StencilBundleBase)
    (l : List BoundingBox) (s : BundleStats) (k : String) :
    (stats_fnbb_loop fbb rsg l s).npts k =
      s.npts k + (if k = rsg.name then
        (l.map fun fnbb => (fbb.intersection_with fnbb).bb_num_points).sum else 0) ∧
    (stats_fnbb_loop fbb rsg l s).reads k =
      s.reads k + (if k = rsg.name then
        (l.map fun fnbb =>
          rsg.get_scalar_points_read * (fbb.intersection_with fnbb).bb_num_points).sum
        else 0) ∧
    (stats_fnbb_loop fbb rsg l s).writes k =
      s.writes k + (if k = rsg.name then
        (l.map fun fnbb =>
          rsg.get_scalar_points_written * (fbb.intersection_with fnbb).bb_num_points).sum
        else 0) ∧
    (stats_fnbb_loop fbb rsg l s).fpops k =
      s.fpops k + (if k = rsg.name then
        (l.map fun fnbb =>
          rsg.get_scalar_fp_ops * (fbb.intersection_with fnbb).bb_num_points).sum
        else 0) := by
  induction l generalizing s with
  | nil => simp [stats_fnbb_loop]
  | cons fnbb rest ih =>
    simp only [stats_fnbb_loop]
    have h := ih
      ⟨bstats_add s.npts rsg.name (fbb.intersection_with fnbb).bb_num_points,
       bstats_add s.writes rsg.name
         (rsg.get_scalar_points_written * (fbb.intersection_with fnbb).bb_num_points),
       bstats_add s.reads rsg.name
         (rsg.get_scalar_points_read * (fbb.intersection_with fnbb).bb_num_points),
       bstats_add s.fpops rsg.name
         (rsg.get_scalar_fp_ops * (fbb.intersection_with fnbb).bb_num_points)⟩
    rw [h.1, h.2.1, h.2.2.1, h.2.2.2]
    by_cases hk : k = rsg.name
    · simp only [bstats_add, hk, if_true, List.map_cons, List.sum_cons]
      refine ⟨?_, ?_, ?_, ?_⟩ <;> ring
    · simp only [bstats_add, hk, if_false, add_zero]
      exact ⟨trivial, trivial, trivial, trivial⟩

/-- The maps after the loop over the needed bundles, for one box of the bundle. -/
theorem stats_rsg_loop_maps (fbb : BoundingBox) (l : List StencilBundleBase)
    (s : BundleStats) (k : String) :
    (stats_rsg_loop fbb l s).npts k =
      s.npts k + (l.map fun r => if k = r.name then
        (r.get_bbs.map fun fnbb => (fbb.intersection_with fnbb).bb_num_points).sum
        else 0).sum ∧
    (stats_rsg_loop fbb l s).reads k =
      s.reads k + (l.map fun r => if k = r.name then
        (r.get_bbs.map fun fnbb =>
          r.get_scalar_points_read * (fbb.intersection_with fnbb).bb_num_points).sum
        else 0).sum ∧
    (stats_rsg_loop fbb l s).writes k =
      s.writes k + (l.map fun r => if k = r.name then
        (r.get_bbs.map fun fnbb =>
          r.get_scalar_points_written * (fbb.intersection_with fnbb).bb_num_points).sum
        else 0).sum ∧
    (stats_rsg_loop fbb l s).fpops k =
      s.fpops k + (l.map fun r => if k = r.name then
        (r.get_bbs.map fun fnbb =>
          r.get_scalar_fp_ops * (fbb.intersection_with fnbb).bb_num_points).sum
        else 0).sum := by
  induction l generalizing s with
  | nil => simp [stats_rsg_loop]
  | cons rsg rest ih =>
    simp only [stats_rsg_loop]
    have h := ih (stats_fnbb_loop fbb rsg rsg.get_bbs s)
    have h0 := stats_fnbb_loop_maps fbb rsg rsg.get_bbs s k
    rw [h.1, h.2.1, h.2.2.1, h.2.2.2, h0.1, h0.2.1, h0.2.2.1, h0.2.2.2]
    simp only [List.map_cons, List.sum_cons]
    refine ⟨?_, ?_, ?_, ?_⟩ <;> ring

/-- The maps after the loop over the boxes of the bundle. -/
theorem stats_fbb_loop_maps (sg_list : List StencilBundleBase) (l : List BoundingBox)
    (s : BundleStats) (k : String) :
    (stats_fbb_loop sg_list l s).npts k =
      s.npts k + (l.map fun fbb => (sg_list.map fun r => if k = r.name then
        (r.get_bbs.map fun fnbb => (fbb.intersection_with fnbb).bb_num_points).sum
        else 0).sum).sum ∧
    (stats_fbb_loop sg_list l s).reads k =
      s.reads k + (l.map fun fbb => (sg_list.map fun r => if k = r.name then
        (r.get_bbs.map fun fnbb =>
          r.get_scalar_points_read * (fbb.intersection_with fnbb).bb_num_points).sum
        else 0).sum).sum ∧
    (stats_fbb_loop sg_list l s).writes k =
      s.writes k + (l.map fun fbb => (sg_list.map fun r => if k = r.name then
        (r.get_bbs.map fun fnbb =>
          r.get_scalar_points_written * (fbb.intersection_with fnbb).bb_num_points).sum
        else 0).sum).sum ∧
    (stats_fbb_loop sg_list l s).fpops k =
      s.fpops k + (l.map fun fbb => (sg_list.map fun r => if k = r.name then
        (r.get_bbs.map fun fnbb =>
          r.get_scalar_fp_ops * (fbb.intersection_with fnbb).bb_num_points).sum
        else 0).sum).sum := by
  induction l generalizing s with
  | nil => simp [stats_fbb_loop]
  | cons fbb rest ih =>
    simp only [stats_fbb_loop]
    have h := ih (stats_rsg_loop fbb sg_list s)
    have h0 := stats_rsg_loop_maps fbb sg_list s k
    rw [h.1, h.2.1, h.2.2.1, h.2.2.2, h0.1, h0.2.1, h0.2.2.1, h0.2.2.2]
    simp only [List.map_cons, List.sum_cons]
    refine ⟨?_, ?_, ?_, ?_⟩ <;> ring

/-- The counters after the loop that adds the entries of the maps. -/
theorem stage_sum_loop_counters (stats : BundleStats) (l : List StencilBundleBase)
    (st : Stage) :
    (stage_sum_loop stats l st).num_reads_per_step =
      st.num_reads_per_step + (l.map fun r => stats.reads r.name).sum ∧
    (stage_sum_loop stats l st).num_writes_per_step =
      st.num_writes_per_step + (l.map fun r => stats.writes r.name).sum ∧
    (stage_sum_loop stats l st).num_fpops_per_step =
      st.num_fpops_per_step + (l.map fun r => stats.fpops r.name).sum ∧
    (stage_sum_loop stats l st).bundles = st.bundles := by
  induction l generalizing st with
  | nil => simp [stage_sum_loop]
  | cons rsg rest ih =>
    simp only [stage_sum_loop]
    have h := ih
      ⟨st.bundles, st.num_reads_per_step + stats.reads rsg.name,
       st.num_writes_per_step + stats.writes rsg.name,
       st.num_fpops_per_step + stats.fpops rsg.name,
       st.tot_reads_per_step, st.tot_writes_per_step, st.tot_fpops_per_step⟩
    rw [h.1, h.2.1, h.2.2.1, h.2.2.2]
    simp only [List.map_cons, List.sum_cons]
    refine ⟨?_, ?_, ?_, trivial⟩ <;> ring

theorem sum_over_names_of_maps (sg_list : List StencilBundleBase) (bbs : List BoundingBox)
    (W : BoundingBox → StencilBundleBase → idx_t)
    (hnd : (sg_list.map fun r => r.name).Nodup) :
    (sg_list.map fun x =>
      (0 : idx_t) + (bbs.map fun fbb =>
        (sg_list.map fun r => if x.name = r.name then W fbb r else 0).sum).sum).sum =
      (bbs.map fun fbb => (sg_list.map fun r => W fbb r).sum).sum := by
  simp only [zero_add]
  rw [sum_map_swap]
  congr 1
  apply List.map_congr_left
  intro fbb _
  exact sum_by_name_nodup (fun r : StencilBundleBase => r.name) (W fbb) sg_list hnd

/-- The counters after the loop over the bundles of the stage. -/
theorem stage_bundle_loop_counters (l : List StageBundle) (st : Stage)
    (hnd : ∀ b, b ∈ l → (b.reqd_bundles.map fun r => r.name).Nodup) :
    (stage_bundle_loop l st).num_reads_per_step =
      st.num_reads_per_step + work_sum_spec (fun r => r.get_scalar_points_read) l ∧
    (stage_bundle_loop l st).num_writes_per_step =
      st.num_writes_per_step + work_sum_spec (fun r => r.get_scalar_points_written) l ∧
    (stage_bundle_loop l st).num_fpops_per_step =
      st.num_fpops_per_step + work_sum_spec (fun r => r.get_scalar_fp_ops) l := by
  induction l generalizing st with
  | nil => simp [stage_bundle_loop, work_sum_spec]
  | cons b rest ih =>
    have hb := hnd b (List.mem_cons_self b rest)
    have hrest := ih
      (stage_sum_loop
        (stats_fbb_loop b.reqd_bundles b.sg.get_bbs
          ⟨fun _ => 0, fun _ => 0, fun _ => 0, fun _ => 0⟩) b.reqd_bundles st)
      (fun b1 hb1 => hnd b1 (List.mem_cons_of_mem b hb1))
    have hsum := stage_sum_loop_counters
      (stats_fbb_loop b.reqd_bundles b.sg.get_bbs
        ⟨fun _ => 0, fun _ => 0, fun _ => 0, fun _ => 0⟩) b.reqd_bundles st
    have hmaps := fun k => stats_fbb_loop_maps b.reqd_bundles b.sg.get_bbs
      ⟨fun _ => 0, fun _ => 0, fun _ => 0, fun _ => 0⟩ k
    have hr := sum_over_names_of_maps b.reqd_bundles b.sg.get_bbs
      (fun fbb r => (r.get_bbs.map fun fnbb =>
        r.get_scalar_points_read * (fbb.intersection_with fnbb).bb_num_points).sum) hb
    have hw := sum_over_names_of_maps b.reqd_bundles b.sg.get_bbs
      (fun fbb r => (r.get_bbs.map fun fnbb =>
        r.get_scalar_points_written * (fbb.intersection_with fnbb).bb_num_points).sum) hb
    have hf := sum_over_names_of_maps b.reqd_bundles b.sg.get_bbs
      (fun fbb r => (r.get_bbs.map fun fnbb =>
        r.get_scalar_fp_ops * (fbb.intersection_with fnbb).bb_num_points).sum) hb
    simp only [stage_bundle_loop]
    rw [hrest.1, hrest.2.1, hrest.2.2, hsum.1, hsum.2.1, hsum.2.2.1]
    simp only [hmaps]
    rw [hr, hw, hf]
    simp only [work_sum_spec, List.map_cons, List.sum_cons]
    refine ⟨?_, ?_, ?_⟩ <;> ring

/-- C17. After `init_work_stats` on a stage in which, for every bundle, the required
bundles have pairwise distinct names, `num_reads_per_step` is the sum, over every bundle
of the stage, every box `fbb` of the bundle, every required bundle `r` of the bundle and
every box `fnbb` of `r`, of the reads of `r` per point times the number of points of the
intersection of `fbb` and `fnbb`; `num_writes_per_step` and `num_fpops_per_step` are the
same sums with the writes and the FP operations of `r` per point; the totals are what the
reduction over the ranks makes of them. -/
theorem init_work_stats_sums (sum_over_ranks : idx_t → idx_t) (self : Stage)
    (hnd : ∀ b, b ∈ self.bundles → (b.reqd_bundles.map fun r => r.name).Nodup) :
    (self.init_work_stats sum_over_ranks).num_reads_per_step =
      work_sum_spec (fun r => r.get_scalar_points_read) self.bundles ∧
    (self.init_work_stats sum_over_ranks).num_writes_per_step =
      work_sum_spec (fun r => r.get_scalar_points_written) self.bundles ∧
    (self.init_work_stats sum_over_ranks).num_fpops_per_step =
      work_sum_spec (fun r => r.get_scalar_fp_ops) self.bundles ∧
    (self.init_work_stats sum_over_ranks).tot_reads_per_step =
      sum_over_ranks (work_sum_spec (fun r => r.get_scalar_points_read) self.bundles) ∧
    (self.init_work_stats sum_over_ranks).tot_writes_per_step =
      sum_over_ranks (work_sum_spec (fun r => r.get_scalar_points_written) self.bundles) ∧
    (self.init_work_stats sum_over_ranks).tot_fpops_per_step =
      sum_over_ranks (work_sum_spec (fun r => r.get_scalar_fp_ops) self.bundles) := by
  have h := stage_bundle_loop_counters self.bundles
    ⟨self.bundles, 0, 0, 0, self.tot_reads_per_step, self.tot_writes_per_step,
      self.tot_fpops_per_step⟩ hnd
  simp only [zero_add] at h
  unfold Stage.init_work_stats
  simp only
  rw [h.1, h.2.1, h.2.2]
  exact ⟨rfl, rfl, rfl, rfl, rfl, rfl⟩

/-- C17, witness of the spec: the bundle `b` with the box `[0,10) x [0,10)` requires the
scratch bundle `s` with the box `[0,10) x [0,5)` and the costs (3, 1, 5) per point; the
boxes overlap in 50 points and, `b` itself having no cost, the stage reports 150 reads,
50 writes and 250 FP operations, whatever the counters held before. -/
theorem init_work_stats_sums_witness :
    (Stage.init_work_stats (fun x => x)
      { bundles :=
          [{ sg :=
              { name := "b", is_scratch := false,
                _bundle_bb := { bb_begin := [0, 0], bb_end := [10, 10], bb_num_points := 100 },
                _bb_list := [{ bb_begin := [0, 0], bb_end := [10, 10], bb_num_points := 100 }],
                is_in_valid_step := fun _ => true, get_output_step_index := fun t => some (t + 1),
                output_var_ptrs := [0], output_scratch_vecs := [], max_lh := [], max_rh := [] },
             reqd_bundles :=
               [{ name := "s", is_scratch := true,
                  _bundle_bb := { bb_begin := [0, 0], bb_end := [10, 5], bb_num_points := 50 },
                  _bb_list := [{ bb_begin := [0, 0], bb_end := [10, 5], bb_num_points := 50 }],
                  is_in_valid_step := fun _ => true, get_output_step_index := fun _ => none,
                  output_var_ptrs := [], output_scratch_vecs := [], max_lh := [0, 0],
                  max_rh := [0, 0], get_scalar_points_read := 3, get_scalar_points_written := 1,
                  get_scalar_fp_ops := 5 },
                { name := "b", is_scratch := false,
                  _bundle_bb := { bb_begin := [0, 0], bb_end := [10, 10], bb_num_points := 100 },
                  _bb_list := [{ bb_begin := [0, 0], bb_end := [10, 10], bb_num_points := 100 }],
                  is_in_valid_step := fun _ => true, get_output_step_index := fun t => some (t + 1),
                  output_var_ptrs := [0], output_scratch_vecs := [], max_lh := [], max_rh := [] }] }],
        num_reads_per_step := 7, num_writes_per_step := 7, num_fpops_per_step := 7,
        tot_reads_per_step := 0, tot_writes_per_step := 0, tot_fpops_per_step := 0 }).num_reads_per_step = 150 ∧
    (Stage.init_work_stats (fun x => x)
      { bundles :=
          [{ sg :=
              { name := "b", is_scratch := false,
                _bundle_bb := { bb_begin := [0, 0], bb_end := [10, 10], bb_num_points := 100 },
                _bb_list := [{ bb_begin := [0, 0], bb_end := [10, 10], bb_num_points := 100 }],
                is_in_valid_step := fun _ => true, get_output_step_index := fun t => some (t + 1),
                output_var_ptrs := [0], output_scratch_vecs := [], max_lh := [], max_rh := [] },
             reqd_bundles :=
               [{ name := "s", is_scratch := true,
                  _bundle_bb := { bb_begin := [0, 0], bb_end := [10, 5], bb_num_points := 50 },
                  _bb_list := [{ bb_begin := [0, 0], bb_end := [10, 5], bb_num_points := 50 }],
                  is_in_valid_step := fun _ => true, get_output_step_index := fun _ => none,
                  output_var_ptrs := [], output_scratch_vecs := [], max_lh := [0, 0],
                  max_rh := [0, 0], get_scalar_points_read := 3, get_scalar_points_written := 1,
                  get_scalar_fp_ops := 5 },
                { name := "b", is_scratch := false,
                  _bundle_bb := { bb_begin := [0, 0], bb_end := [10, 10], bb_num_points := 100 },
                  _bb_list := [{ bb_begin := [0, 0], bb_end := [10, 10], bb_num_points := 100 }],
                  is_in_valid_step := fun _ => true, get_output_step_index := fun t => some (t + 1),
                  output_var_ptrs := [0], output_scratch_vecs := [], max_lh := [], max_rh := [] }] }],
        num_reads_per_step := 7, num_writes_per_step := 7, num_fpops_per_step := 7,
        tot_reads_per_step := 0, tot_writes_per_step := 0, tot_fpops_per_step := 0 }).num_writes_per_step = 50 ∧
    (Stage.init_work_stats (fun x => x)
      { bundles :=
          [{ sg :=
              { name := "b", is_scratch := false,
                _bundle_bb := { bb_begin := [0, 0], bb_end := [10, 10], bb_num_points := 100 },
                _bb_list := [{ bb_begin := [0, 0], bb_end := [10, 10], bb_num_points := 100 }],
                is_in_valid_step := fun _ => true, get_output_step_index := fun t => some (t + 1),
                output_var_ptrs := [0], output_scratch_vecs := [], max_lh := [], max_rh := [] },
             reqd_bundles :=
               [{ name := "s", is_scratch := true,
                  _bundle_bb := { bb_begin := [0, 0], bb_end := [10, 5], bb_num_points := 50 },
                  _bb_list := [{ bb_begin := [0, 0], bb_end := [10, 5], bb_num_points := 50 }],
                  is_in_valid_step := fun _ => true, get_output_step_index := fun _ => none,
                  output_var_ptrs := [], output_scratch_vecs := [], max_lh := [0, 0],
                  max_rh := [0, 0], get_scalar_points_read := 3, get_scalar_points_written := 1,
                  get_scalar_fp_ops := 5 },
                { name := "b", is_scratch := false,
                  _bundle_bb := { bb_begin := [0, 0], bb_end := [10, 10], bb_num_points := 100 },
                  _bb_list := [{ bb_begin := [0, 0], bb_end := [10, 10], bb_num_points := 100 }],
                  is_in_valid_step := fun _ => true, get_output_step_index := fun t => some (t + 1),
                  output_var_ptrs := [0], output_scratch_vecs := [], max_lh := [], max_rh := [] }] }],
        num_reads_per_step := 7, num_writes_per_step := 7, num_fpops_per_step := 7,
        tot_reads_per_step := 0, tot_writes_per_step := 0, tot_fpops_per_step := 0 }).num_fpops_per_step = 250 ∧
    (Stage.init_work_stats (fun x => x)
      { bundles :=
          [{ sg :=
              { name := "b", is_scratch := false,
                _bundle_bb := { bb_begin := [0, 0], bb_end := [10, 10], bb_num_points := 100 },
                _bb_list := [{ bb_begin := [0, 0], bb_end := [10, 10], bb_num_points := 100 }],
                is_in_valid_step := fun _ => true, get_output_step_index := fun t => some (t + 1),
                output_var_ptrs := [0], output_scratch_vecs := [], max_lh := [], max_rh := [] },
             reqd_bundles :=
               [{ name := "s", is_scratch := true,
                  _bundle_bb := { bb_begin := [0, 0], bb_end := [10, 5], bb_num_points := 50 },
                  _bb_list := [{ bb_begin := [0, 0], bb_end := [10, 5], bb_num_points := 50 }],
                  is_in_valid_step := fun _ => true, get_output_step_index := fun _ => none,
                  output_var_ptrs := [], output_scratch_vecs := [], max_lh := [0, 0],
                  max_rh := [0, 0], get_scalar_points_read := 3, get_scalar_points_written := 1,
                  get_scalar_fp_ops := 5 },
                { name := "b", is_scratch := false,
                  _bundle_bb := { bb_begin := [0, 0], bb_end := [10, 10], bb_num_points := 100 },
                  _bb_list := [{ bb_begin := [0, 0], bb_end := [10, 10], bb_num_points := 100 }],
                  is_in_valid_step := fun _ => true, get_output_step_index := fun t => some (t + 1),
                  output_var_ptrs := [0], output_scratch_vecs := [], max_lh := [], max_rh := [] }] }],
        num_reads_per_step := 7, num_writes_per_step := 7, num_fpops_per_step := 7,
        tot_reads_per_step := 0, tot_writes_per_step := 0, tot_fpops_per_step := 0 }).num_reads_per_step =
      work_sum_spec (fun r => r.get_scalar_points_read)
        [{ sg :=
              { name := "b", is_scratch := false,
                _bundle_bb := { bb_begin := [0, 0], bb_end := [10, 10], bb_num_points := 100 },
                _bb_list := [{ bb_begin := [0, 0], bb_end := [10, 10], bb_num_points := 100 }],
                is_in_valid_step := fun _ => true, get_output_step_index := fun t => some (t + 1),
                output_var_ptrs := [0], output_scratch_vecs := [], max_lh := [], max_rh := [] },
           reqd_bundles :=
               [{ name := "s", is_scratch := true,
                  _bundle_bb := { bb_begin := [0, 0], bb_end := [10, 5], bb_num_points := 50 },
                  _bb_list := [{ bb_begin := [0, 0], bb_end := [10, 5], bb_num_points := 50 }],
                  is_in_valid_step := fun _ => true, get_output_step_index := fun _ => none,
                  output_var_ptrs := [], output_scratch_vecs := [], max_lh := [0, 0],
                  max_rh := [0, 0], get_scalar_points_read := 3, get_scalar_points_written := 1,
                  get_scalar_fp_ops := 5 },
                { name := "b", is_scratch := false,
                  _bundle_bb := { bb_begin := [0, 0], bb_end := [10, 10], bb_num_points := 100 },
                  _bb_list := [{ bb_begin := [0, 0], bb_end := [10, 10], bb_num_points := 100 }],
                  is_in_valid_step := fun _ => true, get_output_step_index := fun t => some (t + 1),
                  output_var_ptrs := [0], output_scratch_vecs := [], max_lh := [], max_rh := [] }] }] :=
  ⟨by decide, by decide, by decide,
   (init_work_stats_sums (fun x => x)
      { bundles :=
          [{ sg :=
              { name := "b", is_scratch := false,
                _bundle_bb := { bb_begin := [0, 0], bb_end := [10, 10], bb_num_points := 100 },
                _bb_list := [{ bb_begin := [0, 0], bb_end := [10, 10], bb_num_points := 100 }],
                is_in_valid_step := fun _ => true, get_output_step_index := fun t => some (t + 1),
                output_var_ptrs := [0], output_scratch_vecs := [], max_lh := [], max_rh := [] },
             reqd_bundles :=
               [{ name := "s", is_scratch := true,
                  _bundle_bb := { bb_begin := [0, 0], bb_end := [10, 5], bb_num_points := 50 },
                  _bb_list := [{ bb_begin := [0, 0], bb_end := [10, 5], bb_num_points := 50 }],
                  is_in_valid_step := fun _ => true, get_output_step_index := fun _ => none,
                  output_var_ptrs := [], output_scratch_vecs := [], max_lh := [0, 0],
                  max_rh := [0, 0], get_scalar_points_read := 3, get_scalar_points_written := 1,
                  get_scalar_fp_ops := 5 },
                { name := "b", is_scratch := false,
                  _bundle_bb := { bb_begin := [0, 0], bb_end := [10, 10], bb_num_points := 100 },
                  _bb_list := [{ bb_begin := [0, 0], bb_end := [10, 10], bb_num_points := 100 }],
                  is_in_valid_step := fun _ => true, get_output_step_index := fun t => some (t + 1),
                  output_var_ptrs := [0], output_scratch_vecs := [], max_lh := [], max_rh := [] }] }],
        num_reads_per_step := 7, num_writes_per_step := 7, num_fpops_per_step := 7,
        tot_reads_per_step := 0, tot_writes_per_step := 0, tot_fpops_per_step := 0 }
      (fun b hb => by
        rw [List.mem_singleton.mp hb]
        decide)).1⟩

/-! ## Round-robin assignment of slabs to threads -/

theorem bind_thr_shift (bind_posn : Nat) (bind_slab_pts : idx_t) (nbt : Nat)
    (r : ScanIndices) (s : idx_t) (i : Nat) (hW : 0 < bind_slab_pts)
    (hs : idx_get r.start bind_posn = s + (i : Int) * bind_slab_pts) :
    bind_thr bind_posn bind_slab_pts nbt r =
      ((s + idx_ofs) / bind_slab_pts + (i : Int)) % (nbt : Int) := by
  unfold bind_thr imod_flr idiv_flr
  simp only [hs]
  rw [Int.fdiv_eq_ediv _ (le_of_lt hW), Int.fmod_eq_emod _ (Int.ofNat_nonneg nbt)]
  have e : s + (i : Int) * bind_slab_pts + idx_ofs =
      s + idx_ofs + (i : Int) * bind_slab_pts := by ring
  rw [e, Int.add_mul_ediv_right _ _ (ne_of_gt hW)]

/-- C25. The assignment of slabs to threads is round-robin: for slab width `W > 0` and
`T` threads (in particular `T > 0`), (1) the owner of the slab that starts `W` after a slab starting at `s` is
`(owner(s) + 1) mod T`, for every integer `s`, where
`owner(s) = imod_flr(idiv_flr(s + 0x1000, W), T)`; (2) hence, among `T` consecutive slabs
of width `W` (starting at `s + i * W` for `i < T`), two different slabs never have the
same owner. -/
theorem bind_thr_round_robin (bind_posn : Nat) (bind_slab_pts : idx_t) (nbt : Nat)
    (hW : 0 < bind_slab_pts) :
    (∀ r1 r2 : ScanIndices,
      idx_get r2.start bind_posn = idx_get r1.start bind_posn + bind_slab_pts →
      bind_thr bind_posn bind_slab_pts nbt r2 =
          imod_flr (bind_thr bind_posn bind_slab_pts nbt r1 + 1) (nbt : Int) ∧
      bind_thr bind_posn bind_slab_pts nbt r2 =
          (bind_thr bind_posn bind_slab_pts nbt r1 + 1) % (nbt : Int)) ∧
    (∀ (r1 r2 : ScanIndices) (s : idx_t) (i j : Nat), i < nbt → j < nbt →
      idx_get r1.start bind_posn = s + (i : Int) * bind_slab_pts →
      idx_get r2.start bind_posn = s + (j : Int) * bind_slab_pts →
      bind_thr bind_posn bind_slab_pts nbt r1 = bind_thr bind_posn bind_slab_pts nbt r2 →
      i = j) := by
  constructor
  · intro r1 r2 hs
    have h1 := bind_thr_shift bind_posn bind_slab_pts nbt r1 (idx_get r1.start bind_posn) 0 hW
      (by simp)
    have h2 := bind_thr_shift bind_posn bind_slab_pts nbt r2 (idx_get r1.start bind_posn) 1 hW
      (by simpa using hs)
    have hmod : bind_thr bind_posn bind_slab_pts nbt r2 =
        (bind_thr bind_posn bind_slab_pts nbt r1 + 1) % (nbt : Int) := by
      rw [h1, h2]
      simp only [Nat.cast_zero, add_zero, Nat.cast_one]
      rw [Int.emod_add_cancel_right]
      exact (Int.emod_emod_of_dvd _ (dvd_refl (nbt : Int))).symm
    refine ⟨?_, hmod⟩
    unfold imod_flr
    rw [Int.fmod_eq_emod _ (Int.ofNat_nonneg nbt)]
    exact hmod
  · intro r1 r2 s i j hi hj hs1 hs2 heq
    rw [bind_thr_shift bind_posn bind_slab_pts nbt r1 s i hW hs1,
      bind_thr_shift bind_posn bind_slab_pts nbt r2 s j hW hs2] at heq
    have h0 := Int.emod_eq_emod_iff_emod_sub_eq_zero.mp heq
    have hd : (nbt : Int) ∣ ((i : Int) - (j : Int)) := by
      have := Int.dvd_of_emod_eq_zero h0
      have e : (s + idx_ofs) / bind_slab_pts + (i : Int) -
          ((s + idx_ofs) / bind_slab_pts + (j : Int)) = (i : Int) - (j : Int) := by ring
      rwa [e] at this
    have habs : |(i : Int) - (j : Int)| < (nbt : Int) := by
      rw [abs_lt]
      constructor <;> omega
    have hz := Int.eq_zero_of_abs_lt_dvd hd habs
    omega

/-- C25, witness: slab width 4 and 3 threads; the slabs starting at `-8`, `-4`, `0` have
the owners 2, 0, 1: each owner is the previous one plus 1 modulo 3, and the three slabs
have three different owners. -/
theorem bind_thr_round_robin_witness :
    bind_thr 1 4 3 { begin := [], end_ := [], stride := [], align := [], start := [0, -8],
                     stop := [] } = 2 ∧
    bind_thr 1 4 3 { begin := [], end_ := [], stride := [], align := [], start := [0, -4],
                     stop := [] } = 0 ∧
    bind_thr 1 4 3 { begin := [], end_ := [], stride := [], align := [], start := [0, 0],
                     stop := [] } = 1 ∧
    bind_thr 1 4 3 { begin := [], end_ := [], stride := [], align := [], start := [0, -4],
                     stop := [] } =
      (bind_thr 1 4 3 { begin := [], end_ := [], stride := [], align := [], start := [0, -8],
                        stop := [] } + 1) % ((3 : Nat) : Int) :=
  ⟨by decide, by decide, by decide,
   ((bind_thr_round_robin 1 4 3 (by decide)).1
      { begin := [], end_ := [], stride := [], align := [], start := [0, -8], stop := [] }
      { begin := [], end_ := [], stride := [], align := [], start := [0, -4], stop := [] }
      (by decide)).2⟩

/-! ## Stride and monotonicity of `adjust_span` -/

/-- The stride that `adjust_span` leaves in a domain dimension. -/
theorem adjust_span_loop_stride (fold_pts max_lh max_rh : Indices) (idxs : ScanIndices)
    (cnt j : Nat) (adj : ScanIndices) (j0 : Nat) (h1 : j ≤ j0) (h2 : j0 < j + cnt)
    (hs : stencil_posn j0 < adj.stride.length) :
    idx_get (adjust_span_loop fold_pts max_lh max_rh idxs cnt j adj).stride (stencil_posn j0) =
      (if idx_get idxs.stride (stencil_posn j0) ≥
          idx_get idxs.end_ (stencil_posn j0) - idx_get idxs.begin (stencil_posn j0) then
        round_up_flr (idx_get idxs.end_ (stencil_posn j0) + idx_get max_rh j0)
            (idx_get fold_pts j0) -
          round_down_flr (idx_get idxs.begin (stencil_posn j0) - idx_get max_lh j0)
            (idx_get fold_pts j0)
       else idx_get adj.stride (stencil_posn j0)) := by
  induction cnt generalizing j adj with
  | zero => omega
  | succ cnt ih =>
    simp only [adjust_span_loop]
    by_cases hj : j0 = j
    · subst hj
      have hu := fun a => adjust_span_loop_untouched fold_pts max_lh max_rh idxs cnt (j0 + 1) a
        (stencil_posn j0) (Or.inl (by simp [stencil_posn]))
      split
      · rw [(hu _).2.2]
        simp [idx_get_set_eq _ _ _ hs]
      · rw [(hu _).2.2]
    · have hne : stencil_posn j0 ≠ stencil_posn j := by
        simp only [stencil_posn]
        omega
      split
      · rw [ih (j + 1) _ (by omega) (by omega) (by simpa [idx_set_length] using hs)]
        simp [idx_get_set_ne _ _ _ _ hne]
      · rw [ih (j + 1) _ (by omega) (by omega) (by simpa [idx_set_length] using hs)]

/-- C22. `adjust_span` changes the stride of a domain dimension only when the stride it is
given is at least the width `end - begin` it is given: then the stride returned is the
width returned (adjusted end minus adjusted begin); otherwise the stride is returned
unchanged, as is the stride of the step dimension. Hence a dimension that was covered in
one stride step before the expansion is covered in one step after it. -/
theorem adjust_span_stride (ctx : StencilContext) (sg : StencilBundleBase)
    (outer_thread_idx : Nat) (idxs : ScanIndices)
    (hs : sg.is_scratch = true)
    (hl : sg.max_lh.length = ctx.num_domain_dims)
    (hr : sg.max_rh.length = ctx.num_domain_dims)
    (hb : ctx.num_domain_dims < idxs.begin.length)
    (he : ctx.num_domain_dims < idxs.end_.length)
    (hst : ctx.num_domain_dims < idxs.stride.length) :
    ∃ adj, sg.adjust_span ctx outer_thread_idx idxs = some adj ∧
      idx_get adj.stride step_posn = idx_get idxs.stride step_posn ∧
      ∀ j, j < ctx.num_domain_dims →
        (idx_get idxs.stride (stencil_posn j) ≥
            idx_get idxs.end_ (stencil_posn j) - idx_get idxs.begin (stencil_posn j) →
          idx_get adj.stride (stencil_posn j) =
            idx_get adj.end_ (stencil_posn j) - idx_get adj.begin (stencil_posn j)) ∧
        (idx_get idxs.stride (stencil_posn j) <
            idx_get idxs.end_ (stencil_posn j) - idx_get idxs.begin (stencil_posn j) →
          idx_get adj.stride (stencil_posn j) = idx_get idxs.stride (stencil_posn j)) ∧
        (idx_get idxs.stride (stencil_posn j) ≥
            idx_get idxs.end_ (stencil_posn j) - idx_get idxs.begin (stencil_posn j) →
          idx_get adj.stride (stencil_posn j) ≥
            idx_get adj.end_ (stencil_posn j) - idx_get adj.begin (stencil_posn j)) := by
  refine ⟨adjust_span_loop ctx.fold_pts sg.max_lh sg.max_rh idxs ctx.num_domain_dims 0 idxs,
    ?_, ?_, ?_⟩
  · simp [StencilBundleBase.adjust_span, hs, hl, hr]
  · exact (adjust_span_loop_untouched _ _ _ _ _ _ _ step_posn
      (Or.inl (by simp [step_posn, stencil_posn]))).2.2
  · intro j hj
    have hv := adjust_span_loop_visited ctx.fold_pts sg.max_lh sg.max_rh idxs
      ctx.num_domain_dims 0 idxs j (Nat.zero_le j) (by omega)
      (by simp only [stencil_posn]; omega) (by simp only [stencil_posn]; omega)
    have hsv := adjust_span_loop_stride ctx.fold_pts sg.max_lh sg.max_rh idxs
      ctx.num_domain_dims 0 idxs j (Nat.zero_le j) (by omega)
      (by simp only [stencil_posn]; omega)
    rw [hv.1, hv.2, hsv]
    refine ⟨fun h => ?_, fun h => ?_, fun h => ?_⟩
    · rw [if_pos h]
    · rw [if_neg (not_le.mpr h)]
    · rw [if_pos h]

/-- C22, witness: write halos 2 and 3, fold size 4; the range `[4, 12)` with stride 8 (one
step) becomes `[0, 16)` with stride 16; with stride 2 the stride stays 2. -/
theorem adjust_span_stride_witness :
    StencilBundleBase.adjust_span
        { num_domain_dims := 1, domain_dims := ["x"], fold_pts := [4],
          num_inner_threads := 1, settings_strides := fun _ _ _ s => s,
          micro_block_loops := fun s => [s], omp_get_thread_num := fun _ => 0 }
        { name := "s", is_scratch := true,
          _bundle_bb := { bb_begin := [0], bb_end := [16], bb_num_points := 16 },
          _bb_list := [], is_in_valid_step := fun _ => true,
          get_output_step_index := fun _ => none, output_var_ptrs := [],
          output_scratch_vecs := [], max_lh := [2], max_rh := [3] }
        0
        { begin := [0, 4], end_ := [1, 12], stride := [1, 8], align := [1, 1],
          start := [0, 0], stop := [0, 0] } =
      some { begin := [0, 0], end_ := [1, 16], stride := [1, 16], align := [1, 1],
             start := [0, 0], stop := [0, 0] } ∧
    StencilBundleBase.adjust_span
        { num_domain_dims := 1, domain_dims := ["x"], fold_pts := [4],
          num_inner_threads := 1, settings_strides := fun _ _ _ s => s,
          micro_block_loops := fun s => [s], omp_get_thread_num := fun _ => 0 }
        { name := "s", is_scratch := true,
          _bundle_bb := { bb_begin := [0], bb_end := [16], bb_num_points := 16 },
          _bb_list := [], is_in_valid_step := fun _ => true,
          get_output_step_index := fun _ => none, output_var_ptrs := [],
          output_scratch_vecs := [], max_lh := [2], max_rh := [3] }
        0
        { begin := [0, 4], end_ := [1, 12], stride := [1, 2], align := [1, 1],
          start := [0, 0], stop := [0, 0] } =
      some { begin := [0, 0], end_ := [1, 16], stride := [1, 2], align := [1, 1],
             start := [0, 0], stop := [0, 0] } ∧
    ∃ adj : ScanIndices, idx_get adj.stride 1 = idx_get adj.end_ 1 - idx_get adj.begin 1 :=
  ⟨by decide, by decide,
   (adjust_span_stride
        { num_domain_dims := 1, domain_dims := ["x"], fold_pts := [4],
          num_inner_threads := 1, settings_strides := fun _ _ _ s => s,
          micro_block_loops := fun s => [s], omp_get_thread_num := fun _ => 0 }
        { name := "s", is_scratch := true,
          _bundle_bb := { bb_begin := [0], bb_end := [16], bb_num_points := 16 },
          _bb_list := [], is_in_valid_step := fun _ => true,
          get_output_step_index := fun _ => none, output_var_ptrs := [],
          output_scratch_vecs := [], max_lh := [2], max_rh := [3] }
        0
        { begin := [0, 4], end_ := [1, 12], stride := [1, 8], align := [1, 1],
          start := [0, 0], stop := [0, 0] }
      rfl rfl rfl (by decide) (by decide) (by decide)).elim
    fun adj h => ⟨adj, (h.2.2 0 (by decide)).1 (by decide)⟩⟩

/-- C24. `adjust_span` is monotone in the range it is given: for a scratch bundle and a
domain dimension with positive fold size, if `[b1, e1)` lies inside `[b2, e2)`
(`b2 <= b1` and `e1 <= e2`), then the expanded range of the first lies inside the expanded
range of the second (adjusted `begin2 <=` adjusted `begin1` and adjusted `end1 <=` adjusted
`end2`). -/
theorem adjust_span_monotone (ctx : StencilContext) (sg : StencilBundleBase)
    (outer_thread_idx : Nat) (idxs1 idxs2 : ScanIndices)
    (hs : sg.is_scratch = true)
    (hl : sg.max_lh.length = ctx.num_domain_dims)
    (hr : sg.max_rh.length = ctx.num_domain_dims)
    (hb1 : ctx.num_domain_dims < idxs1.begin.length)
    (he1 : ctx.num_domain_dims < idxs1.end_.length)
    (hb2 : ctx.num_domain_dims < idxs2.begin.length)
    (he2 : ctx.num_domain_dims < idxs2.end_.length) :
    ∃ adj1 adj2, sg.adjust_span ctx outer_thread_idx idxs1 = some adj1 ∧
      sg.adjust_span ctx outer_thread_idx idxs2 = some adj2 ∧
      ∀ j, j < ctx.num_domain_dims → 0 < idx_get ctx.fold_pts j →
        idx_get idxs2.begin (stencil_posn j) ≤ idx_get idxs1.begin (stencil_posn j) →
        idx_get idxs1.end_ (stencil_posn j) ≤ idx_get idxs2.end_ (stencil_posn j) →
        idx_get adj2.begin (stencil_posn j) ≤ idx_get adj1.begin (stencil_posn j) ∧
        idx_get adj1.end_ (stencil_posn j) ≤ idx_get adj2.end_ (stencil_posn j) := by
  refine ⟨adjust_span_loop ctx.fold_pts sg.max_lh sg.max_rh idxs1 ctx.num_domain_dims 0 idxs1,
    adjust_span_loop ctx.fold_pts sg.max_lh sg.max_rh idxs2 ctx.num_domain_dims 0 idxs2,
    ?_, ?_, ?_⟩
  · simp [StencilBundleBase.adjust_span, hs, hl, hr]
  · simp [StencilBundleBase.adjust_span, hs, hl, hr]
  · intro j hj hF hbb hee
    have hv1 := adjust_span_loop_visited ctx.fold_pts sg.max_lh sg.max_rh idxs1
      ctx.num_domain_dims 0 idxs1 j (Nat.zero_le j) (by omega)
      (by simp only [stencil_posn]; omega) (by simp only [stencil_posn]; omega)
    have hv2 := adjust_span_loop_visited ctx.fold_pts sg.max_lh sg.max_rh idxs2
      ctx.num_domain_dims 0 idxs2 j (Nat.zero_le j) (by omega)
      (by simp only [stencil_posn]; omega) (by simp only [stencil_posn]; omega)
    rw [hv1.1, hv1.2, hv2.1, hv2.2]
    constructor
    · apply round_down_flr_greatest _ _ _ hF (round_down_flr_dvd _ _)
      have := round_down_flr_le
        (idx_get idxs2.begin (stencil_posn j) - idx_get sg.max_lh j) _ hF
      linarith
    · apply round_up_flr_least _ _ _ hF (round_up_flr_dvd _ _)
      have := round_up_flr_ge
        (idx_get idxs2.end_ (stencil_posn j) + idx_get sg.max_rh j) _ hF
      linarith

/-- C24, witness: write halos 2 and 3, fold size 4; `[5, 9)` lies inside `[4, 12)`, and
its expansion `[0, 12)` lies inside the expansion `[0, 16)` of `[4, 12)`. -/
theorem adjust_span_monotone_witness :
    StencilBundleBase.adjust_span
        { num_domain_dims := 1, domain_dims := ["x"], fold_pts := [4],
          num_inner_threads := 1, settings_strides := fun _ _ _ s => s,
          micro_block_loops := fun s => [s], omp_get_thread_num := fun _ => 0 }
        { name := "s", is_scratch := true,
          _bundle_bb := { bb_begin := [0], bb_end := [16], bb_num_points := 16 },
          _bb_list := [], is_in_valid_step := fun _ => true,
          get_output_step_index := fun _ => none, output_var_ptrs := [],
          output_scratch_vecs := [], max_lh := [2], max_rh := [3] }
        0
        { begin := [0, 5], end_ := [1, 9], stride := [1, 2], align := [1, 1],
          start := [0, 0], stop := [0, 0] } =
      some { begin := [0, 0], end_ := [1, 12], stride := [1, 2], align := [1, 1],
             start := [0, 0], stop := [0, 0] } ∧
    ∃ adj1 adj2 : ScanIndices,
      idx_get adj2.begin 1 ≤ idx_get adj1.begin 1 ∧ idx_get adj1.end_ 1 ≤ idx_get adj2.end_ 1 :=
  ⟨by decide,
   (adjust_span_monotone
        { num_domain_dims := 1, domain_dims := ["x"], fold_pts := [4],
          num_inner_threads := 1, settings_strides := fun _ _ _ s => s,
          micro_block_loops := fun s => [s], omp_get_thread_num := fun _ => 0 }
        { name := "s", is_scratch := true,
          _bundle_bb := { bb_begin := [0], bb_end := [16], bb_num_points := 16 },
          _bb_list := [], is_in_valid_step := fun _ => true,
          get_output_step_index := fun _ => none, output_var_ptrs := [],
          output_scratch_vecs := [], max_lh := [2], max_rh := [3] }
        0
        { begin := [0, 5], end_ := [1, 9], stride := [1, 2], align := [1, 1],
          start := [0, 0], stop := [0, 0] }
        { begin := [0, 4], end_ := [1, 12], stride := [1, 2], align := [1, 1],
          start := [0, 0], stop := [0, 0] }
      rfl rfl rfl (by decide) (by decide) (by decide) (by decide)).elim
    fun adj1 h1 => h1.elim fun adj2 h =>
      ⟨adj1, adj2, h.2.2 0 (by decide) (by decide) (by decide) (by decide)⟩⟩

/-! ## Classification of the variables of a bundle -/

theorem classify_inputs_mem (is_domain_var : Nat → Bool) (sg : StencilBundleBase)
    (l : List Nat) (c : VarClasses) (gp : Nat) :
    (gp ∈ (classify_inputs is_domain_var sg l c).idvars ↔
      gp ∈ c.idvars ∨ (gp ∈ l ∧ gp ∉ sg.output_var_ptrs ∧ is_domain_var gp = true)) ∧
    (gp ∈ (classify_inputs is_domain_var sg l c).imvars ↔
      gp ∈ c.imvars ∨ (gp ∈ l ∧ gp ∉ sg.output_var_ptrs ∧ is_domain_var gp = false)) ∧
    (gp ∈ (classify_inputs is_domain_var sg l c).iodvars ↔
      gp ∈ c.iodvars ∨ (gp ∈ l ∧ gp ∈ sg.output_var_ptrs ∧ is_domain_var gp = true)) ∧
    (gp ∈ (classify_inputs is_domain_var sg l c).iomvars ↔
      gp ∈ c.iomvars ∨ (gp ∈ l ∧ gp ∈ sg.output_var_ptrs ∧ is_domain_var gp = false)) ∧
    (classify_inputs is_domain_var sg l c).odvars = c.odvars ∧
    (classify_inputs is_domain_var sg l c).omvars = c.omvars := by
  induction l generalizing c with
  | nil => simp [classify_inputs]
  | cons x rest ih =>
    simp only [classify_inputs]
    by_cases ho : x ∈ sg.output_var_ptrs
    · cases hd : is_domain_var x
      · have h := ih ⟨c.idvars, c.imvars, c.odvars, c.omvars, c.iodvars, c.iomvars ++ [x]⟩
        simp only [ho, hd, decide_True, if_true, Bool.false_eq_true, if_false]
        refine ⟨?_, ?_, ?_, ?_, h.2.2.2.2.1, h.2.2.2.2.2⟩
        · rw [h.1]
          by_cases hx : gp = x
          · subst hx
            simp [ho]
          · simp [hx]
        · rw [h.2.1]
          by_cases hx : gp = x
          · subst hx
            simp [ho]
          · simp [hx]
        · rw [h.2.2.1]
          by_cases hx : gp = x
          · subst hx
            simp [hd]
          · simp [hx]
        · rw [h.2.2.2.1]
          by_cases hx : gp = x
          · subst hx
            simp [ho, hd]
          · simp [hx]
      · have h := ih ⟨c.idvars, c.imvars, c.odvars, c.omvars, c.iodvars ++ [x], c.iomvars⟩
        simp only [ho, hd, decide_True, if_true]
        refine ⟨?_, ?_, ?_, ?_, h.2.2.2.2.1, h.2.2.2.2.2⟩
        · rw [h.1]
          by_cases hx : gp = x
          · subst hx
            simp [ho]
          · simp [hx]
        · rw [h.2.1]
          by_cases hx : gp = x
          · subst hx
            simp [ho]
          · simp [hx]
        · rw [h.2.2.1]
          by_cases hx : gp = x
          · subst hx
            simp [ho, hd]
          · simp [hx]
        · rw [h.2.2.2.1]
          by_cases hx : gp = x
          · subst hx
            simp [hd]
          · simp [hx]
    · cases hd : is_domain_var x
      · have h := ih ⟨c.idvars, c.imvars ++ [x], c.odvars, c.omvars, c.iodvars, c.iomvars⟩
        simp only [ho, hd, decide_False, Bool.false_eq_true, if_false]
        refine ⟨?_, ?_, ?_, ?_, h.2.2.2.2.1, h.2.2.2.2.2⟩
        · rw [h.1]
          by_cases hx : gp = x
          · subst hx
            simp [hd]
          · simp [hx]
        · rw [h.2.1]
          by_cases hx : gp = x
          · subst hx
            simp [ho, hd]
          · simp [hx]
        · rw [h.2.2.1]
          by_cases hx : gp = x
          · subst hx
            simp [ho]
          · simp [hx]
        · rw [h.2.2.2.1]
          by_cases hx : gp = x
          · subst hx
            simp [ho]
          · simp [hx]
      · have h := ih ⟨c.idvars ++ [x], c.imvars, c.odvars, c.omvars, c.iodvars, c.iomvars⟩
        simp only [ho, hd, decide_False, Bool.false_eq_true, if_false, if_true]
        refine ⟨?_, ?_, ?_, ?_, h.2.2.2.2.1, h.2.2.2.2.2⟩
        · rw [h.1]
          by_cases hx : gp = x
          · subst hx
            simp [ho, hd]
          · simp [hx]
        · rw [h.2.1]
          by_cases hx : gp = x
          · subst hx
            simp [hd]
          · simp [hx]
        · rw [h.2.2.1]
          by_cases hx : gp = x
          · subst hx
            simp [ho]
          · simp [hx]
        · rw [h.2.2.2.1]
          by_cases hx : gp = x
          · subst hx
            simp [ho]
          · simp [hx]

theorem classify_outputs_mem (is_domain_var : Nat → Bool) (sg : StencilBundleBase)
    (l : List Nat) (c : VarClasses) (gp : Nat) :
    (gp ∈ (classify_outputs is_domain_var sg l c).odvars ↔
      gp ∈ c.odvars ∨ (gp ∈ l ∧ gp ∉ sg.input_var_ptrs ∧ is_domain_var gp = true)) ∧
    (gp ∈ (classify_outputs is_domain_var sg l c).omvars ↔
      gp ∈ c.omvars ∨ (gp ∈ l ∧ gp ∉ sg.input_var_ptrs ∧ is_domain_var gp = false)) ∧
    (classify_outputs is_domain_var sg l c).idvars = c.idvars ∧
    (classify_outputs is_domain_var sg l c).imvars = c.imvars ∧
    (classify_outputs is_domain_var sg l c).iodvars = c.iodvars ∧
    (classify_outputs is_domain_var sg l c).iomvars = c.iomvars := by
  induction l generalizing c with
  | nil => simp [classify_outputs]
  | cons x rest ih =>
    simp only [classify_outputs]
    by_cases hi : x ∈ sg.input_var_ptrs
    · have h := ih c
      simp only [hi, decide_True, Bool.not_true, Bool.false_eq_true, if_false]
      refine ⟨?_, ?_, h.2.2.1, h.2.2.2.1, h.2.2.2.2.1, h.2.2.2.2.2⟩
      · rw [h.1]
        by_cases hx : gp = x
        · subst hx
          simp [hi]
        · simp [hx]
      · rw [h.2.1]
        by_cases hx : gp = x
        · subst hx
          simp [hi]
        · simp [hx]
    · cases hd : is_domain_var x
      · have h := ih ⟨c.idvars, c.imvars, c.odvars, c.omvars ++ [x], c.iodvars, c.iomvars⟩
        simp only [hi, hd, decide_False, Bool.not_false, Bool.false_eq_true, if_false,
          if_true]
        refine ⟨?_, ?_, h.2.2.1, h.2.2.2.1, h.2.2.2.2.1, h.2.2.2.2.2⟩
        · rw [h.1]
          by_cases hx : gp = x
          · subst hx
            simp [hd]
          · simp [hx]
        · rw [h.2.1]
          by_cases hx : gp = x
          · subst hx
            simp [hi, hd]
          · simp [hx]
      · have h := ih ⟨c.idvars, c.imvars, c.odvars ++ [x], c.omvars, c.iodvars, c.iomvars⟩
        simp only [hi, hd, decide_False, Bool.not_false, if_true]
        refine ⟨?_, ?_, h.2.2.1, h.2.2.2.1, h.2.2.2.2.1, h.2.2.2.2.2⟩
        · rw [h.1]
          by_cases hx : gp = x
          · subst hx
            simp [hi, hd]
          · simp [hx]
        · rw [h.2.1]
          by_cases hx : gp = x
          · subst hx
            simp [hd]
          · simp [hx]

theorem classify_vars_mem (is_domain_var : Nat → Bool) (sg : StencilBundleBase) (gp : Nat) :
    (gp ∈ (sg.classify_vars is_domain_var).idvars ↔
      gp ∈ sg.input_var_ptrs ∧ gp ∉ sg.output_var_ptrs ∧ is_domain_var gp = true) ∧
    (gp ∈ (sg.classify_vars is_domain_var).imvars ↔
      gp ∈ sg.input_var_ptrs ∧ gp ∉ sg.output_var_ptrs ∧ is_domain_var gp = false) ∧
    (gp ∈ (sg.classify_vars is_domain_var).odvars ↔
      gp ∈ sg.output_var_ptrs ∧ gp ∉ sg.input_var_ptrs ∧ is_domain_var gp = true) ∧
    (gp ∈ (sg.classify_vars is_domain_var).omvars ↔
      gp ∈ sg.output_var_ptrs ∧ gp ∉ sg.input_var_ptrs ∧ is_domain_var gp = false) ∧
    (gp ∈ (sg.classify_vars is_domain_var).iodvars ↔
      gp ∈ sg.input_var_ptrs ∧ gp ∈ sg.output_var_ptrs ∧ is_domain_var gp = true) ∧
    (gp ∈ (sg.classify_vars is_domain_var).iomvars ↔
      gp ∈ sg.input_var_ptrs ∧ gp ∈ sg.output_var_ptrs ∧ is_domain_var gp = false) := by
  have hi := classify_inputs_mem is_domain_var sg sg.input_var_ptrs
    ⟨[], [], [], [], [], []⟩ gp
  have ho := classify_outputs_mem is_domain_var sg sg.output_var_ptrs
    (classify_inputs is_domain_var sg sg.input_var_ptrs ⟨[], [], [], [], [], []⟩) gp
  unfold StencilBundleBase.classify_vars
  obtain ⟨hi1, hi2, hi3, hi4, hi5, hi6⟩ := hi
  obtain ⟨ho1, ho2, ho3, ho4, ho5, ho6⟩ := ho
  simp only [List.not_mem_nil, false_or] at hi1 hi2 hi3 hi4
  rw [hi5] at ho1
  rw [hi6] at ho2
  simp only [List.not_mem_nil, false_or] at ho1 ho2
  refine ⟨?_, ?_, ho1, ho2, ?_, ?_⟩
  · rw [ho3]
    exact hi1
  · rw [ho4]
    exact hi2
  · rw [ho5]
    exact hi3
  · rw [ho6]
    exact hi4

/-- C21. The six variable lists built in `init_work_stats` (input-only domain `idvars`,
output-only domain `odvars`, input-output domain `iodvars`, input-only other `imvars`,
output-only other `omvars`, input-output other `iomvars`) are pairwise disjoint; a
variable is in one of them exactly when it is an input or an output variable of the
bundle; it is in an input-output list exactly when it is in both the input and the output
list, in an input-only list exactly when it is an input and not an output, in an
output-only list exactly when it is an output and not an input; and a variable of the
bundle is in a domain list exactly when `is_domain_var` holds for it. -/
theorem classify_vars_partition (is_domain_var : Nat → Bool) (sg : StencilBundleBase) :
    List.Pairwise List.Disjoint
      [(sg.classify_vars is_domain_var).idvars, (sg.classify_vars is_domain_var).odvars,
       (sg.classify_vars is_domain_var).iodvars, (sg.classify_vars is_domain_var).imvars,
       (sg.classify_vars is_domain_var).omvars, (sg.classify_vars is_domain_var).iomvars] ∧
    (∀ gp : Nat,
      (gp ∈ (sg.classify_vars is_domain_var).idvars ∨
        gp ∈ (sg.classify_vars is_domain_var).odvars ∨
        gp ∈ (sg.classify_vars is_domain_var).iodvars ∨
        gp ∈ (sg.classify_vars is_domain_var).imvars ∨
        gp ∈ (sg.classify_vars is_domain_var).omvars ∨
        gp ∈ (sg.classify_vars is_domain_var).iomvars) ↔
      (gp ∈ sg.input_var_ptrs ∨ gp ∈ sg.output_var_ptrs)) ∧
    (∀ gp : Nat,
      (gp ∈ (sg.classify_vars is_domain_var).iodvars ∨
        gp ∈ (sg.classify_vars is_domain_var).iomvars) ↔
      (gp ∈ sg.input_var_ptrs ∧ gp ∈ sg.output_var_ptrs)) ∧
    (∀ gp : Nat,
      (gp ∈ (sg.classify_vars is_domain_var).idvars ∨
        gp ∈ (sg.classify_vars is_domain_var).imvars) ↔
      (gp ∈ sg.input_var_ptrs ∧ gp ∉ sg.output_var_ptrs)) ∧
    (∀ gp : Nat,
      (gp ∈ (sg.classify_vars is_domain_var).odvars ∨
        gp ∈ (sg.classify_vars is_domain_var).omvars) ↔
      (gp ∈ sg.output_var_ptrs ∧ gp ∉ sg.input_var_ptrs)) ∧
    (∀ gp : Nat,
      (gp ∈ (sg.classify_vars is_domain_var).idvars ∨
        gp ∈ (sg.classify_vars is_domain_var).odvars ∨
        gp ∈ (sg.classify_vars is_domain_var).iodvars) ↔
      ((gp ∈ sg.input_var_ptrs ∨ gp ∈ sg.output_var_ptrs) ∧ is_domain_var gp = true)) ∧
    (∀ gp : Nat,
      (gp ∈ (sg.classify_vars is_domain_var).imvars ∨
        gp ∈ (sg.classify_vars is_domain_var).omvars ∨
        gp ∈ (sg.classify_vars is_domain_var).iomvars) ↔
      ((gp ∈ sg.input_var_ptrs ∨ gp ∈ sg.output_var_ptrs) ∧ is_domain_var gp = false)) := by
  have hm := classify_vars_mem is_domain_var sg
  refine ⟨?_, ?_, ?_, ?_, ?_, ?_, ?_⟩
  · simp only [List.pairwise_cons, List.mem_cons, List.mem_singleton, List.not_mem_nil,
      forall_eq_or_imp, forall_eq, List.Pairwise.nil, and_true, false_implies,
      implies_true, List.Disjoint]
    refine ⟨⟨?_, ?_, ?_, ?_, ?_⟩, ⟨?_, ?_, ?_, ?_⟩, ⟨?_, ?_, ?_⟩, ⟨?_, ?_⟩, ?_⟩ <;>
      intro gp h1 h2 <;>
      obtain ⟨m1, m2, m3, m4, m5, m6⟩ := hm gp <;>
      simp only [m1, m2, m3, m4, m5, m6] at h1 h2 <;>
      cases hd : is_domain_var gp <;> simp_all
  · intro gp
    obtain ⟨m1, m2, m3, m4, m5, m6⟩ := hm gp
    rw [m1, m2, m3, m4, m5, m6]
    cases hd : is_domain_var gp <;>
      by_cases hi : gp ∈ sg.input_var_ptrs <;>
      by_cases ho : gp ∈ sg.output_var_ptrs <;> simp [hi, ho]
  · intro gp
    obtain ⟨m1, m2, m3, m4, m5, m6⟩ := hm gp
    rw [m5, m6]
    cases hd : is_domain_var gp <;>
      by_cases hi : gp ∈ sg.input_var_ptrs <;>
      by_cases ho : gp ∈ sg.output_var_ptrs <;> simp [hi, ho]
  · intro gp
    obtain ⟨m1, m2, m3, m4, m5, m6⟩ := hm gp
    rw [m1, m2]
    cases hd : is_domain_var gp <;>
      by_cases hi : gp ∈ sg.input_var_ptrs <;>
      by_cases ho : gp ∈ sg.output_var_ptrs <;> simp [hi, ho]
  · intro gp
    obtain ⟨m1, m2, m3, m4, m5, m6⟩ := hm gp
    rw [m3, m4]
    cases hd : is_domain_var gp <;>
      by_cases hi : gp ∈ sg.input_var_ptrs <;>
      by_cases ho : gp ∈ sg.output_var_ptrs <;> simp [hi, ho]
  · intro gp
    obtain ⟨m1, m2, m3, m4, m5, m6⟩ := hm gp
    rw [m1, m3, m5]
    cases hd : is_domain_var gp <;>
      by_cases hi : gp ∈ sg.input_var_ptrs <;>
      by_cases ho : gp ∈ sg.output_var_ptrs <;> simp [hi, ho]
  · intro gp
    obtain ⟨m1, m2, m3, m4, m5, m6⟩ := hm gp
    rw [m2, m4, m6]
    cases hd : is_domain_var gp <;>
      by_cases hi : gp ∈ sg.input_var_ptrs <;>
      by_cases ho : gp ∈ sg.output_var_ptrs <;> simp [hi, ho]

/-! ## Points accounted to a bundle with disjoint boxes -/

theorem zipWith_max_self (a : Indices) : List.zipWith max a a = a := by
  induction a with
  | nil => rfl
  | cons x a ih => simp only [List.zipWith_cons_cons, max_self, ih]

theorem zipWith_min_self (a : Indices) : List.zipWith min a a = a := by
  induction a with
  | nil => rfl
  | cons x a ih => simp only [List.zipWith_cons_cons, min_self, ih]

/-- The intersection of a box with itself has the begin and the end of the box and the
number of points of its extent. -/
theorem intersection_with_self (bb : BoundingBox) :
    bb.intersection_with bb = ⟨bb.bb_begin, bb.bb_end, bb.extent_points⟩ := by
  unfold BoundingBox.intersection_with BoundingBox.extent_points
  simp only [zipWith_max_self, zipWith_min_self]

theorem idx_get_zipWith (f : idx_t → idx_t → idx_t) (a b : Indices) (j : Nat)
    (ha : j < a.length) (hb : j < b.length) :
    idx_get (List.zipWith f a b) j = f (idx_get a j) (idx_get b j) := by
  induction a generalizing b j with
  | nil => simp at ha
  | cons x a ih =>
    cases b with
    | nil => simp at hb
    | cons y b =>
      cases j with
      | zero => rfl
      | succ j =>
        simp only [List.length_cons, Nat.add_lt_add_iff_right] at ha hb
        exact ih b j ha hb

theorem zipWith_sub_all_pos (E B : Indices)
    (h : (List.zipWith (fun e b => e - b) E B).all (fun l => decide (l > 0)) = true)
    (j : Nat) (hE : j < E.length) (hB : j < B.length) : idx_get B j < idx_get E j := by
  induction E generalizing B j with
  | nil => simp at hE
  | cons e E ih =>
    cases B with
    | nil => simp at hB
    | cons b B =>
      simp only [List.zipWith_cons_cons, List.all_cons, Bool.and_eq_true,
        decide_eq_true_eq] at h
      cases j with
      | zero =>
        show b < e
        linarith [h.1]
      | succ j =>
        simp only [List.length_cons, Nat.add_lt_add_iff_right] at hE hB
        exact ih B h.2 j hE hB

/-- Two disjoint boxes of the same number of dimensions intersect in no point. -/
theorem intersection_points_of_disjoint (ndd : Nat) (a b : BoundingBox)
    (ha : a.bb_begin.length = ndd) (hae : a.bb_end.length = ndd)
    (hb : b.bb_begin.length = ndd) (hbe : b.bb_end.length = ndd)
    (hd : a.disjoint_from b) : (a.intersection_with b).bb_num_points = 0 := by
  unfold BoundingBox.intersection_with
  simp only
  split_ifs with hall
  · exfalso
    apply hd (List.zipWith max a.bb_begin b.bb_begin)
    have key : ∀ j, j < ndd →
        max (idx_get a.bb_begin j) (idx_get b.bb_begin j) <
          min (idx_get a.bb_end j) (idx_get b.bb_end j) := by
      intro j hj
      have h1 := zipWith_sub_all_pos _ _ hall j
        (by rw [List.length_zipWith, hae, hbe, Nat.min_self]; exact hj)
        (by rw [List.length_zipWith, ha, hb, Nat.min_self]; exact hj)
      rw [idx_get_zipWith max _ _ j (ha ▸ hj) (hb ▸ hj),
        idx_get_zipWith min _ _ j (hae ▸ hj) (hbe ▸ hj)] at h1
      exact h1
    constructor
    · intro j hj
      rw [ha] at hj
      rw [idx_get_zipWith max _ _ j (ha ▸ hj) (hb ▸ hj)]
      exact ⟨le_max_left _ _, lt_of_lt_of_le (key j hj) (min_le_left _ _)⟩
    · intro j hj
      rw [hb] at hj
      rw [idx_get_zipWith max _ _ j (ha ▸ hj) (hb ▸ hj)]
      exact ⟨le_max_right _ _, lt_of_lt_of_le (key j hj) (min_le_right _ _)⟩
  · rfl

theorem disjoint_from_symm (a b : BoundingBox) (h : a.disjoint_from b) :
    b.disjoint_from a :=
  fun p hp => h p ⟨hp.2, hp.1⟩

/-- A double sum over a list whose terms vanish on every pair of different positions is
the sum over the diagonal. -/
theorem sum_pairwise_diag {α : Type} (R : α → α → Prop) (f : α → α → idx_t) (l : List α)
    (hR : ∀ x, x ∈ l → ∀ y, y ∈ l → R x y → f x y = 0 ∧ f y x = 0)
    (hp : l.Pairwise R) :
    (l.map fun x => (l.map fun y => f x y).sum).sum = (l.map fun x => f x x).sum := by
  induction l with
  | nil => rfl
  | cons a l ih =>
    rw [List.pairwise_cons] at hp
    simp only [List.map_cons, List.sum_cons]
    have h1 : (l.map fun y => f a y).sum = 0 := by
      have hall : ∀ y ∈ l, f a y = 0 := fun y hy =>
        (hR a (List.mem_cons_self a l) y (List.mem_cons_of_mem a hy) (hp.1 y hy)).1
      rw [List.map_congr_left hall]
      simp
    have h2 : (l.map fun x => f x a + (l.map fun y => f x y).sum).sum =
        (l.map fun x => (l.map fun y => f x y).sum).sum := by
      apply congrArg
      apply List.map_congr_left
      intro x hx
      rw [(hR a (List.mem_cons_self a l) x (List.mem_cons_of_mem a hx) (hp.1 x hx)).2,
        zero_add]
    rw [h1, h2, add_zero,
      ih (fun x hx y hy => hR x (List.mem_cons_of_mem a hx) y (List.mem_cons_of_mem a hy))
        hp.2]

/-- The diagonal of the double sum over the boxes of a bundle: with full and pairwise
disjoint boxes, the weighted points of all the intersections are the weighted points of
the boxes. -/
theorem sum_intersections_disjoint (ndd : Nat) (c : idx_t) (l : List BoundingBox)
    (hfull : ∀ bb, bb ∈ l → bb.is_full ndd)
    (hdis : l.Pairwise BoundingBox.disjoint_from) :
    (l.map fun fbb =>
      (l.map fun fnbb => c * (fbb.intersection_with fnbb).bb_num_points).sum).sum =
      c * (l.map fun bb => bb.bb_num_points).sum := by
  rw [sum_pairwise_diag BoundingBox.disjoint_from
    (fun x y => c * (x.intersection_with y).bb_num_points) l ?_ hdis]
  · rw [← List.sum_map_mul_left]
    apply congrArg
    apply List.map_congr_left
    intro bb hbb
    rw [intersection_with_self, (hfull bb hbb).2.2]
  · intro x hx y hy hxy
    have fx := hfull x hx
    have fy := hfull y hy
    show c * (x.intersection_with y).bb_num_points = 0 ∧
      c * (y.intersection_with x).bb_num_points = 0
    rw [intersection_points_of_disjoint ndd x y fx.1 fx.2.1 fy.1 fy.2.1 hxy,
      intersection_points_of_disjoint ndd y x fy.1 fy.2.1 fx.1 fx.2.1
        (disjoint_from_symm x y hxy)]
    exact ⟨mul_zero c, mul_zero c⟩

/-- C23. For a bundle whose required bundles are the bundle alone (a non-scratch bundle
without scratch prerequisites) and whose boxes are full boxes of `ndd` dimensions that are
pairwise disjoint: the intersection of every box with itself is that box; after the loops
of lines 533-558 the number of points under the name of the bundle is the sum of the
numbers of points of its boxes, and its reads, writes and FP operations are the costs per
point times that sum; with a single box `bb` the number of points is `bb.bb_num_points`
and the reads, writes and FP operations are the costs per point times
`bb.bb_num_points`. -/
theorem stats_points_of_disjoint_boxes (ndd : Nat) (sg : StencilBundleBase)
    (hfull : ∀ bb, bb ∈ sg.get_bbs → bb.is_full ndd)
    (hdis : sg.get_bbs.Pairwise BoundingBox.disjoint_from) :
    (∀ bb, bb ∈ sg.get_bbs → bb.intersection_with bb = bb) ∧
    (stats_fbb_loop [sg] sg.get_bbs ⟨fun _ => 0, fun _ => 0, fun _ => 0, fun _ => 0⟩).npts sg.name =
      (sg.get_bbs.map fun bb => bb.bb_num_points).sum ∧
    (stats_fbb_loop [sg] sg.get_bbs ⟨fun _ => 0, fun _ => 0, fun _ => 0, fun _ => 0⟩).reads sg.name =
      sg.get_scalar_points_read * (sg.get_bbs.map fun bb => bb.bb_num_points).sum ∧
    (stats_fbb_loop [sg] sg.get_bbs ⟨fun _ => 0, fun _ => 0, fun _ => 0, fun _ => 0⟩).writes sg.name =
      sg.get_scalar_points_written * (sg.get_bbs.map fun bb => bb.bb_num_points).sum ∧
    (stats_fbb_loop [sg] sg.get_bbs ⟨fun _ => 0, fun _ => 0, fun _ => 0, fun _ => 0⟩).fpops sg.name =
      sg.get_scalar_fp_ops * (sg.get_bbs.map fun bb => bb.bb_num_points).sum ∧
    (∀ bb, sg.get_bbs = [bb] →
      (stats_fbb_loop [sg] sg.get_bbs ⟨fun _ => 0, fun _ => 0, fun _ => 0, fun _ => 0⟩).npts sg.name = bb.bb_num_points ∧
      (stats_fbb_loop [sg] sg.get_bbs ⟨fun _ => 0, fun _ => 0, fun _ => 0, fun _ => 0⟩).reads sg.name =
        sg.get_scalar_points_read * bb.bb_num_points ∧
      (stats_fbb_loop [sg] sg.get_bbs ⟨fun _ => 0, fun _ => 0, fun _ => 0, fun _ => 0⟩).writes sg.name =
        sg.get_scalar_points_written * bb.bb_num_points ∧
      (stats_fbb_loop [sg] sg.get_bbs ⟨fun _ => 0, fun _ => 0, fun _ => 0, fun _ => 0⟩).fpops sg.name =
        sg.get_scalar_fp_ops * bb.bb_num_points) := by
  have hm := stats_fbb_loop_maps [sg] sg.get_bbs ⟨fun _ => 0, fun _ => 0, fun _ => 0, fun _ => 0⟩ sg.name
  simp only [List.map_cons, List.map_nil, List.sum_cons, List.sum_nil, if_true, add_zero,
    zero_add] at hm
  have h1 := sum_intersections_disjoint ndd 1 sg.get_bbs hfull hdis
  simp only [one_mul] at h1
  have hn : (stats_fbb_loop [sg] sg.get_bbs ⟨fun _ => 0, fun _ => 0, fun _ => 0, fun _ => 0⟩).npts sg.name =
      (sg.get_bbs.map fun bb => bb.bb_num_points).sum := by
    rw [hm.1, h1]
  have hr : (stats_fbb_loop [sg] sg.get_bbs ⟨fun _ => 0, fun _ => 0, fun _ => 0, fun _ => 0⟩).reads sg.name =
      sg.get_scalar_points_read * (sg.get_bbs.map fun bb => bb.bb_num_points).sum := by
    rw [hm.2.1, sum_intersections_disjoint ndd _ sg.get_bbs hfull hdis]
  have hw : (stats_fbb_loop [sg] sg.get_bbs ⟨fun _ => 0, fun _ => 0, fun _ => 0, fun _ => 0⟩).writes sg.name =
      sg.get_scalar_points_written * (sg.get_bbs.map fun bb => bb.bb_num_points).sum := by
    rw [hm.2.2.1, sum_intersections_disjoint ndd _ sg.get_bbs hfull hdis]
  have hf : (stats_fbb_loop [sg] sg.get_bbs ⟨fun _ => 0, fun _ => 0, fun _ => 0, fun _ => 0⟩).fpops sg.name =
      sg.get_scalar_fp_ops * (sg.get_bbs.map fun bb => bb.bb_num_points).sum := by
    rw [hm.2.2.2, sum_intersections_disjoint ndd _ sg.get_bbs hfull hdis]
  refine ⟨?_, hn, hr, hw, hf, ?_⟩
  · intro bb hbb
    rw [intersection_with_self, ← (hfull bb hbb).2.2]
  · intro bb hbb
    rw [hn, hr, hw, hf, hbb]
    simp only [List.map_cons, List.map_nil, List.sum_cons, List.sum_nil, add_zero]
    exact ⟨trivial, trivial, trivial, trivial⟩

/-- C23, witness: the bundle `b` with the disjoint full boxes `[0,2) x [0,3)` of 6 points
and `[2,5) x [0,3)` of 9 points and the costs (3, 1, 5) per point is accounted 15 points,
45 reads, 15 writes and 75 FP operations. -/
theorem stats_points_of_disjoint_boxes_witness :
    (stats_fbb_loop [({ name := "b", is_scratch := false, _bundle_bb := { bb_begin := [0, 0], bb_end := [5, 3], bb_num_points := 15 }, _bb_list := [{ bb_begin := [0, 0], bb_end := [2, 3], bb_num_points := 6 }, { bb_begin := [2, 0], bb_end := [5, 3], bb_num_points := 9 }], is_in_valid_step := fun _ => true, get_output_step_index := fun t => some (t + 1), output_var_ptrs := [0], output_scratch_vecs := [], max_lh := [], max_rh := [], get_scalar_points_read := 3, get_scalar_points_written := 1, get_scalar_fp_ops := 5 } : StencilBundleBase)]
      (StencilBundleBase.get_bbs ({ name := "b", is_scratch := false, _bundle_bb := { bb_begin := [0, 0], bb_end := [5, 3], bb_num_points := 15 }, _bb_list := [{ bb_begin := [0, 0], bb_end := [2, 3], bb_num_points := 6 }, { bb_begin := [2, 0], bb_end := [5, 3], bb_num_points := 9 }], is_in_valid_step := fun _ => true, get_output_step_index := fun t => some (t + 1), output_var_ptrs := [0], output_scratch_vecs := [], max_lh := [], max_rh := [], get_scalar_points_read := 3, get_scalar_points_written := 1, get_scalar_fp_ops := 5 } : StencilBundleBase)) ⟨fun _ => 0, fun _ => 0, fun _ => 0, fun _ => 0⟩).npts "b" = 15 ∧
    (stats_fbb_loop [({ name := "b", is_scratch := false, _bundle_bb := { bb_begin := [0, 0], bb_end := [5, 3], bb_num_points := 15 }, _bb_list := [{ bb_begin := [0, 0], bb_end := [2, 3], bb_num_points := 6 }, { bb_begin := [2, 0], bb_end := [5, 3], bb_num_points := 9 }], is_in_valid_step := fun _ => true, get_output_step_index := fun t => some (t + 1), output_var_ptrs := [0], output_scratch_vecs := [], max_lh := [], max_rh := [], get_scalar_points_read := 3, get_scalar_points_written := 1, get_scalar_fp_ops := 5 } : StencilBundleBase)]
      (StencilBundleBase.get_bbs ({ name := "b", is_scratch := false, _bundle_bb := { bb_begin := [0, 0], bb_end := [5, 3], bb_num_points := 15 }, _bb_list := [{ bb_begin := [0, 0], bb_end := [2, 3], bb_num_points := 6 }, { bb_begin := [2, 0], bb_end := [5, 3], bb_num_points := 9 }], is_in_valid_step := fun _ => true, get_output_step_index := fun t => some (t + 1), output_var_ptrs := [0], output_scratch_vecs := [], max_lh := [], max_rh := [], get_scalar_points_read := 3, get_scalar_points_written := 1, get_scalar_fp_ops := 5 } : StencilBundleBase)) ⟨fun _ => 0, fun _ => 0, fun _ => 0, fun _ => 0⟩).reads "b" = 45 ∧
    (stats_fbb_loop [({ name := "b", is_scratch := false, _bundle_bb := { bb_begin := [0, 0], bb_end := [5, 3], bb_num_points := 15 }, _bb_list := [{ bb_begin := [0, 0], bb_end := [2, 3], bb_num_points := 6 }, { bb_begin := [2, 0], bb_end := [5, 3], bb_num_points := 9 }], is_in_valid_step := fun _ => true, get_output_step_index := fun t => some (t + 1), output_var_ptrs := [0], output_scratch_vecs := [], max_lh := [], max_rh := [], get_scalar_points_read := 3, get_scalar_points_written := 1, get_scalar_fp_ops := 5 } : StencilBundleBase)]
      (StencilBundleBase.get_bbs ({ name := "b", is_scratch := false, _bundle_bb := { bb_begin := [0, 0], bb_end := [5, 3], bb_num_points := 15 }, _bb_list := [{ bb_begin := [0, 0], bb_end := [2, 3], bb_num_points := 6 }, { bb_begin := [2, 0], bb_end := [5, 3], bb_num_points := 9 }], is_in_valid_step := fun _ => true, get_output_step_index := fun t => some (t + 1), output_var_ptrs := [0], output_scratch_vecs := [], max_lh := [], max_rh := [], get_scalar_points_read := 3, get_scalar_points_written := 1, get_scalar_fp_ops := 5 } : StencilBundleBase)) ⟨fun _ => 0, fun _ => 0, fun _ => 0, fun _ => 0⟩).writes "b" = 15 ∧
    (stats_fbb_loop [({ name := "b", is_scratch := false, _bundle_bb := { bb_begin := [0, 0], bb_end := [5, 3], bb_num_points := 15 }, _bb_list := [{ bb_begin := [0, 0], bb_end := [2, 3], bb_num_points := 6 }, { bb_begin := [2, 0], bb_end := [5, 3], bb_num_points := 9 }], is_in_valid_step := fun _ => true, get_output_step_index := fun t => some (t + 1), output_var_ptrs := [0], output_scratch_vecs := [], max_lh := [], max_rh := [], get_scalar_points_read := 3, get_scalar_points_written := 1, get_scalar_fp_ops := 5 } : StencilBundleBase)]
      (StencilBundleBase.get_bbs ({ name := "b", is_scratch := false, _bundle_bb := { bb_begin := [0, 0], bb_end := [5, 3], bb_num_points := 15 }, _bb_list := [{ bb_begin := [0, 0], bb_end := [2, 3], bb_num_points := 6 }, { bb_begin := [2, 0], bb_end := [5, 3], bb_num_points := 9 }], is_in_valid_step := fun _ => true, get_output_step_index := fun t => some (t + 1), output_var_ptrs := [0], output_scratch_vecs := [], max_lh := [], max_rh := [], get_scalar_points_read := 3, get_scalar_points_written := 1, get_scalar_fp_ops := 5 } : StencilBundleBase)) ⟨fun _ => 0, fun _ => 0, fun _ => 0, fun _ => 0⟩).fpops "b" = 75 :=
  have h := stats_points_of_disjoint_boxes 2
    ({ name := "b", is_scratch := false, _bundle_bb := { bb_begin := [0, 0], bb_end := [5, 3], bb_num_points := 15 }, _bb_list := [{ bb_begin := [0, 0], bb_end := [2, 3], bb_num_points := 6 }, { bb_begin := [2, 0], bb_end := [5, 3], bb_num_points := 9 }], is_in_valid_step := fun _ => true, get_output_step_index := fun t => some (t + 1), output_var_ptrs := [0], output_scratch_vecs := [], max_lh := [], max_rh := [], get_scalar_points_read := 3, get_scalar_points_written := 1, get_scalar_fp_ops := 5 } : StencilBundleBase)
    (by
      intro bb hbb
      simp only [StencilBundleBase.get_bbs, List.mem_cons, List.mem_singleton,
        List.not_mem_nil, or_false] at hbb
      rcases hbb with rfl | rfl
      · exact ⟨rfl, rfl, by decide⟩
      · exact ⟨rfl, rfl, by decide⟩)
    (List.Pairwise.cons
      (by
        intro y hy
        simp only [List.mem_singleton] at hy
        subst hy
        intro p hp
        have h1 := hp.1 0 (by decide)
        have h2 := hp.2 0 (by decide)
        simp only [idx_get, List.getD_cons_zero] at h1 h2
        exact absurd (lt_of_le_of_lt h2.1 h1.2) (by decide))
      (List.Pairwise.cons (by intro y hy; cases hy) List.Pairwise.nil))
  ⟨h.2.1, h.2.2.1, h.2.2.2.1, h.2.2.2.2.1⟩

end yask
